import Mathlib

/-! ESP32 / ADS1115 acquisition node: a verification development.

A shallow embedding of the firmware's acquisition, fault-recovery and
command/telemetry code, followed by theorems about it.

Conventions of the embedding

* Global variables of the firmware become fields of explicit state records.
* Everything the code obtains from outside the program (the clock `millis()`,
  the outcome of a bus transaction, the outcome of a bounded-wait lock
  acquisition) is an argument of the function that embeds the code.
* Calls that leave the program (bus transactions, notifications) are recorded
  in trace fields of the state, in program order.
* `uint8_t` and `unsigned long` arithmetic is done on `Nat` with an explicit
  reduction modulo `2^8` and `2^32`.
-/

namespace Firmware

/-! ## adc_module.cpp: the two sensor channels and their health tracking -/

/-- I2C address of ADS1115 #1 (`0x48`). -/
def ADS1_ADDR : Nat := 0x48

/-- I2C address of ADS1115 #2 (`0x49`). -/
def ADS2_ADDR : Nat := 0x49

/-- The constant `MAX_ERRORS_BEFORE_RESET`. -/
def MAX_ERRORS_BEFORE_RESET : Nat := 5

/-- The constant `RECOVERY_INTERVAL_MS`. -/
def RECOVERY_INTERVAL_MS : Nat := 5000

/-- Gain settings used by the firmware. -/
inductive Gain where
  | GAIN_ONE
  | GAIN_EIGHT
deriving DecidableEq, Repr

/-- A call made to the bus layer (`Wire`) or to one of the two ADS1115 driver
objects; the first argument of a device call is the I2C address of the
device. -/
inductive BusOp where
  /-- The call `ads.begin(addr)`: the probe. -/
  | begin (addr : Nat)
  /-- The call `ads.setGain(g)`. -/
  | setGain (addr : Nat) (g : Gain)
  /-- The call `ads.setDataRate(RATE_ADS1115_860SPS)`. -/
  | setDataRate (addr : Nat)
  /-- The call `Wire.setTimeOut(ms)`. -/
  | wireSetTimeOut (ms : Nat)
  /-- The call `ads.readADC_Differential_0_1()`. -/
  | readDifferential01 (addr : Nat)
  /-- The call `ads.readADC_SingleEnded(ch)`. -/
  | readSingleEnded (addr : Nat) (ch : Nat)
deriving DecidableEq, Repr

/-- The device a bus call addresses, if it addresses one. -/
def BusOp.device : BusOp → Option Nat
  | .begin a => some a
  | .setGain a _ => some a
  | .setDataRate a => some a
  | .wireSetTimeOut _ => none
  | .readDifferential01 a => some a
  | .readSingleEnded a _ => some a

/-- The global variables of `adc_module.cpp` that the read and recovery paths
use, and the trace `busLog` of the bus calls made so far (oldest first). -/
structure AdcState where
  ads1_available : Bool
  ads2_available : Bool
  lastGoodShuntReading : Int
  lastGoodAds2Reading : Int
  ads1ErrorCount : Nat
  ads2ErrorCount : Nat
  lastAds1RecoveryAttempt : Nat
  lastAds2RecoveryAttempt : Nat
  busLog : List BusOp
deriving DecidableEq, Repr

/-- The subtraction `a - b` of two `unsigned long` values (32 bits). -/
def ulongSub (a b : Nat) : Nat := (a + 2 ^ 32 - b % 2 ^ 32) % 2 ^ 32

/-- The statement `n++` on a `uint8_t`. -/
def uint8Incr (n : Nat) : Nat := (n + 1) % 2 ^ 8

/-- The function `readShuntDifferential`. `now` is the value of `millis()`,
`beginOk` the result of `ads1.begin(0x48)` and `reading` the outcome of
`ads1.readADC_Differential_0_1()` (`none`: the call threw), each used only if
the call is made. Returns the value returned and the new state. -/
def readShuntDifferential (s : AdcState) (now : Nat) (beginOk : Bool)
    (reading : Option Int) : Int × AdcState :=
  if s.ads1_available = false then
    if ulongSub now s.lastAds1RecoveryAttempt > RECOVERY_INTERVAL_MS then
      let s1 := { s with lastAds1RecoveryAttempt := now,
                         busLog := s.busLog ++ [BusOp.begin ADS1_ADDR] }
      if beginOk then
        let s2 := { s1 with
          busLog := s1.busLog ++ [BusOp.setGain ADS1_ADDR Gain.GAIN_EIGHT,
                                  BusOp.setDataRate ADS1_ADDR],
          ads1_available := true,
          ads1ErrorCount := 0 }
        (s2.lastGoodShuntReading, s2)
      else
        (s1.lastGoodShuntReading, s1)
    else
      (s.lastGoodShuntReading, s)
  else
    let s1 := { s with busLog := s.busLog ++ [BusOp.wireSetTimeOut 100,
                                               BusOp.readDifferential01 ADS1_ADDR] }
    match reading with
    | some v =>
      let s2 := { s1 with ads1ErrorCount := 0, lastGoodShuntReading := v }
      (v, s2)
    | none =>
      let s2 := { s1 with ads1ErrorCount := uint8Incr s1.ads1ErrorCount }
      let s3 := if s2.ads1ErrorCount ≥ MAX_ERRORS_BEFORE_RESET
                then { s2 with ads1_available := false } else s2
      (s3.lastGoodShuntReading, s3)

/-- The function `readADS2Channel0`; arguments as for
`readShuntDifferential`, for `ads2.begin(0x49)` and
`ads2.readADC_SingleEnded(0)`. -/
def readADS2Channel0 (s : AdcState) (now : Nat) (beginOk : Bool)
    (reading : Option Int) : Int × AdcState :=
  if s.ads2_available = false then
    if ulongSub now s.lastAds2RecoveryAttempt > RECOVERY_INTERVAL_MS then
      let s1 := { s with lastAds2RecoveryAttempt := now,
                         busLog := s.busLog ++ [BusOp.begin ADS2_ADDR] }
      if beginOk then
        let s2 := { s1 with
          busLog := s1.busLog ++ [BusOp.setGain ADS2_ADDR Gain.GAIN_ONE,
                                  BusOp.setDataRate ADS2_ADDR],
          ads2_available := true,
          ads2ErrorCount := 0 }
        (s2.lastGoodAds2Reading, s2)
      else
        (s1.lastGoodAds2Reading, s1)
    else
      (s.lastGoodAds2Reading, s)
  else
    let s1 := { s with busLog := s.busLog ++ [BusOp.wireSetTimeOut 100,
                                               BusOp.readSingleEnded ADS2_ADDR 0] }
    match reading with
    | some v =>
      let s2 := { s1 with ads2ErrorCount := 0, lastGoodAds2Reading := v }
      (v, s2)
    | none =>
      let s2 := { s1 with ads2ErrorCount := uint8Incr s1.ads2ErrorCount }
      let s3 := if s2.ads2ErrorCount ≥ MAX_ERRORS_BEFORE_RESET
                then { s2 with ads2_available := false } else s2
      (s3.lastGoodAds2Reading, s3)

/-- The two recovery blocks of one pass of the loop of `monitorTask`
(main.cpp, "ADS1115 #1 recovery logic" and "ADS1115 #2 recovery logic").
`begin1Ok` and `begin2Ok` are the results of `ads1.begin(0x48)` and
`ads2.begin(0x49)`, each used only if the call is made. -/
def monitorTaskAdsRecovery (s : AdcState) (begin1Ok begin2Ok : Bool) : AdcState :=
  let s1 :=
    if s.ads1_available = false then
      let t := { s with busLog := s.busLog ++ [BusOp.begin ADS1_ADDR] }
      if begin1Ok then
        { t with
          busLog := t.busLog ++ [BusOp.setGain ADS1_ADDR Gain.GAIN_EIGHT,
                                 BusOp.setDataRate ADS1_ADDR],
          ads1_available := true }
      else t
    else s
  if s1.ads2_available = false then
    let t := { s1 with busLog := s1.busLog ++ [BusOp.begin ADS2_ADDR] }
    if begin2Ok then
      { t with
        busLog := t.busLog ++ [BusOp.setGain ADS2_ADDR Gain.GAIN_ONE,
                               BusOp.setDataRate ADS2_ADDR],
        ads2_available := true }
    else t
  else s1

/-- The state of the variables of `adc_module.cpp` when `setup` of main.cpp
has initialised the converters: ADS1115 #1 is available (the firmware restarts
otherwise); `ads2Present` tells whether `initializeADS` found ADS1115 #2. The
bus calls of `setup` itself are not part of the trace. -/
def bootAdcState (ads2Present : Bool) : AdcState :=
  { ads1_available := true,
    ads2_available := ads2Present,
    lastGoodShuntReading := 0,
    lastGoodAds2Reading := 0,
    ads1ErrorCount := 0,
    ads2ErrorCount := 0,
    lastAds1RecoveryAttempt := 0,
    lastAds2RecoveryAttempt := 0,
    busLog := [] }

/-- The state after a sequence of calls of `readShuntDifferential`, one per
entry `(now, beginOk, reading)` of `calls`, in order. -/
def shuntReads (s : AdcState) (calls : List (Nat × Bool × Option Int)) : AdcState :=
  calls.foldl (fun acc c => (readShuntDifferential acc c.1 c.2.1 c.2.2).2) s

/-- Five calls of `readShuntDifferential`, 17 ms apart from `millis() = 10000`
on, each with a failing bus read. -/
def fiveFailedReads : List (Nat × Bool × Option Int) :=
  [(10000, false, none), (10017, false, none), (10034, false, none),
   (10051, false, none), (10068, false, none)]

/-- The state in which channel 1 is unavailable and its last recovery attempt,
a failed probe, was made at `millis() = 20000`: boot, five failed reads, and a
read at `20000` whose probe fails. -/
def unavailableSinceProbeAt20000 : AdcState :=
  (readShuntDifferential (shuntReads (bootAdcState true) fiveFailedReads) 20000 false none).2

/-- The state after boot, five failed reads of channel 1, and a pass of the
monitor task whose probe of ADS1115 #1 succeeds. -/
def recoveredByMonitor : AdcState :=
  monitorTaskAdsRecovery (shuntReads (bootAdcState true) fiveFailedReads) true true

/-- The states the variables of `adc_module.cpp` can take after `setup`: the
boot state, and what the reads of the acquisition task and the recovery pass of
the monitor task make of a reachable state. -/
inductive AdcReachable : AdcState → Prop where
  | boot (ads2Present : Bool) : AdcReachable (bootAdcState ads2Present)
  | readShunt {s : AdcState} (now : Nat) (beginOk : Bool) (reading : Option Int) :
      AdcReachable s → AdcReachable (readShuntDifferential s now beginOk reading).2
  | readADS2 {s : AdcState} (now : Nat) (beginOk : Bool) (reading : Option Int) :
      AdcReachable s → AdcReachable (readADS2Channel0 s now beginOk reading).2
  | monitor {s : AdcState} (begin1Ok begin2Ok : Bool) :
      AdcReachable s → AdcReachable (monitorTaskAdsRecovery s begin1Ok begin2Ok)

/-! ## Arduino `String`, `atol` and `sscanf`

Text is a list of characters. The commands and version strings handled here
are built from C strings (`String(value.c_str())`), so they hold no NUL. -/

/-- Text: the content of an Arduino `String` or of a C string. -/
abbrev Str := List Char

deriving instance DecidableEq for Except

/-- The method `String::substring(left, right)`. -/
def substring (s : Str) (left right : Nat) : Str :=
  let l := if left > right then right else left
  let r := if left > right then left else right
  if l ≥ s.length then []
  else
    let r1 := if r > s.length then s.length else r
    (s.drop l).take (r1 - l)

/-- The method `String::substring(beginIndex)`, which is
`substring(beginIndex, length())`. -/
def substringFrom (s : Str) (beginIndex : Nat) : Str :=
  substring s beginIndex s.length

/-- The method `String::startsWith(pre)`. -/
def startsWith (s pre : Str) : Bool := pre.isPrefixOf s

/-- The method `String::indexOf(ch)`: the index of the first occurrence, and
`none` for the result `-1`. -/
def indexOf (s : Str) (ch : Char) : Option Nat :=
  match s with
  | [] => none
  | c :: rest => if c = ch then some 0 else (indexOf rest ch).map (· + 1)

/-- The C function `isspace` in the "C" locale. -/
def isSpace (c : Char) : Bool :=
  c.toNat = 32 || (9 ≤ c.toNat && c.toNat ≤ 13)

/-- The value of a run of decimal digits, most significant first, continuing
from the value `acc` of the digits already read. -/
def digitsValue (acc : Nat) : Str → Nat
  | [] => acc
  | c :: rest => digitsValue (acc * 10 + (c.toNat - 48)) rest

/-- The largest `long` (and `int`) of the target, `2^31 - 1`. -/
def LONG_MAX : Int := 2 ^ 31 - 1

/-- The smallest `long` (and `int`) of the target, `-2^31`. -/
def LONG_MIN : Int := -(2 ^ 31)

/-- The result `strtol` gives for a sign and the value of the digits: the
number, or the nearest bound of `long` when it is out of range. -/
def clampLong (neg : Bool) (v : Nat) : Int :=
  if neg then max (-(v : Int)) LONG_MIN else min (v : Int) LONG_MAX

/-- The C function `atol` (`strtol` in base 10): white space, an optional
sign, then the longest run of digits; `0` when there is no digit. -/
def atol (s : Str) : Int :=
  let s1 := s.dropWhile isSpace
  let neg : Bool := decide (s1.head? = some '-')
  let s2 := if s1.head? = some '-' ∨ s1.head? = some '+' then s1.tail else s1
  clampLong neg (digitsValue 0 (s2.takeWhile Char.isDigit))

/-- The method `String::toInt`, which is `atol` on the buffer. -/
def toInt (s : Str) : Int := atol s

/-- The constructor `String(int)`: the decimal text of an integer. -/
def intToStr (n : Int) : Str :=
  if n < 0 then '-' :: (Nat.repr n.natAbs).toList else (Nat.repr n.toNat).toList

/-- One `%d` conversion of `sscanf`: white space, an optional sign and at
least one digit. Gives the number read and the rest of the input, and `none`
on a matching failure. -/
def scanInt (s : Str) : Option (Int × Str) :=
  let s1 := s.dropWhile isSpace
  let neg : Bool := decide (s1.head? = some '-')
  let s2 := if s1.head? = some '-' ∨ s1.head? = some '+' then s1.tail else s1
  let ds := s2.takeWhile Char.isDigit
  if ds = [] then none
  else some (clampLong neg (digitsValue 0 ds), s2.dropWhile Char.isDigit)

/-- One literal character of a `sscanf` format. -/
def scanLit (ch : Char) (s : Str) : Option Str :=
  match s with
  | [] => none
  | c :: rest => if c = ch then some rest else none

/-- The call `sscanf(s, "%d.%d.%d", &a, &b, &c)` on variables initialised to
`0`: the values of `a`, `b` and `c` afterwards (a variable whose conversion is
not reached keeps `0`). -/
def sscanfVersion (s : Str) : Int × Int × Int :=
  match scanInt s with
  | none => (0, 0, 0)
  | some (a, r1) =>
    match scanLit '.' r1 with
    | none => (a, 0, 0)
    | some r2 =>
      match scanInt r2 with
      | none => (a, 0, 0)
      | some (b, r3) =>
        match scanLit '.' r3 with
        | none => (a, b, 0)
        | some r4 =>
          match scanInt r4 with
          | none => (a, b, 0)
          | some (c, _) => (a, b, c)

/-- A decimal numeral: a non-empty run of the digits `0` to `9`. -/
def IsNumeral (ds : Str) : Prop := ds ≠ [] ∧ ∀ c ∈ ds, c.isDigit = true

/-- The number a decimal numeral denotes. -/
def numeralValue (ds : Str) : Nat := digitsValue 0 ds

/-! ## relay_module.cpp, config.h and the validators of ble_callbacks.h -/

/-- The array `relayPins`. -/
def relayPins : List Int := [25, 27, 32, 26]

/-- The macro `PROTOCOL_VERSION_MAJOR`. -/
def PROTOCOL_VERSION_MAJOR : Int := 1

/-- The macro `PROTOCOL_VERSION_MINOR`. -/
def PROTOCOL_VERSION_MINOR : Int := 2

/-- The loop of `validateCommand` that looks for `pin` in `relayPins`. -/
def validPin (pin : Int) : Bool := relayPins.any (fun p => p == pin)

/-- The function `validateCommand`. The result `Except.ok ()` is the return
value `true` (`errorMessage` is left untouched); `Except.error e` is the return
value `false` with `errorMessage` set to `e`. -/
def validateCommand (command : Str) : Except Str Unit :=
  if command = "CALIBRATE".toList ∨ command = "OTA".toList ∨ command = "SCAN".toList
      ∨ command = "DISCONNECT".toList then
    .ok ()
  else if startsWith command "TOGGLE_".toList then
    let pin := toInt (substringFrom command 7)
    if ¬ validPin pin then
      .error ("ERROR:INVALID_PIN:".toList ++ intToStr pin)
    else .ok ()
  else if startsWith command "SET_".toList then
    let pin := toInt (substring command 4 6)
    let stateStr := substringFrom command 7
    if ¬ validPin pin then
      .error ("ERROR:INVALID_PIN:".toList ++ intToStr pin)
    else if stateStr ≠ "ON".toList ∧ stateStr ≠ "OFF".toList then
      .error ("ERROR:INVALID_STATE:".toList ++ stateStr)
    else .ok ()
  else if startsWith command "SET_SAMPLING_RATE_".toList then
    let interval := toInt (substringFrom command 18)
    if interval < 5 ∨ interval > 1000 then
      .error "ERROR:INVALID_SAMPLING_RATE:Value must be between 5-1000".toList
    else .ok ()
  else if startsWith command "SELECT_".toList then
    let wifiData := substringFrom command 7
    match indexOf wifiData ':' with
    | none => .error "ERROR:INVALID_WIFI_FORMAT:Missing colon separator".toList
    | some colonIndex =>
      let ssid := substring wifiData 0 colonIndex
      if ssid.length = 0 then
        .error "ERROR:INVALID_SSID:Empty SSID".toList
      else .ok ()
  else
    .error ("ERROR:UNKNOWN_COMMAND:".toList ++ command)

/-- The function `checkProtocolVersionCompatibility`; the result is read as
for `validateCommand`. -/
def checkProtocolVersionCompatibility (clientVersion : Str) : Except Str Unit :=
  let v := sscanfVersion clientVersion
  let clientMajor := v.1
  let clientMinor := v.2.1
  if clientMajor ≠ PROTOCOL_VERSION_MAJOR then
    .error "ERROR:INCOMPATIBLE_VERSION:Major version mismatch".toList
  else if clientMinor > PROTOCOL_VERSION_MINOR then
    .error "ERROR:INCOMPATIBLE_VERSION:Client using newer minor version".toList
  else .ok ()

/-! ## main.cpp, ble_module.cpp and sampling_config.cpp: the shared state -/

/-- The constant `avgWindow`: the capacity of each ring buffer. -/
def avgWindow : Nat := 10

/-- The constant `relayFeedbackLedPin`. -/
def relayFeedbackLedPin : Int := 33

/-- A value held by the `Preferences` key-value store. -/
inductive PrefValue where
  | bool (b : Bool)
  | uint (n : Nat)
  | str (s : Str)
deriving DecidableEq, Repr

/-- The global variables shared by the acquisition task and the radio
dispatcher. `F` is the type of `float`; an array is a function of the index.
`pinLevel p` is the level last written to output pin `p` (`true`: `HIGH`),
`prefs` is the content of the key-value store, `pRelayCharacteristic` tells
whether that pointer is non-null, and `relayNotifications` is the trace of the
values notified on the relay characteristic (oldest first). The field
`samplingIntervalStatic` is the variable `_samplingIntervalMs` of
sampling_config.cpp, which `getSamplingInterval` returns. -/
structure Globals (F : Type) where
  adc : AdcState
  shuntOffsetFloat : F
  ads2OffsetFloat : F
  shuntBuffer : Nat → F
  ads2Buffer : Nat → F
  bufferIndex : Nat
  relayStates : Nat → Bool
  pinLevel : Int → Bool
  prefs : Str → Option PrefValue
  samplingIntervalMs : Nat
  samplingIntervalStatic : Nat
  pRelayCharacteristic : Bool
  relayNotifications : List Str

section Tasks

variable {F : Type} [Sub F] [Div F] [IntCast F]

/-- The function `getSamplingInterval`. -/
def getSamplingInterval (g : Globals F) : Nat := g.samplingIntervalStatic

/-- One pass of the loop of `dataTask`, up to the final `vTaskDelay`.
`now1 begin1Ok reading1` are the arguments of the call of
`readShuntDifferential`, `lockAcquired` tells whether
`xSemaphoreTake(bufferMutex, 10 ms)` returned `pdTRUE`, and
`now2 begin2Ok reading2` are the arguments of the call of `readADS2Channel0`,
used only if that call is made. The watchdog reset and the log line of the
failed acquisition have no effect on the state. -/
def dataTask (g : Globals F) (now1 : Nat) (begin1Ok : Bool) (reading1 : Option Int)
    (lockAcquired : Bool) (now2 : Nat) (begin2Ok : Bool) (reading2 : Option Int) :
    Globals F :=
  let r1 := readShuntDifferential g.adc now1 begin1Ok reading1
  let rawShuntDiff := r1.1
  let g1 := { g with adc := r1.2 }
  let calibratedShuntDiff : F := (rawShuntDiff : F) - g1.shuntOffsetFloat
  if lockAcquired then
    let g2 := { g1 with
      shuntBuffer := Function.update g1.shuntBuffer g1.bufferIndex calibratedShuntDiff }
    let r2 := readADS2Channel0 g2.adc now2 begin2Ok reading2
    let rawAds2A0 := r2.1
    let g3 := { g2 with adc := r2.2 }
    let calibratedAds2A0 : F := (rawAds2A0 : F) - g3.ads2OffsetFloat
    let g4 := { g3 with
      ads2Buffer := Function.update g3.ads2Buffer g3.bufferIndex calibratedAds2A0 }
    { g4 with bufferIndex := (g4.bufferIndex + 1) % avgWindow }
  else
    g1

/-- The reduction of an integer to the range of `int32_t`. -/
def wrapInt32 (x : Int) : Int := (x + 2 ^ 31) % 2 ^ 32 - 2 ^ 31

/-- One sampling loop of `calibrateADC`: `remaining` samples are still to be
taken, `sum` is the accumulator and `log` the bus trace. `outcomes` lists the
outcomes of the successive calls of the read `op` (`none`: the call threw, and
the sample is taken again). The result is `none` when the outcomes run out
before the loop ends. -/
def calibrationLoop (op : BusOp) :
    Nat → Int → List BusOp → List (Option Int) → Option (Int × List BusOp)
  | 0, sum, log, _ => some (sum, log)
  | _ + 1, _, _, [] => none
  | n + 1, sum, log, some reading :: rest =>
    calibrationLoop op n (wrapInt32 (sum + reading)) (log ++ [op]) rest
  | n + 1, sum, log, none :: rest =>
    calibrationLoop op (n + 1) sum (log ++ [op]) rest

/-- The function `calibrateADC`; `outcomes1` and `outcomes2` are the outcomes of
the successive reads of ADS1115 #1 and #2. -/
def calibrateADC (g : Globals F) (outcomes1 outcomes2 : List (Option Int)) :
    Option (Globals F) :=
  let step1 : Option (Globals F) :=
    if g.adc.ads1_available then
      match calibrationLoop (BusOp.readDifferential01 ADS1_ADDR) 16 0 g.adc.busLog
          outcomes1 with
      | none => none
      | some (sum, log) =>
        some { g with adc := { g.adc with busLog := log },
                      shuntOffsetFloat := (sum : F) / ((16 : Int) : F) }
    else some g
  match step1 with
  | none => none
  | some g1 =>
    if g1.adc.ads2_available then
      match calibrationLoop (BusOp.readSingleEnded ADS2_ADDR 0) 16 0 g1.adc.busLog
          outcomes2 with
      | none => none
      | some (sum, log) =>
        some { g1 with adc := { g1.adc with busLog := log },
                       ads2OffsetFloat := (sum : F) / ((16 : Int) : F) }
    else some g1

/-- The call `digitalWrite(pin, level)`. -/
def digitalWrite (g : Globals F) (pin : Int) (level : Bool) : Globals F :=
  { g with pinLevel := Function.update g.pinLevel pin level }

/-- The function `blinkRelayFeedback`. -/
def blinkRelayFeedback (g : Globals F) : Globals F :=
  digitalWrite (digitalWrite g relayFeedbackLedPin true) relayFeedbackLedPin false

/-- The statements `if (pRelayCharacteristic) { setValue(msg); notify(); }`. -/
def notifyRelay (g : Globals F) (msg : Str) : Globals F :=
  if g.pRelayCharacteristic then
    { g with relayNotifications := g.relayNotifications ++ [msg] }
  else g

/-- The text `b ? "ON" : "OFF"`. -/
def onOff (b : Bool) : Str := if b then "ON".toList else "OFF".toList

/-- The index of the first entry of `relayPins` equal to `pin`: the entry at
which the relay loops of `onWrite` do their work and `break`. -/
def relayIndex (pin : Int) : Option Nat := relayPins.findIdx? (fun p => p == pin)

/-- The method `RelayControlCallback::onWrite` for the written value
`command`; `outcomes1` and `outcomes2` are passed to `calibrateADC`. The result
is `none` only when `calibrateADC` runs out of read outcomes. -/
def RelayControlCallback.onWrite (g : Globals F) (command : Str)
    (outcomes1 outcomes2 : List (Option Int)) : Option (Globals F) :=
  match validateCommand command with
  | .error errorMessage => some (notifyRelay g errorMessage)
  | .ok () =>
    if command = "CALIBRATE".toList then
      match calibrateADC g outcomes1 outcomes2 with
      | none => none
      | some g1 => some (notifyRelay g1 "LOG:Calibration complete".toList)
    else if command = "OTA".toList then
      some (notifyRelay g "OTA:START".toList)
    else if startsWith command "TOGGLE_".toList then
      let pin := toInt (substringFrom command 7)
      match relayIndex pin with
      | none => some g
      | some i =>
        let g1 := { g with relayStates := Function.update g.relayStates i (!g.relayStates i) }
        let g2 := digitalWrite g1 (relayPins.getD i 0) (g1.relayStates i)
        let g3 := blinkRelayFeedback g2
        let g4 := { g3 with
          prefs := Function.update g3.prefs ("relay".toList ++ intToStr i)
            (some (PrefValue.bool (g3.relayStates i))) }
        let g5 := notifyRelay g4 ("LOG:Relay ".toList ++ intToStr pin
          ++ " toggled to ".toList ++ onOff (g4.relayStates i))
        some (notifyRelay g5 ("RELAY_UPDATE:".toList ++ intToStr pin ++ ":".toList
          ++ onOff (g5.relayStates i)))
    else if startsWith command "SET_".toList then
      let pin := toInt (substring command 4 6)
      let stateStr := substringFrom command 7
      let state : Bool := decide (stateStr = "ON".toList)
      match relayIndex pin with
      | none => some g
      | some i =>
        let g1 := { g with relayStates := Function.update g.relayStates i state }
        let g2 := digitalWrite g1 (relayPins.getD i 0) state
        let g3 := blinkRelayFeedback g2
        let g4 := { g3 with
          prefs := Function.update g3.prefs ("relay".toList ++ intToStr i)
            (some (PrefValue.bool (g3.relayStates i))) }
        some (notifyRelay g4 ("RELAY_UPDATE:".toList ++ intToStr pin ++ ":".toList
          ++ onOff state))
    else if startsWith command "SET_SAMPLING_RATE_".toList then
      let interval := toInt (substringFrom command 18)
      if interval ≥ 5 ∧ interval ≤ 1000 then
        let g1 := { g with samplingIntervalMs := interval.toNat % 2 ^ 16 }
        let g2 := { g1 with
          prefs := Function.update g1.prefs "samplingIntervalMs".toList
            (some (PrefValue.uint interval.toNat)) }
        some (notifyRelay g2 ("SAMPLING_RATE:".toList ++ intToStr interval))
      else some g
    else some g

end Tasks

/-! ## mcp_server.cpp: the subscription table and its poll -/

/-- The macro `MAX_SUBSCRIPTIONS`. -/
def MAX_SUBSCRIPTIONS : Nat := 5

/-- The struct `Subscription`. -/
structure Subscription where
  clientId : Nat
  uri : Str
  lastUpdate : Nat
  lastValue : Str
  active : Bool
deriving DecidableEq, Repr

/-- An entry of the array `resources`: its `uri`, its `type`, and in `value` the
text that a call of its `getValue` accessor returns at the time of the step
being described. -/
structure Resource where
  uri : Str
  type : Str
  value : Str
deriving DecidableEq, Repr

/-- A `resource.change` notification handed to `webSocket.sendTXT`: the client
it is sent to, and the `uri` and `data` members of its JSON text. -/
structure Notification where
  clientId : Nat
  uri : Str
  data : Str
deriving DecidableEq, Repr

/-- The subscription state of mcp_server.cpp: the array `subscriptions` (a
function of the index), the counter `subscriptionCount`, the static variable
`lastCheck` of `checkSubscriptions`, and the trace `sent` of the change
notifications sent so far (oldest first). -/
structure McpState where
  subscriptions : Nat → Subscription
  subscriptionCount : Nat
  lastCheck : Nat
  sent : List Notification

/-- The zero-initialised entry of the global array `subscriptions`. -/
def emptySubscription : Subscription :=
  { clientId := 0, uri := [], lastUpdate := 0, lastValue := [], active := false }

/-- The subscription state at program start. -/
def initialMcpState : McpState :=
  { subscriptions := fun _ => emptySubscription,
    subscriptionCount := 0,
    lastCheck := 0,
    sent := [] }

/-- The function `findSubscription`; `none` is the result `-1`. -/
def findSubscription (st : McpState) (clientId : Nat) (uri : Str) : Option Nat :=
  (List.range st.subscriptionCount).find? (fun i =>
    (st.subscriptions i).clientId == clientId &&
    (st.subscriptions i).active &&
    (st.subscriptions i).uri == uri)

/-- The five assignments with which `addSubscription` fills the slot it has
chosen; `now` is the value of `millis()`. -/
def newSubscription (clientId : Nat) (uri : Str) (now : Nat) : Subscription :=
  { clientId := clientId, uri := uri, lastUpdate := now, lastValue := [], active := true }

/-- The function `addSubscription`; `now` is the value of `millis()`. -/
def addSubscription (st : McpState) (clientId : Nat) (uri : Str) (now : Nat) : McpState :=
  match findSubscription st clientId uri with
  | some _ => st
  | none =>
    let fresh : Subscription := newSubscription clientId uri now
    match (List.range st.subscriptionCount).find? (fun i => !(st.subscriptions i).active) with
    | some slotIndex =>
      { st with subscriptions := Function.update st.subscriptions slotIndex fresh }
    | none =>
      if st.subscriptionCount < MAX_SUBSCRIPTIONS then
        { st with
          subscriptions := Function.update st.subscriptions st.subscriptionCount fresh,
          subscriptionCount := st.subscriptionCount + 1 }
      else st

/-- The function `removeSubscription`. -/
def removeSubscription (st : McpState) (clientId : Nat) (uri : Str) : McpState :=
  match findSubscription st clientId uri with
  | some index =>
    { st with subscriptions :=
        Function.update st.subscriptions index { st.subscriptions index with active := false } }
  | none => st

/-- The body of the loop of `removeAllSubscriptions` for the index `i`. -/
def removeAllSubscriptionsAt (clientId : Nat) (st : McpState) (i : Nat) : McpState :=
  if (st.subscriptions i).clientId = clientId then
    { st with subscriptions :=
        Function.update st.subscriptions i { st.subscriptions i with active := false } }
  else st

/-- The function `removeAllSubscriptions`. -/
def removeAllSubscriptions (st : McpState) (clientId : Nat) : McpState :=
  (List.range st.subscriptionCount).foldl (removeAllSubscriptionsAt clientId) st

/-- The body of the outer loop of `checkSubscriptions` for the index `i`. -/
def checkSubscriptionAt (resources : List Resource) (st : McpState) (i : Nat) : McpState :=
  if (st.subscriptions i).active = false then st
  else
    match resources.find? (fun r => r.uri == (st.subscriptions i).uri) with
    | none => st
    | some r =>
      let currentValue := r.value
      if currentValue ≠ (st.subscriptions i).lastValue then
        let updated : Subscription := { st.subscriptions i with lastValue := currentValue }
        let st1 := { st with subscriptions := Function.update st.subscriptions i updated }
        let notification : Notification :=
          { clientId := (st1.subscriptions i).clientId,
            uri := (st1.subscriptions i).uri,
            data := currentValue }
        { st1 with sent := st1.sent ++ [notification] }
      else st

/-- The function `checkSubscriptions`; `now` is the value of `millis()` and
`resources` the registered resources with their current values. -/
def checkSubscriptions (resources : List Resource) (st : McpState) (now : Nat) : McpState :=
  if ulongSub now st.lastCheck < 200 then st
  else
    let st1 := { st with lastCheck := now }
    (List.range st1.subscriptionCount).foldl (checkSubscriptionAt resources) st1

/-- The notifications of `l` sent to client `clientId` for resource `uri`. -/
def notificationsTo (clientId : Nat) (uri : Str) (l : List Notification) :
    List Notification :=
  l.filter (fun n => n.clientId == clientId && n.uri == uri)

/-- The states the subscription table can take: the initial state, and what
`addSubscription`, `removeSubscription`, `removeAllSubscriptions` and
`checkSubscriptions` make of a reachable state. -/
inductive McpReachable : McpState → Prop where
  | init : McpReachable initialMcpState
  | add {st : McpState} (clientId : Nat) (uri : Str) (now : Nat) :
      McpReachable st → McpReachable (addSubscription st clientId uri now)
  | remove {st : McpState} (clientId : Nat) (uri : Str) :
      McpReachable st → McpReachable (removeSubscription st clientId uri)
  | removeAll {st : McpState} (clientId : Nat) :
      McpReachable st → McpReachable (removeAllSubscriptions st clientId)
  | check {st : McpState} (resources : List Resource) (now : Nat) :
      McpReachable st → McpReachable (checkSubscriptions resources st now)

/-- No two active subscriptions among the slots in use have the same client id
and the same uri. -/
def NoDuplicateSubscriptions (st : McpState) : Prop :=
  ∀ i j, i < st.subscriptionCount → j < st.subscriptionCount →
    (st.subscriptions i).active = true → (st.subscriptions j).active = true →
    (st.subscriptions i).clientId = (st.subscriptions j).clientId →
    (st.subscriptions i).uri = (st.subscriptions j).uri → i = j

/-- What one poll makes of a subscription: an active subscription whose uri is
registered takes the current value of the first resource with that uri as its
last sent value. -/
def polledSubscription (resources : List Resource) (s : Subscription) : Subscription :=
  if s.active = false then s
  else
    match resources.find? (fun r => r.uri == s.uri) with
    | none => s
    | some r => { s with lastValue := r.value }

/-- The notification one poll sends for a subscription, if it sends one. -/
def changeNotification (resources : List Resource) (s : Subscription) : Option Notification :=
  if s.active = false then none
  else
    match resources.find? (fun r => r.uri == s.uri) with
    | none => none
    | some r =>
      if r.value ≠ s.lastValue then
        some { clientId := s.clientId, uri := s.uri, data := r.value }
      else none

/-- A device state for examples: converters as after boot, buffers and offsets
zero, all relays off, an empty store, and the relay characteristic in place. -/
def sampleGlobals : Globals ℚ :=
  { adc := bootAdcState true, shuntOffsetFloat := 0, ads2OffsetFloat := 0,
    shuntBuffer := fun _ => 0, ads2Buffer := fun _ => 0, bufferIndex := 0,
    relayStates := fun _ => false, pinLevel := fun _ => false,
    prefs := fun _ => none, samplingIntervalMs := 17, samplingIntervalStatic := 17,
    pRelayCharacteristic := true, relayNotifications := [] }

/-- A registry for examples: `adc.shunt_diff` with value `0.00` and `relay.0`
with value `v`. -/
def sampleResources (v : Str) : List Resource :=
  [{ uri := "adc.shunt_diff".toList, type := "number".toList, value := "0.00".toList },
   { uri := "relay.0".toList, type := "boolean".toList, value := v }]

/-- The table for examples: client 3 has subscribed to `relay.0` at
`millis() = 1000`, starting from the initial table. -/
def sampleSubscribed : McpState :=
  addSubscription initialMcpState 3 "relay.0".toList 1000

/-! ## relay_module.cpp, sampling_config.cpp and the tool functions of mcp_server.cpp -/

/-- The function `toggleRelay`. -/
def toggleRelay {F : Type} (g : Globals F) (index : Int) : Globals F :=
  if index ≥ 0 ∧ index < 4 then
    let i := index.toNat
    let g1 := { g with relayStates := Function.update g.relayStates i (!g.relayStates i) }
    let g2 := digitalWrite g1 (relayPins.getD i 0) (g1.relayStates i)
    blinkRelayFeedback g2
  else g

/-- The function `setRelay`. -/
def setRelay {F : Type} (g : Globals F) (index : Int) (state : Bool) : Globals F :=
  if index ≥ 0 ∧ index < 4 then
    let i := index.toNat
    let g1 := { g with relayStates := Function.update g.relayStates i state }
    let g2 := digitalWrite g1 (relayPins.getD i 0) state
    blinkRelayFeedback g2
  else g

/-- The function `setSamplingInterval`; `intervalMs` is a `uint16_t`. -/
def setSamplingInterval {F : Type} (g : Globals F) (intervalMs : Nat) : Globals F :=
  if intervalMs ≥ 5 ∧ intervalMs ≤ 1000 then
    { g with samplingIntervalStatic := intervalMs }
  else g

/-- What the ArduinoJson accessors return on the `params` object handed to a
tool: for each member a tool looks at, whether `containsKey` finds it, and the
value its `as<T>()` conversion gives (`index` as `int`, `state` as `bool`,
`ssid`, `password` and `message` as `String`, `interval` as `uint16_t`). -/
structure ToolParams where
  hasIndex : Bool
  index : Int
  hasState : Bool
  state : Bool
  hasSsid : Bool
  ssid : Str
  hasPassword : Bool
  password : Str
  hasInterval : Bool
  interval : Nat
  hasMessage : Bool
  message : Str
deriving DecidableEq, Repr

/-- A `params` object with no member. -/
def noToolParams : ToolParams :=
  { hasIndex := false, index := 0, hasState := false, state := false,
    hasSsid := false, ssid := [], hasPassword := false, password := [],
    hasInterval := false, interval := 0, hasMessage := false, message := [] }

/-- The members `success` and `message` a tool writes into its result object. -/
structure ToolResult where
  success : Bool
  message : Str
deriving DecidableEq, Repr

/-- The function `setRelayTool`. -/
def setRelayTool {F : Type} (g : Globals F) (params : ToolParams) : Globals F × ToolResult :=
  if params.hasIndex ∧ params.hasState then
    let index := params.index
    let state := params.state
    if index ≥ 0 ∧ index < 4 then
      (setRelay g index state,
       { success := true,
         message := "Relay ".toList ++ intToStr index ++ " set to ".toList ++ onOff state })
    else
      (g, { success := false, message := "Invalid relay index".toList })
  else
    (g, { success := false, message := "Missing parameters".toList })

/-- The function `setSamplingIntervalTool`. -/
def setSamplingIntervalTool {F : Type} (g : Globals F) (params : ToolParams) :
    Globals F × ToolResult :=
  if params.hasInterval then
    let interval := params.interval
    if interval ≥ 10 ∧ interval ≤ 10000 then
      (setSamplingInterval g interval,
       { success := true,
         message := "Sampling interval set to ".toList ++ intToStr interval ++ "ms".toList })
    else
      (g, { success := false, message := "Interval must be between 10ms and 10000ms".toList })
  else
    (g, { success := false, message := "Missing interval parameter".toList })

/-- The `params` object `{"interval": n}`. -/
def intervalParams (n : Nat) : ToolParams :=
  { noToolParams with hasInterval := true, interval := n }

/-- The `params` object `{"index": i, "state": b}`. -/
def relayParams (i : Int) (b : Bool) : ToolParams :=
  { noToolParams with hasIndex := true, index := i, hasState := true, state := b }

/-! ## wifi_module.cpp and `WifiControlCallback` of ble_callbacks.h -/

/-- A call made to the WiFi driver or to the update service. -/
inductive WifiCall where
  /-- The call `WiFi.scanNetworks()`. -/
  | scanNetworks
  /-- The call `WiFi.begin(ssid, password)`: the network join. -/
  | begin (ssid password : Str)
  /-- The call `WiFi.disconnect(true)`. -/
  | disconnect
  /-- The call `ArduinoOTA.begin()`. -/
  | otaBegin
deriving DecidableEq, Repr

/-- The state the WiFi functions work on besides the key-value store:
`pWifiCharacteristic` tells whether that pointer is non-null,
`wifiNotifications` is the trace of the values notified on the WiFi
characteristic and `wifiCalls` the trace of the calls made to the driver (both
oldest first). -/
structure WifiState where
  pWifiCharacteristic : Bool
  wifiNotifications : List Str
  wifiCalls : List WifiCall
deriving DecidableEq, Repr

/-- What the WiFi driver answers during one step: `connected` tells whether
`WiFi.status()` is `WL_CONNECTED` when the wait of `connectToWifi` ends,
`currentSsid` and `rssi` are `WiFi.SSID()` and `WiFi.RSSI()`, `numNetworks` is
the result of `WiFi.scanNetworks()` and `networks` lists `WiFi.SSID(i)` and
`WiFi.RSSI(i)` by index. -/
structure WifiEnv where
  connected : Bool
  currentSsid : Str
  rssi : Int
  numNetworks : Int
  networks : List (Str × Int)
deriving DecidableEq, Repr

/-- The statements `if (pWifiCharacteristic) { setValue(msg); notify(); }`. -/
def notifyWifi (w : WifiState) (msg : Str) : WifiState :=
  if w.pWifiCharacteristic then
    { w with wifiNotifications := w.wifiNotifications ++ [msg] }
  else w

/-- The text `scanWifiNetworks` builds from the first `n` networks. -/
def networkListText (networks : List (Str × Int)) : Nat → Str
  | 0 => []
  | n + 1 =>
    networkListText networks n ++ (if n > 0 then ",".toList else [])
      ++ (networks.getD n ([], 0)).1 ++ "(".toList
      ++ intToStr (networks.getD n ([], 0)).2 ++ ")".toList

/-- The function `scanWifiNetworks`, which uses `pWifiCharacteristic` without
testing it. -/
def scanWifiNetworks (w : WifiState) (env : WifiEnv) : WifiState :=
  let w1 := { w with wifiCalls := w.wifiCalls ++ [WifiCall.scanNetworks] }
  if env.numNetworks = 0 then
    { w1 with wifiNotifications := w1.wifiNotifications ++ ["No networks found".toList] }
  else
    { w1 with wifiNotifications := w1.wifiNotifications
        ++ [networkListText env.networks env.numNetworks.toNat] }

/-- The function `disconnectWifi`. -/
def disconnectWifi (w : WifiState) : WifiState :=
  notifyWifi { w with wifiCalls := w.wifiCalls ++ [WifiCall.disconnect] }
    "WIFI_STATUS:DISCONNECTED".toList

/-- The function `connectToWifi`, which also writes the key-value store. -/
def connectToWifi {F : Type} (g : Globals F) (w : WifiState) (ssid password : Str)
    (env : WifiEnv) : Globals F × WifiState :=
  let w1 := { w with wifiCalls := w.wifiCalls ++ [WifiCall.begin ssid password] }
  if env.connected then
    let g1 := { g with prefs := Function.update g.prefs "ssid".toList (some (PrefValue.str ssid)) }
    let g2 := { g1 with
      prefs := Function.update g1.prefs "password".toList (some (PrefValue.str password)) }
    let w2 := { w1 with wifiCalls := w1.wifiCalls ++ [WifiCall.otaBegin] }
    let statusMsg := "WIFI_STATUS:CONNECTED:".toList ++ env.currentSsid ++ ":".toList
      ++ intToStr env.rssi
    (g2, notifyWifi w2 statusMsg)
  else
    let statusMsg := "WIFI_STATUS:FAILED:".toList ++ ssid
    let w2 := notifyWifi w1 ("ERROR:WIFI:CONNECT_FAIL:".toList ++ ssid)
    (g, notifyWifi w2 statusMsg)

/-- The method `WifiControlCallback::onWrite` for the written value `command`. -/
def WifiControlCallback.onWrite {F : Type} (g : Globals F) (w : WifiState) (command : Str)
    (env : WifiEnv) : Globals F × WifiState :=
  match validateCommand command with
  | .error errorMessage => (g, notifyWifi w errorMessage)
  | .ok () =>
    if command = "SCAN".toList then
      (g, scanWifiNetworks w env)
    else if startsWith command "SELECT_".toList then
      let wifiData := substringFrom command 7
      match indexOf wifiData ':' with
      | some colonIndex =>
        let ssid := substring wifiData 0 colonIndex
        let password := substringFrom wifiData (colonIndex + 1)
        connectToWifi g w ssid password env
      | none => (g, w)
    else if command = "DISCONNECT".toList then
      (g, disconnectWifi w)
    else (g, w)

/-- A WiFi state for examples: the characteristic in place, nothing notified,
no call made. -/
def sampleWifi : WifiState :=
  { pWifiCharacteristic := true, wifiNotifications := [], wifiCalls := [] }

/-- A driver for examples that joins a network as `Home` with signal -50. -/
def sampleWifiEnv : WifiEnv :=
  { connected := true, currentSsid := "Home".toList, rssi := -50, numNetworks := 2,
    networks := [("Home".toList, -50), ("Cafe".toList, -71)] }

/-! ## main.cpp and ble_module.cpp: the telemetry task -/

/-- The macro `PROTOCOL_VERSION`. -/
def PROTOCOL_VERSION : Str := "1.2.0".toList

/-- The macro `MIN_NOTIFICATION_INTERVAL_MS`. -/
def MIN_NOTIFICATION_INTERVAL_MS : Nat := 100

/-- The JSON document `bleTask` builds: its members, with the four relays of
the object `relays` in the order `relay1` to `relay4` (`true` for `1`). -/
structure Telemetry (F : Type) where
  protocol_version : Str
  timestamp : Nat
  shunt_diff : F
  ads2_a0 : F
  relays : List Bool

/-- The global variables of ble_module.cpp that the telemetry task uses:
`pDataCharacteristic` tells whether that pointer is non-null,
`dataNotifications` is the trace of the documents notified on the data
characteristic (oldest first) and `advertisingStarts` counts the calls of
`BLEDevice::startAdvertising()` made by `handleBLEConnections`. -/
structure BleState (F : Type) where
  deviceConnected : Bool
  oldDeviceConnected : Bool
  pDataCharacteristic : Bool
  lastNotificationTime : Nat
  dataNotifications : List (Telemetry F)
  advertisingStarts : Nat

/-- The loop `for (i = 0; i < size; i++) sum += buffer[i]` on a `float`
accumulator that starts at `0`. -/
def bufferSum {F : Type} [Add F] [IntCast F] (buffer : Nat → F) (size : Nat) : F :=
  (List.range size).foldl (fun sum i => sum + buffer i) ((0 : Int) : F)

/-- The function `getBufferAverage` of mcp_server.cpp. -/
def getBufferAverage {F : Type} [Add F] [Div F] [IntCast F] (buffer : Nat → F) (size : Nat) : F :=
  bufferSum buffer size / ((size : Int) : F)

/-- The macro `abs(x)`, which is `((x) > 0 ? (x) : -(x))`. -/
def absMacro {F : Type} [Neg F] [IntCast F] [LT F] [DecidableRel (α := F) (· < ·)] (x : F) : F :=
  if ((0 : Int) : F) < x then x else -x

/-- The statement `if (abs(x) < 1.0) x = 0;`: the value of `x` afterwards. -/
def deadband {F : Type} [Neg F] [IntCast F] [LT F] [DecidableRel (α := F) (· < ·)] (x : F) : F :=
  if absMacro x < ((1 : Int) : F) then ((0 : Int) : F) else x

/-- The function `handleBLEConnections`. -/
def handleBLEConnections {F : Type} (b : BleState F) : BleState F :=
  let b1 :=
    if b.deviceConnected = false ∧ b.oldDeviceConnected = true then
      { b with advertisingStarts := b.advertisingStarts + 1,
               oldDeviceConnected := b.deviceConnected }
    else b
  if b1.deviceConnected = true ∧ b1.oldDeviceConnected = false then
    { b1 with oldDeviceConnected := b1.deviceConnected }
  else b1

/-- The function `notifyData`; `now` is the value of `millis()`. -/
def notifyData {F : Type} (b : BleState F) (data : Telemetry F) (now : Nat) : BleState F :=
  if b.pDataCharacteristic = true ∧ b.deviceConnected = true then
    if ulongSub now b.lastNotificationTime ≥ MIN_NOTIFICATION_INTERVAL_MS then
      { b with dataNotifications := b.dataNotifications ++ [data],
               lastNotificationTime := now }
    else b
  else b

section Telemetry

variable {F : Type} [Add F] [Div F] [Neg F] [IntCast F] [LT F] [DecidableRel (α := F) (· < ·)]

/-- The two averages of `bleTask` before the deadband: the sums of the buffers
divided by `avgWindow` when the buffer lock is acquired (the second only if
ADS1115 #2 is available), and `0` otherwise. -/
def bleAverages (g : Globals F) (lockAcquired : Bool) : F × F :=
  if lockAcquired then
    (bufferSum g.shuntBuffer avgWindow / ((avgWindow : Int) : F),
     if g.adc.ads2_available then
       bufferSum g.ads2Buffer avgWindow / ((avgWindow : Int) : F)
     else ((0 : Int) : F))
  else
    (((0 : Int) : F), ((0 : Int) : F))

/-- The document `bleTask` builds in a pass in which a client is connected;
`timestamp` is the value of `millis()`. -/
def telemetryDocument (g : Globals F) (lockAcquired : Bool) (timestamp : Nat) : Telemetry F :=
  let avgs := bleAverages g lockAcquired
  let shuntDiffAvg := deadband avgs.1
  let ads2A0Avg := deadband avgs.2
  { protocol_version := PROTOCOL_VERSION,
    timestamp := timestamp,
    shunt_diff := shuntDiffAvg,
    ads2_a0 := ads2A0Avg,
    relays := (List.range 4).map (fun i => g.relayStates i) }

/-- One pass of the loop of `bleTask`, up to the final `vTaskDelay`.
`lockAcquired` tells whether `xSemaphoreTake(bufferMutex, 10 ms)` returned
`pdTRUE`, `timestamp` is the value of `millis()` written into the document,
`jsonLength` is the length of the serialised document and `now` the value of
`millis()` inside `notifyData`. The log lines and `ArduinoOTA.handle()` have no
effect on the state. -/
def bleTask (g : Globals F) (b : BleState F) (lockAcquired : Bool) (timestamp : Nat)
    (jsonLength : Nat) (now : Nat) : BleState F :=
  let b1 := handleBLEConnections b
  if b1.deviceConnected then
    let doc := telemetryDocument g lockAcquired timestamp
    if jsonLength > 0 ∧ jsonLength < 512 then
      notifyData b1 doc now
    else b1
  else b1

end Telemetry

/-- A `float` value in exact terms: a rational number `m * 2 ^ e` with a
significand of at most 24 bits and an exponent within the range of the IEEE 754
binary32 format (normal and subnormal numbers). On such operands an IEEE 754
operation whose exact result is again of this form returns that result. -/
def IsBinary32 (q : ℚ) : Prop :=
  ∃ m e : Int, m.natAbs < 2 ^ 24 ∧ -149 ≤ e ∧ e ≤ 104 ∧ q = (m : ℚ) * (2 : ℚ) ^ e

/-- A reading of the converter is an `int16_t`. -/
def IsInt16 (r : Int) : Prop := -32768 ≤ r ∧ r ≤ 32767

/-- The readings `0, 1, …, 15`, each read successfully. -/
def readingsZeroToFifteen : List (Option Int) :=
  (List.range 16).map (fun i => some (i : Int))

/-- The ring buffer with the slots `1, 2, 3, 4, 5, 0, 0, 0, 0, 0`. -/
def oneToFiveBuffer : Nat → ℚ := fun i => [1, 2, 3, 4, 5, 0, 0, 0, 0, 0].getD i 0

/-- A radio state for examples: a client connected, the data characteristic in
place, nothing notified yet. -/
def sampleBle : BleState ℚ :=
  { deviceConnected := true, oldDeviceConnected := true, pDataCharacteristic := true,
    lastNotificationTime := 0, dataNotifications := [], advertisingStarts := 0 }

instance (r : Int) : Decidable (IsInt16 r) := by
  unfold IsInt16
  infer_instance

/-- The numbers `0, 1, …, 15`. -/
def zeroToFifteen : List Int := (List.range 16).map Int.ofNat

/-! ## mcp_server.cpp: the request handler -/

/-- The function `strEqual` on two C strings; `none` is the null pointer. -/
def strEqual (a b : Option Str) : Bool :=
  match a, b with
  | some x, some y => x == y
  | _, _ => false

/-- What `handleMcpRequest` reads from the request object through the
ArduinoJson accessors: whether `containsKey` finds `method`, `id`, `params`,
`params.uri` and `params.params`, and what the conversions return:
`method` is `request["method"].as<String>()`, `id` is `request["id"].as<int>()`,
`uriCStr` is `request["params"]["uri"].as<const char*>()` (`none`: the null
pointer), `uriString` is `request["params"]["uri"].as<String>()`, and
`toolParams` describes the object `request["params"]["params"]`. -/
structure McpRequest where
  hasMethod : Bool
  hasId : Bool
  method : Str
  id : Int
  hasParams : Bool
  hasUri : Bool
  uriCStr : Option Str
  uriString : Str
  hasToolParams : Bool
  toolParams : ToolParams
deriving DecidableEq, Repr

/-- The member `result` of a response of `handleMcpRequest`. -/
inductive McpResult where
  /-- The server name, the version and the three capabilities. -/
  | serverInfo
  /-- The array `resources`: the `uri` and the `type` of each resource. -/
  | resources (entries : List (Str × Str))
  /-- The array `contents` with one object whose `data` is the value. -/
  | contents (data : Str)
  /-- The object with the one member `success`, which is `true`. -/
  | success
  /-- The result object a tool has filled. -/
  | tool (r : ToolResult)
deriving DecidableEq, Repr

/-- A text that `webSocketEvent` or `handleMcpRequest` hands to
`webSocket.sendTXT`. -/
inductive SocketText where
  /-- The greeting sent to a client that has connected. -/
  | welcome
  /-- The text with the one member `error`, the string `Invalid JSON`. -/
  | invalidJson
  /-- The text with the one member `error`, the string `Invalid request format`. -/
  | invalidRequestFormat
  /-- The text with the members `id` and `error`, the latter an object with
  the members `code` and `message`. -/
  | error (id : Int) (code : Nat) (message : Str)
  /-- The text with the members `id` and `result`. -/
  | result (id : Int) (r : McpResult)
deriving DecidableEq, Repr

/-- The member `id` of a text, if it has one. -/
def SocketText.id? : SocketText → Option Int
  | .error id _ _ => some id
  | .result id _ => some id
  | _ => none

/-- The member `code` of the error object of a text, if it has one. -/
def SocketText.code? : SocketText → Option Nat
  | .error _ code _ => some code
  | _ => none

/-- Whether a text has the member `result`. -/
def SocketText.isResult : SocketText → Bool
  | .result _ _ => true
  | _ => false

/-- The seven functions registered as tools. -/
inductive ToolFunction where
  | setRelayTool
  | scanWifiTool
  | connectWifiTool
  | calibrateAdcTool
  | setSamplingIntervalTool
  | registerCopilotTool
  | printToSerial
deriving DecidableEq, Repr

/-- The struct `Tool`: an entry of the array `tools`. -/
structure Tool where
  uri : Str
  execute : ToolFunction
deriving DecidableEq, Repr

/-- The entries `registerResourcesAndTools` writes into the array `tools`. -/
def registeredTools : List Tool :=
  [{ uri := "relay.set".toList, execute := ToolFunction.setRelayTool },
   { uri := "wifi.scan".toList, execute := ToolFunction.scanWifiTool },
   { uri := "wifi.connect".toList, execute := ToolFunction.connectWifiTool },
   { uri := "adc.calibrate".toList, execute := ToolFunction.calibrateAdcTool },
   { uri := "config.set_sampling_interval".toList,
     execute := ToolFunction.setSamplingIntervalTool },
   { uri := "copilot.register".toList, execute := ToolFunction.registerCopilotTool },
   { uri := "stdio.print".toList, execute := ToolFunction.printToSerial }]

/-- The state the socket dispatcher works on: the globals `g`, the WiFi state
`w`, the subscription table `mcp`, the flag `copilotConnected`, the trace
`serial` of the lines the tools print on the serial port, and the trace
`socketSent` of the texts sent by `webSocketEvent` and `handleMcpRequest`, each
with the client it is sent to (both traces oldest first). The change
notifications of `checkSubscriptions` are traced in `mcp.sent`. -/
structure McpServer (F : Type) where
  g : Globals F
  w : WifiState
  mcp : McpState
  copilotConnected : Bool
  serial : List Str
  socketSent : List (Nat × SocketText)

/-- The call `webSocket.sendTXT(clientId, text)`. -/
def sendTXT {F : Type} (s : McpServer F) (clientId : Nat) (text : SocketText) : McpServer F :=
  { s with socketSent := s.socketSent ++ [(clientId, text)] }

/-- The text `registerCopilotTool` builds from the first `n` resources. -/
def resourceListText (resources : List Resource) : Nat → Str
  | 0 => "Available resources for Copilot: ".toList
  | n + 1 =>
    resourceListText resources n ++ (if n > 0 then ", ".toList else [])
      ++ (resources.getD n { uri := [], type := [], value := [] }).uri

/-- The function `scanWifiTool`. -/
def scanWifiTool {F : Type} (s : McpServer F) (env : WifiEnv) : McpServer F × ToolResult :=
  ({ s with w := scanWifiNetworks s.w env },
   { success := true, message := "WiFi scan initiated".toList })

/-- The function `connectWifiTool`. -/
def connectWifiTool {F : Type} (s : McpServer F) (params : ToolParams) (env : WifiEnv) :
    McpServer F × ToolResult :=
  if params.hasSsid ∧ params.hasPassword then
    let ssid := params.ssid
    let password := params.password
    let r := connectToWifi s.g s.w ssid password env
    ({ s with g := r.1, w := r.2 },
     { success := true, message := "Connecting to WiFi: ".toList ++ ssid })
  else
    (s, { success := false, message := "Missing SSID or password".toList })

/-- The function `printToSerial`. -/
def printToSerial {F : Type} (s : McpServer F) (params : ToolParams) :
    McpServer F × ToolResult :=
  if params.hasMessage then
    let message := params.message
    ({ s with serial := s.serial ++ ["[MCP:STDIO] ".toList ++ message] },
     { success := true, message := "Message printed to serial".toList })
  else
    (s, { success := false, message := "Missing message parameter".toList })

/-- The function `registerCopilotTool`; `resources` are the registered
resources. -/
def registerCopilotTool {F : Type} (s : McpServer F) (resources : List Resource) :
    McpServer F × ToolResult :=
  ({ s with copilotConnected := true,
            serial := s.serial ++ [resourceListText resources resources.length] },
   { success := true, message := "Copilot registered successfully".toList })

section RequestHandler

variable {F : Type} [Div F] [IntCast F]

/-- The function `calibrateAdcTool`; the result is `none` when `calibrateADC`
does not return. -/
def calibrateAdcTool (s : McpServer F) (outcomes1 outcomes2 : List (Option Int)) :
    Option (McpServer F × ToolResult) :=
  match calibrateADC s.g outcomes1 outcomes2 with
  | none => none
  | some g1 =>
    some ({ s with g := g1 }, { success := true, message := "ADC calibration completed".toList })

/-- The call `tools[i].execute(toolParams, result)` through the function
pointer of a tool. -/
def ToolFunction.run (f : ToolFunction) (s : McpServer F) (params : ToolParams)
    (resources : List Resource) (env : WifiEnv) (outcomes1 outcomes2 : List (Option Int)) :
    Option (McpServer F × ToolResult) :=
  match f with
  | .setRelayTool =>
    let r := Firmware.setRelayTool s.g params
    some ({ s with g := r.1 }, r.2)
  | .scanWifiTool => some (Firmware.scanWifiTool s env)
  | .connectWifiTool => some (Firmware.connectWifiTool s params env)
  | .calibrateAdcTool => Firmware.calibrateAdcTool s outcomes1 outcomes2
  | .setSamplingIntervalTool =>
    let r := Firmware.setSamplingIntervalTool s.g params
    some ({ s with g := r.1 }, r.2)
  | .registerCopilotTool => some (Firmware.registerCopilotTool s resources)
  | .printToSerial => some (Firmware.printToSerial s params)

/-- The function `handleMcpRequest`. `resources` are the registered resources
with the values their accessors return now, `tools` the registered tools, `now`
is the value of `millis()` in `addSubscription`, `env` is what the WiFi driver
answers to a tool, and `outcomes1 outcomes2` are the outcomes of the bus reads of
`calibrateADC`. The result is `none` when the call does not return. The capacity
of the JSON documents is not modelled. -/
def handleMcpRequest (s : McpServer F) (clientId : Nat) (request : McpRequest)
    (resources : List Resource) (tools : List Tool) (now : Nat) (env : WifiEnv)
    (outcomes1 outcomes2 : List (Option Int)) : Option (McpServer F) :=
  if request.hasMethod = false ∨ request.hasId = false then
    some (sendTXT s clientId SocketText.invalidRequestFormat)
  else
    let method := request.method
    let id := request.id
    if method = "initialize".toList then
      some (sendTXT s clientId (SocketText.result id McpResult.serverInfo))
    else if method = "resources.list".toList then
      some (sendTXT s clientId
        (SocketText.result id (McpResult.resources (resources.map (fun r => (r.uri, r.type))))))
    else if method = "resource.read".toList then
      if request.hasParams = false ∨ request.hasUri = false then
        some (sendTXT s clientId (SocketText.error id 400 "Missing URI parameter".toList))
      else
        -- `String(nullptr)` is the empty text
        let uri : Str := request.uriCStr.getD []
        match resources.find? (fun r => strEqual (some r.uri) (some uri)) with
        | some r => some (sendTXT s clientId (SocketText.result id (McpResult.contents r.value)))
        | none => some (sendTXT s clientId (SocketText.error id 404 "Resource not found".toList))
    else if method = "subscribe".toList then
      if request.hasParams = false ∨ request.hasUri = false then
        some (sendTXT s clientId (SocketText.error id 400 "Missing URI parameter".toList))
      else
        let uri := request.uriCStr
        let resourceExists := resources.any (fun r => strEqual (some r.uri) uri)
        if resourceExists = false then
          some (sendTXT s clientId (SocketText.error id 404 "Resource not found".toList))
        else
          let s1 := { s with mcp := addSubscription s.mcp clientId (uri.getD []) now }
          some (sendTXT s1 clientId (SocketText.result id McpResult.success))
    else if method = "unsubscribe".toList then
      if request.hasParams = false ∨ request.hasUri = false then
        some (sendTXT s clientId (SocketText.error id 400 "Missing URI parameter".toList))
      else
        -- with a null `uri`, `findSubscription` finds nothing
        let s1 :=
          match request.uriCStr with
          | some uri => { s with mcp := removeSubscription s.mcp clientId uri }
          | none => s
        some (sendTXT s1 clientId (SocketText.result id McpResult.success))
    else if method = "tool.execute".toList then
      if request.hasParams = false ∨ request.hasUri = false then
        some (sendTXT s clientId (SocketText.error id 400 "Missing URI parameter".toList))
      else
        let uri := request.uriString
        let toolParams := if request.hasToolParams then request.toolParams else noToolParams
        match tools.find? (fun t => strEqual (some t.uri) (some uri)) with
        | some t =>
          match t.execute.run s toolParams resources env outcomes1 outcomes2 with
          | none => none
          | some (s1, result) =>
            some (sendTXT s1 clientId (SocketText.result id (McpResult.tool result)))
        | none => some (sendTXT s clientId (SocketText.error id 404 "Tool not found".toList))
    else
      some (sendTXT s clientId (SocketText.error id 400 "Unknown method".toList))

end RequestHandler

/-- A dispatcher state for examples: the sample device, the table with the
subscription of client 3, nothing sent. -/
def sampleServer : McpServer ℚ :=
  { g := sampleGlobals, w := sampleWifi, mcp := sampleSubscribed, copilotConnected := false,
    serial := [], socketSent := [] }

/-- A request object with no member. -/
def emptyRequest : McpRequest :=
  { hasMethod := false, hasId := false, method := [], id := 0, hasParams := false,
    hasUri := false, uriCStr := none, uriString := "null".toList, hasToolParams := false,
    toolParams := noToolParams }

/-- The request object with the one member `id`, the number `n`. -/
def idOnlyRequest (n : Int) : McpRequest :=
  { emptyRequest with hasId := true, id := n }

/-- The request object with the members `method` and `id`. -/
def methodRequest (method : Str) (n : Int) : McpRequest :=
  { emptyRequest with hasMethod := true, method := method, hasId := true, id := n }

/-- The request object with the members `method`, `id` and `params`, where
`params` has the one member `uri`, a string. -/
def uriRequest (method : Str) (n : Int) (uri : Str) : McpRequest :=
  { methodRequest method n with
    hasParams := true, hasUri := true, uriCStr := some uri, uriString := uri }

/-! ## mcp_server.cpp and main.cpp: the life cycle of the socket listener -/

/-- The macro `WEBSOCKET_RETRY_DELAY`, in milliseconds. -/
def WEBSOCKET_RETRY_DELAY : Nat := 5000

/-- The two tasks that run the life cycle steps: the task of `loop()`, which
calls `handleMcpLoop`, and the monitor task. -/
inductive TaskId where
  | loopTask
  | monitorTask
deriving DecidableEq, Repr

/-- A call made to the object `webSocket`, other than `sendTXT`. -/
inductive SocketCall where
  | close
  | begin
  | onEvent
  | loop
deriving DecidableEq, Repr

/-- What the socket library passes to `webSocketEvent` with a `WStype_TEXT`
event, and what the outside answers while the request is handled:
`mentionsInitialize` and `mentionsCopilot` are the results of the two `indexOf`
tests on the text, `request` is the parsed object (`none`: `deserializeJson`
reports an error), and `now`, `env`, `outcomes1`, `outcomes2` are the arguments
of `handleMcpRequest` of the same names. -/
structure TextEvent where
  mentionsInitialize : Bool
  mentionsCopilot : Bool
  request : Option McpRequest
  now : Nat
  env : WifiEnv
  outcomes1 : List (Option Int)
  outcomes2 : List (Option Int)
deriving DecidableEq, Repr

/-- The event types of `WStype_t`; `other` stands for the types that the
`switch` of `webSocketEvent` has no case for. -/
inductive WStype where
  | disconnected
  | connected
  | text (payload : TextEvent)
  | other
deriving DecidableEq, Repr

/-- The globals of the life cycle: the dispatcher state `server`, the flag
`webSocketStarted`, the static flag `setupCompleted` of `setupMcpServer`, the
flag `mcpServerStarted` of main.cpp, the mutex `mcpServerMutex` (`mutexCreated`:
the handle is not `NULL`; `mutexHolder`: the task that holds it), the counters
`resourceCount` and `toolCount`, the static variables `lastRetry` and
`lastCheck` of `handleMcpLoop`, and the trace `socketCalls` of the calls made to
`webSocket` (oldest first). -/
structure McpLifecycle (F : Type) where
  server : McpServer F
  webSocketStarted : Bool
  setupCompleted : Bool
  mcpServerStarted : Bool
  mutexCreated : Bool
  mutexHolder : Option TaskId
  resourceCount : Nat
  toolCount : Nat
  lastRetry : Nat
  lastCheck : Nat
  socketCalls : List SocketCall

/-- The call `xSemaphoreTake(mcpServerMutex, wait)` made by the task `caller`
while `holder` holds the mutex: the new holder, and whether the result is
`pdTRUE`. The mutex is created by `xSemaphoreCreateMutex`, so it is not
recursive: a free mutex is taken at once; a task that holds it and takes it
again waits for the whole time and fails, since in this program only the holder
gives the mutex; and when another task holds it, `given` tells whether that
task gives it before the wait ends. -/
def xSemaphoreTake (holder : Option TaskId) (caller : TaskId) (given : Bool) :
    Option TaskId × Bool :=
  match holder with
  | none => (some caller, true)
  | some t =>
    if t = caller then (holder, false)
    else if given then (some caller, true)
    else (holder, false)

/-- The function `registerResourcesAndTools`, on the two counters: eight
resources and seven tools are appended to the arrays. -/
def registerResourcesAndTools {F : Type} (l : McpLifecycle F) : McpLifecycle F :=
  { l with resourceCount := l.resourceCount + 8, toolCount := l.toolCount + 7 }

/-- The function `setupMcpServer` called by the task `caller`. `wifiConnected`
tells whether `WiFi.status()` is `WL_CONNECTED`, and `given` is the argument of
`xSemaphoreTake` of the same name. The call `webSocket.close()` is made before
any callback is registered. -/
def setupMcpServer {F : Type} (l : McpLifecycle F) (caller : TaskId)
    (wifiConnected given : Bool) : McpLifecycle F :=
  if l.setupCompleted then l
  else if wifiConnected = false then l
  else if l.mutexCreated = false then l
  else
    let taken := xSemaphoreTake l.mutexHolder caller given
    if taken.2 then
      let l1 := { l with mutexHolder := taken.1 }
      let l2 :=
        if l1.webSocketStarted = false then
          let l3 := { l1 with
            socketCalls := l1.socketCalls
              ++ [SocketCall.close, SocketCall.begin, SocketCall.onEvent] }
          let l4 := { l3 with webSocketStarted := true }
          let l5 := { l4 with setupCompleted := true }
          registerResourcesAndTools l5
        else l1
      { l2 with mutexHolder := none }
    else l

/-- The branch of the loop of `monitorTask` taken when `WiFi.status()` is
`WL_CONNECTED` (main.cpp, lines 75 to 85). `given` belongs to the take of the
monitor task, and `wifiConnected2` and `given2` are the arguments of
`setupMcpServer`. -/
def monitorTaskMcpStart {F : Type} (l : McpLifecycle F) (given wifiConnected2 given2 : Bool) :
    McpLifecycle F :=
  let taken := xSemaphoreTake l.mutexHolder TaskId.monitorTask given
  if taken.2 then
    let l1 := { l with mutexHolder := taken.1 }
    let l2 :=
      if l1.mcpServerStarted = false then
        let l3 := setupMcpServer l1 TaskId.monitorTask wifiConnected2 given2
        { l3 with mcpServerStarted := true }
      else l1
    { l2 with mutexHolder := none }
  else l

/-- The case `WStype_DISCONNECTED` of `webSocketEvent` for the client `num`. -/
def webSocketDisconnected {F : Type} (s : McpServer F) (num : Nat) : McpServer F :=
  let s1 := if s.copilotConnected ∧ num = 0 then { s with copilotConnected := false } else s
  { s1 with mcp := removeAllSubscriptions s1.mcp num }

section Lifecycle

variable {F : Type} [Div F] [IntCast F]

/-- The function `webSocketEvent` for the client `num`; `resources` and `tools`
are the arguments of `handleMcpRequest` of the same names. The result is `none`
when the call does not return. -/
def webSocketEvent (s : McpServer F) (num : Nat) (type : WStype)
    (resources : List Resource) (tools : List Tool) : Option (McpServer F) :=
  match type with
  | .disconnected => some (webSocketDisconnected s num)
  | .connected => some (sendTXT s num SocketText.welcome)
  | .text payload =>
    let s1 :=
      if payload.mentionsInitialize ∧ payload.mentionsCopilot then
        { s with copilotConnected := true }
      else s
    match payload.request with
    | none => some (sendTXT s1 num SocketText.invalidJson)
    | some requestObj =>
      handleMcpRequest s1 num requestObj resources tools payload.now payload.env
        payload.outcomes1 payload.outcomes2
  | .other => some s

/-- The call `webSocket.loop()`: the library reports the events `events` to
`webSocketEvent`, one after the other. -/
def webSocketLoop (resources : List Resource) (tools : List Tool) :
    McpServer F → List (Nat × WStype) → Option (McpServer F)
  | s, [] => some s
  | s, (num, type) :: rest =>
    match webSocketEvent s num type resources tools with
    | none => none
    | some s1 => webSocketLoop resources tools s1 rest

/-- The function `handleMcpLoop`, called by the task of `loop()`.
`wifiConnected` tells whether `WiFi.status()` is `WL_CONNECTED`; `given` belongs
to the take of the function itself; `closing` lists the clients for which the
library reports `WStype_DISCONNECTED` to `webSocketEvent` during
`webSocket.close()`; `now` is the value of `millis()` in the retry test;
`wifiConnected2` and `given2` are the arguments of `setupMcpServer`; `nowRetry`
is the value of `millis()` stored in `lastRetry`; `events` are the events
reported during `webSocket.loop()`; `resources` and `tools` are the registered
resources and tools; `nowPoll` is the value of `millis()` in
`checkSubscriptions`; `nowStatus` and `nowStamp` are the values of `millis()` in
the test of the periodic status line and in the assignment to `lastCheck`. The
status line itself is printed between a take and a give of the mutex and has no
effect on the state. The result is `none` when the call does not return. -/
def handleMcpLoop (l : McpLifecycle F) (wifiConnected given : Bool) (closing : List Nat)
    (now : Nat) (wifiConnected2 given2 : Bool) (nowRetry : Nat) (events : List (Nat × WStype))
    (resources : List Resource) (tools : List Tool) (nowPoll nowStatus nowStamp : Nat) :
    Option (McpLifecycle F) :=
  if wifiConnected = false then
    let taken := xSemaphoreTake l.mutexHolder TaskId.loopTask given
    if taken.2 then
      let l1 := { l with mutexHolder := taken.1 }
      let l2 :=
        if l1.webSocketStarted then
          let l3 := { l1 with
            socketCalls := l1.socketCalls ++ [SocketCall.close],
            server := closing.foldl webSocketDisconnected l1.server }
          { l3 with webSocketStarted := false }
        else l1
      some { l2 with mutexHolder := none }
    else some l
  else
    let taken := xSemaphoreTake l.mutexHolder TaskId.loopTask given
    let afterLoop : Option (McpLifecycle F) :=
      if taken.2 then
        let l1 := { l with mutexHolder := taken.1 }
        let l2 :=
          if l1.webSocketStarted = false ∧ ulongSub now l1.lastRetry > WEBSOCKET_RETRY_DELAY then
            let l3 := setupMcpServer l1 TaskId.loopTask wifiConnected2 given2
            { l3 with lastRetry := nowRetry }
          else l1
        if l2.webSocketStarted then
          let l3 := { l2 with socketCalls := l2.socketCalls ++ [SocketCall.loop] }
          match webSocketLoop resources tools l3.server events with
          | none => none
          | some s1 =>
            let s2 := { s1 with mcp := checkSubscriptions resources s1.mcp nowPoll }
            some { l3 with server := s2, mutexHolder := none }
        else some { l2 with mutexHolder := none }
      else some l
    match afterLoop with
    | none => none
    | some l4 =>
      if ulongSub nowStatus l4.lastCheck > 5000 then some { l4 with lastCheck := nowStamp }
      else some l4

end Lifecycle

/-- The life cycle state when `setup()` has returned: the mutex created and
free, the listener not started, nothing registered. -/
def bootLifecycle : McpLifecycle ℚ :=
  { server := { sampleServer with mcp := initialMcpState },
    webSocketStarted := false, setupCompleted := false, mcpServerStarted := false,
    mutexCreated := true, mutexHolder := none, resourceCount := 0, toolCount := 0,
    lastRetry := 0, lastCheck := 0, socketCalls := [] }

/-- A state in which the listener runs and client 3 holds the subscription of
`sampleSubscribed`. -/
def listeningLifecycle : McpLifecycle ℚ :=
  { server := sampleServer,
    webSocketStarted := true, setupCompleted := true, mcpServerStarted := true,
    mutexCreated := true, mutexHolder := none, resourceCount := 8, toolCount := 7,
    lastRetry := 6000, lastCheck := 6000,
    socketCalls := [SocketCall.close, SocketCall.begin, SocketCall.onEvent] }

/-- A table for examples in which all five slots are active: the clients 1 to 5
have each subscribed to `relay.0` at `millis() = 1000`. -/
def fullTable : McpState :=
  [1, 2, 3, 4, 5].foldl (fun st c => addSubscription st c "relay.0".toList 1000) initialMcpState

/-- The sample device with every slot of the shunt buffer at 100 and every slot
of the ADS2 buffer at 200. -/
def loadedGlobals : Globals ℚ :=
  { sampleGlobals with shuntBuffer := fun _ => 100, ads2Buffer := fun _ => 200 }

/-! ## main.cpp: successive passes of the acquisition task -/

/-- The outside inputs of one pass of `dataTask`, named as the arguments of
`dataTask`. -/
structure TickInput where
  now1 : Nat
  begin1Ok : Bool
  reading1 : Option Int
  lockAcquired : Bool
  now2 : Nat
  begin2Ok : Bool
  reading2 : Option Int
deriving DecidableEq, Repr

section Ticks

variable {F : Type} [Sub F] [IntCast F]

/-- One pass of `dataTask` on the inputs `t`. -/
def dataTaskOn (g : Globals F) (t : TickInput) : Globals F :=
  dataTask g t.now1 t.begin1Ok t.reading1 t.lockAcquired t.now2 t.begin2Ok t.reading2

/-- The successive passes of the loop of `dataTask` on the inputs `ticks`. -/
def runTicks (g : Globals F) (ticks : List TickInput) : Globals F :=
  ticks.foldl dataTaskOn g

/-- The values `calibratedShuntDiff` and `calibratedAds2A0` of a pass of
`dataTask` that acquires the lock. -/
def tickSamples (g : Globals F) (t : TickInput) : F × F :=
  let r1 := readShuntDifferential g.adc t.now1 t.begin1Ok t.reading1
  let r2 := readADS2Channel0 r1.2 t.now2 t.begin2Ok t.reading2
  ((r1.1 : F) - g.shuntOffsetFloat, (r2.1 : F) - g.ads2OffsetFloat)

/-- The calibrated samples of the passes of `ticks` that acquire the lock, in
the order of the passes. -/
def writtenSamples (g : Globals F) : List TickInput → List (F × F)
  | [] => []
  | t :: rest =>
    (if t.lockAcquired then [tickSamples g t] else []) ++ writtenSamples (dataTaskOn g t) rest

/-- The ring buffers of `g` hold the most recent of the samples `samples`: the
cursor is the number of samples modulo 10, and each of the last 10 samples is
in the slot of its number modulo 10. -/
def RingHolds (g : Globals F) (samples : List (F × F)) : Prop :=
  g.bufferIndex = samples.length % 10 ∧
  ∀ k, k < samples.length → samples.length ≤ k + 10 →
    samples[k]? = some (g.shuntBuffer (k % 10), g.ads2Buffer (k % 10))

end Ticks

/-- Twelve passes for examples: pass `k` (from 0) reads `k + 1` on channel 1 and
`10 * (k + 1)` on channel 2 and acquires the lock. -/
def twelveTicks : List TickInput :=
  (List.range 12).map (fun k =>
    { now1 := 100 * k, begin1Ok := true, reading1 := some (Int.ofNat (k + 1)),
      lockAcquired := true, now2 := 100 * k + 1, begin2Ok := true,
      reading2 := some (Int.ofNat (10 * (k + 1))) })

/-! ## main.cpp and mcp_server.cpp: the tasks around `bufferMutex`, statement by statement -/

/-- The tasks that take `bufferMutex`. -/
inductive BufferTask where
  | dataTask
  | bleTask
deriving DecidableEq, Repr

/-- Where `dataTask` stands in its pass: outside the locked region; inside it
with nothing written yet; with the slot of `shuntBuffer` written and the slot of
`ads2Buffer` not yet; with both slots written and the cursor not yet advanced. -/
inductive DataPc where
  | idle
  | locked
  | shuntWritten
  | bothWritten
deriving DecidableEq, Repr

/-- The code that reads the ring buffers: the averaging loop of `bleTask` and
the two resource accessors of mcp_server.cpp. -/
inductive BufferReader where
  | bleTask
  | getShuntDiffValue
  | getAds2A0Value
deriving DecidableEq, Repr

/-- A read of the ring buffers: who reads, where `dataTask` stands at that
moment, whether the reader holds `bufferMutex`, and the averages it computes. -/
structure BufferRead (F : Type) where
  reader : BufferReader
  pc : DataPc
  holdsLock : Bool
  averages : List F

/-- The globals `g`, the holder of `bufferMutex`, the position `pc` of
`dataTask`, its local variable `calibratedShuntDiff`, and the trace `reads` of
the reads of the ring buffers (oldest first). -/
structure BufferSystem (F : Type) where
  g : Globals F
  bufferMutex : Option BufferTask
  pc : DataPc
  calibratedShuntDiff : F
  reads : List (BufferRead F)

section BufferSteps

variable {F : Type} [Sub F] [Add F] [Div F] [IntCast F]

/-- The start of a pass of `dataTask`: the read of channel 1 and the take of
`bufferMutex`, which succeeds when the mutex is free and fails when `bleTask`
holds it until the wait ends. -/
def dataTaskBegin (sys : BufferSystem F) (now1 : Nat) (begin1Ok : Bool)
    (reading1 : Option Int) : BufferSystem F :=
  if sys.pc = DataPc.idle then
    let r1 := readShuntDifferential sys.g.adc now1 begin1Ok reading1
    let rawShuntDiff := r1.1
    let g1 := { sys.g with adc := r1.2 }
    let calibrated : F := (rawShuntDiff : F) - g1.shuntOffsetFloat
    let sys1 : BufferSystem F := { sys with g := g1, calibratedShuntDiff := calibrated }
    if sys1.bufferMutex = none then
      { sys1 with bufferMutex := some BufferTask.dataTask, pc := DataPc.locked }
    else sys1
  else sys

/-- The statement `shuntBuffer[bufferIndex] = calibratedShuntDiff`. -/
def dataTaskWriteShunt (sys : BufferSystem F) : BufferSystem F :=
  if sys.pc = DataPc.locked then
    let g1 := { sys.g with
      shuntBuffer := Function.update sys.g.shuntBuffer sys.g.bufferIndex sys.calibratedShuntDiff }
    { sys with g := g1, pc := DataPc.shuntWritten }
  else sys

/-- The read of channel 2 and the statement
`ads2Buffer[bufferIndex] = calibratedAds2A0`. -/
def dataTaskWriteAds2 (sys : BufferSystem F) (now2 : Nat) (begin2Ok : Bool)
    (reading2 : Option Int) : BufferSystem F :=
  if sys.pc = DataPc.shuntWritten then
    let r2 := readADS2Channel0 sys.g.adc now2 begin2Ok reading2
    let rawAds2A0 := r2.1
    let g1 := { sys.g with adc := r2.2 }
    let calibratedAds2A0 : F := (rawAds2A0 : F) - g1.ads2OffsetFloat
    let g2 := { g1 with
      ads2Buffer := Function.update g1.ads2Buffer g1.bufferIndex calibratedAds2A0 }
    { sys with g := g2, pc := DataPc.bothWritten }
  else sys

/-- The statements `bufferIndex = (bufferIndex + 1) % avgWindow` and
`xSemaphoreGive(bufferMutex)`. -/
def dataTaskAdvance (sys : BufferSystem F) : BufferSystem F :=
  if sys.pc = DataPc.bothWritten then
    let g1 := { sys.g with bufferIndex := (sys.g.bufferIndex + 1) % avgWindow }
    { sys with g := g1, bufferMutex := none, pc := DataPc.idle }
  else sys

/-- The take of `bufferMutex` by `bleTask`, when the mutex is free. -/
def bleTaskTake (sys : BufferSystem F) : BufferSystem F :=
  if sys.bufferMutex = none then { sys with bufferMutex := some BufferTask.bleTask }
  else sys

/-- The averaging loop of `bleTask` and its give of `bufferMutex`, made while
`bleTask` holds the mutex. -/
def bleTaskRead (sys : BufferSystem F) : BufferSystem F :=
  if sys.bufferMutex = some BufferTask.bleTask then
    let shuntDiffAvg := bufferSum sys.g.shuntBuffer avgWindow / ((avgWindow : Int) : F)
    let ads2A0Avg :=
      if sys.g.adc.ads2_available then bufferSum sys.g.ads2Buffer avgWindow / ((avgWindow : Int) : F)
      else ((0 : Int) : F)
    let read : BufferRead F :=
      { reader := BufferReader.bleTask, pc := sys.pc, holdsLock := true,
        averages := [shuntDiffAvg, ads2A0Avg] }
    { sys with reads := sys.reads ++ [read], bufferMutex := none }
  else sys

/-- The accessor `getShuntDiffValue` of mcp_server.cpp, up to the conversion of
the average to text: it calls `getBufferAverage(shuntBuffer, 10)` and takes no
lock. -/
def getShuntDiffValue (sys : BufferSystem F) : BufferSystem F :=
  let avg := getBufferAverage sys.g.shuntBuffer 10
  let read : BufferRead F :=
    { reader := BufferReader.getShuntDiffValue, pc := sys.pc, holdsLock := false,
      averages := [avg] }
  { sys with reads := sys.reads ++ [read] }

/-- The accessor `getAds2A0Value` of mcp_server.cpp, up to the conversion of
the average to text: it returns `unavailable` without a read when ADS1115 #2 is
not available, and otherwise calls `getBufferAverage(ads2Buffer, 10)`; it takes
no lock. -/
def getAds2A0Value (sys : BufferSystem F) : BufferSystem F :=
  if sys.g.adc.ads2_available = false then sys
  else
    let avg := getBufferAverage sys.g.ads2Buffer 10
    let read : BufferRead F :=
      { reader := BufferReader.getAds2A0Value, pc := sys.pc, holdsLock := false,
        averages := [avg] }
    { sys with reads := sys.reads ++ [read] }

/-- The states the tasks reach from `sys0` by their statements, in any
interleaving. -/
inductive BufferReachable (sys0 : BufferSystem F) : BufferSystem F → Prop where
  | start : BufferReachable sys0 sys0
  | dataBegin {sys : BufferSystem F} (now1 : Nat) (begin1Ok : Bool) (reading1 : Option Int) :
      BufferReachable sys0 sys → BufferReachable sys0 (dataTaskBegin sys now1 begin1Ok reading1)
  | dataWriteShunt {sys : BufferSystem F} :
      BufferReachable sys0 sys → BufferReachable sys0 (dataTaskWriteShunt sys)
  | dataWriteAds2 {sys : BufferSystem F} (now2 : Nat) (begin2Ok : Bool)
      (reading2 : Option Int) :
      BufferReachable sys0 sys → BufferReachable sys0 (dataTaskWriteAds2 sys now2 begin2Ok reading2)
  | dataAdvance {sys : BufferSystem F} :
      BufferReachable sys0 sys → BufferReachable sys0 (dataTaskAdvance sys)
  | bleTake {sys : BufferSystem F} :
      BufferReachable sys0 sys → BufferReachable sys0 (bleTaskTake sys)
  | bleRead {sys : BufferSystem F} :
      BufferReachable sys0 sys → BufferReachable sys0 (bleTaskRead sys)
  | shuntAccessor {sys : BufferSystem F} :
      BufferReachable sys0 sys → BufferReachable sys0 (getShuntDiffValue sys)
  | ads2Accessor {sys : BufferSystem F} :
      BufferReachable sys0 sys → BufferReachable sys0 (getAds2A0Value sys)

end BufferSteps

/-- The sample device with the mutex free, `dataTask` outside its locked
region and no read made. -/
def sampleSystem : BufferSystem ℚ :=
  { g := sampleGlobals, bufferMutex := none, pc := DataPc.idle, calibratedShuntDiff := 0,
    reads := [] }

/-- The sample system after `dataTask` has read 160 on channel 1, taken the
mutex and written the slot of `shuntBuffer`, followed by the two accessors. -/
def tornRead : BufferSystem ℚ :=
  getAds2A0Value (getShuntDiffValue
    (dataTaskWriteShunt (dataTaskBegin sampleSystem 1000 true (some 160))))

/-! ## The command grammar of the specification -/

/-- Whether a text is a decimal numeral (the Boolean form of `IsNumeral`). -/
def isNumeralText (ds : Str) : Bool := !ds.isEmpty && ds.all Char.isDigit

/-- The command grammar as the specification words it (section 4.4, one
disjunct per row of its table), not taken from the code: the bare words
`CALIBRATE`, `OTA`, `SCAN` and `DISCONNECT`, `TOGGLE_<pin>`,
`SET_<pin>_<ON|OFF>`, `SET_SAMPLING_RATE_<ms>` and `SELECT_<ssid>:<password>`.
The placeholders `<pin>` and `<ms>` are read as decimal numerals and
`<ssid>:<password>` as any text that holds a colon. -/
def matchesCommandGrammar (command : Str) : Bool :=
  let afterSet := command.drop 4
  decide (command = "CALIBRATE".toList) || decide (command = "OTA".toList)
    || decide (command = "SCAN".toList) || decide (command = "DISCONNECT".toList)
    || (List.isPrefixOf "TOGGLE_".toList command && isNumeralText (command.drop 7))
    || (List.isPrefixOf "SET_".toList command
        && ((List.isSuffixOf "_ON".toList afterSet
              && isNumeralText (afterSet.take (afterSet.length - 3)))
            || (List.isSuffixOf "_OFF".toList afterSet
              && isNumeralText (afterSet.take (afterSet.length - 4)))))
    || (List.isPrefixOf "SET_SAMPLING_RATE_".toList command
        && isNumeralText (command.drop 18))
    || (List.isPrefixOf "SELECT_".toList command && (command.drop 7).contains ':')

/-! ## main.cpp and mcp_server.cpp: the states of the life cycle the program reaches -/

/-- The rounding of a rational number to an integer: to the nearest one, and
to the even one of the two when it lies half way between them. -/
def roundHalfEven (x : ℚ) : Int :=
  if 2 * Int.fract x < 1 then ⌊x⌋
  else if 1 < 2 * Int.fract x then ⌊x⌋ + 1
  else if ⌊x⌋ % 2 = 0 then ⌊x⌋ else ⌊x⌋ + 1

/-- The exponent of the last place of the binary32 significand at the rational
number `q`: 23 binary places below the leading bit of `q`, and never below the
exponent `-149` of the subnormal numbers. -/
def ulpExponent (q : ℚ) : Int := max (Int.log 2 |q| - 23) (-149)

/-- The rounding of IEEE 754 to binary32 in the default mode (to nearest, ties
to even): the nearest multiple of `2 ^ ulpExponent q`. Results at or beyond
`2 ^ 128` in magnitude, which the format replaces by an infinity, are outside
this model. -/
def roundBinary32 (q : ℚ) : ℚ :=
  (roundHalfEven (q / (2 : ℚ) ^ ulpExponent q) : ℚ) * (2 : ℚ) ^ ulpExponent q

/-- The type `float` of the target (the ESP32 computes `float` in IEEE 754
binary32), for finite values: a value is given by the rational number it
denotes, and the operations `+`, `-`, `/` and the conversion from an integer
return the exact result rounded by `roundBinary32`; negation and comparison are
exact. Infinities and NaN are not modelled, and neither is division by zero. -/
structure Binary32 where
  val : ℚ

instance : Add Binary32 := ⟨fun a b => ⟨roundBinary32 (a.val + b.val)⟩⟩

instance : Sub Binary32 := ⟨fun a b => ⟨roundBinary32 (a.val - b.val)⟩⟩

instance : Div Binary32 := ⟨fun a b => ⟨roundBinary32 (a.val / b.val)⟩⟩

instance : Neg Binary32 := ⟨fun a => ⟨-a.val⟩⟩

instance : IntCast Binary32 := ⟨fun n => ⟨roundBinary32 (n : ℚ)⟩⟩

instance : LT Binary32 := ⟨fun a b => a.val < b.val⟩

instance : DecidableRel (α := Binary32) (· < ·) :=
  fun a b => inferInstanceAs (Decidable (a.val < b.val))

/-- The sample device with `float` numbers, every slot of both buffers at `0`. -/
def sampleGlobals32 : Globals Binary32 :=
  { adc := bootAdcState true, shuntOffsetFloat := ⟨0⟩, ads2OffsetFloat := ⟨0⟩,
    shuntBuffer := fun _ => ⟨0⟩, ads2Buffer := fun _ => ⟨0⟩, bufferIndex := 0,
    relayStates := fun _ => false, pinLevel := fun _ => false,
    prefs := fun _ => none, samplingIntervalMs := 17, samplingIntervalStatic := 17,
    pRelayCharacteristic := true, relayNotifications := [] }

/-- The ring buffer with the slots `1, 2, 3, 4, 5, 0, 0, 0, 0, 0` as `float`
numbers. -/
def oneToFiveBuffer32 : Nat → Binary32 := fun i => ⟨oneToFiveBuffer i⟩

/-- The ring buffer with the slots `11, 0, 0, 0, 0, 0, 0, 0, 0, 0` as `float`
numbers. -/
def elevenBuffer32 : Nat → Binary32 := fun i => if i = 0 then ⟨11⟩ else ⟨0⟩

/-- The radio state of `sampleBle` for `float` documents: a client connected,
the data characteristic in place, nothing notified yet. -/
def sampleBle32 : BleState Binary32 :=
  { deviceConnected := true, oldDeviceConnected := true, pDataCharacteristic := true,
    lastNotificationTime := 0, dataNotifications := [], advertisingStarts := 0 }

/-! ## Theorems: the sensor health tracker -/

/-- A successful read of channel 1 while it is available. -/
theorem readShuntDifferential_ok (s : AdcState) (now : Nat) (beginOk : Bool) (v : Int)
    (h : s.ads1_available = true) :
    readShuntDifferential s now beginOk (some v) =
      (v, { s with
        busLog := s.busLog ++ [BusOp.wireSetTimeOut 100, BusOp.readDifferential01 ADS1_ADDR],
        ads1ErrorCount := 0,
        lastGoodShuntReading := v }) := by
  simp [readShuntDifferential, h]

/-- A failed read of channel 1 while it is available. -/
theorem readShuntDifferential_fail (s : AdcState) (now : Nat) (beginOk : Bool)
    (h : s.ads1_available = true) :
    readShuntDifferential s now beginOk none =
      (s.lastGoodShuntReading, { s with
        busLog := s.busLog ++ [BusOp.wireSetTimeOut 100, BusOp.readDifferential01 ADS1_ADDR],
        ads1ErrorCount := (s.ads1ErrorCount + 1) % 256,
        ads1_available := decide ((s.ads1ErrorCount + 1) % 256 < 5) }) := by
  by_cases hc : 5 ≤ (s.ads1ErrorCount + 1) % 256
  · have hd : ¬ (s.ads1ErrorCount + 1) % 256 < 5 := by omega
    simp [readShuntDifferential, h, uint8Incr, MAX_ERRORS_BEFORE_RESET, hc, hd]
  · have hd : (s.ads1ErrorCount + 1) % 256 < 5 := by omega
    simp [readShuntDifferential, h, uint8Incr, MAX_ERRORS_BEFORE_RESET, hc, hd]

/-- A successful read of channel 2 while it is available. -/
theorem readADS2Channel0_ok (s : AdcState) (now : Nat) (beginOk : Bool) (v : Int)
    (h : s.ads2_available = true) :
    readADS2Channel0 s now beginOk (some v) =
      (v, { s with
        busLog := s.busLog ++ [BusOp.wireSetTimeOut 100, BusOp.readSingleEnded ADS2_ADDR 0],
        ads2ErrorCount := 0,
        lastGoodAds2Reading := v }) := by
  simp [readADS2Channel0, h]

/-- A failed read of channel 2 while it is available. -/
theorem readADS2Channel0_fail (s : AdcState) (now : Nat) (beginOk : Bool)
    (h : s.ads2_available = true) :
    readADS2Channel0 s now beginOk none =
      (s.lastGoodAds2Reading, { s with
        busLog := s.busLog ++ [BusOp.wireSetTimeOut 100, BusOp.readSingleEnded ADS2_ADDR 0],
        ads2ErrorCount := (s.ads2ErrorCount + 1) % 256,
        ads2_available := decide ((s.ads2ErrorCount + 1) % 256 < 5) }) := by
  by_cases hc : 5 ≤ (s.ads2ErrorCount + 1) % 256
  · have hd : ¬ (s.ads2ErrorCount + 1) % 256 < 5 := by omega
    simp [readADS2Channel0, h, uint8Incr, MAX_ERRORS_BEFORE_RESET, hc, hd]
  · have hd : (s.ads2ErrorCount + 1) % 256 < 5 := by omega
    simp [readADS2Channel0, h, uint8Incr, MAX_ERRORS_BEFORE_RESET, hc, hd]

/-- Claim C1. For each of the two channels, when the channel is available: a
read whose bus operation succeeds with value `v` returns `v`, makes `v` the
last good reading and sets the error count to `0`; a read whose bus operation
fails returns the previous last good reading, leaves it unchanged, adds one to
the error count (an 8-bit counter: the sum is taken modulo `256`, and is the
plain successor below `255`), and leaves the channel unavailable exactly when
the new count is at least `5`, which for a count that was below `5` means that
it is exactly `5`. -/
theorem tracker_read_available (s : AdcState) (now : Nat) (beginOk : Bool) :
    (s.ads1_available = true →
      (∀ v : Int,
        (readShuntDifferential s now beginOk (some v)).1 = v ∧
        (readShuntDifferential s now beginOk (some v)).2.lastGoodShuntReading = v ∧
        (readShuntDifferential s now beginOk (some v)).2.ads1ErrorCount = 0 ∧
        (readShuntDifferential s now beginOk (some v)).2.ads1_available = true) ∧
      (readShuntDifferential s now beginOk none).1 = s.lastGoodShuntReading ∧
      (readShuntDifferential s now beginOk none).2.lastGoodShuntReading
        = s.lastGoodShuntReading ∧
      (readShuntDifferential s now beginOk none).2.ads1ErrorCount
        = (s.ads1ErrorCount + 1) % 256 ∧
      (s.ads1ErrorCount < 255 →
        (readShuntDifferential s now beginOk none).2.ads1ErrorCount
          = s.ads1ErrorCount + 1) ∧
      ((readShuntDifferential s now beginOk none).2.ads1_available = false ↔
        5 ≤ (readShuntDifferential s now beginOk none).2.ads1ErrorCount) ∧
      (s.ads1ErrorCount < 5 →
        ((readShuntDifferential s now beginOk none).2.ads1_available = false ↔
          (readShuntDifferential s now beginOk none).2.ads1ErrorCount = 5))) ∧
    (s.ads2_available = true →
      (∀ v : Int,
        (readADS2Channel0 s now beginOk (some v)).1 = v ∧
        (readADS2Channel0 s now beginOk (some v)).2.lastGoodAds2Reading = v ∧
        (readADS2Channel0 s now beginOk (some v)).2.ads2ErrorCount = 0 ∧
        (readADS2Channel0 s now beginOk (some v)).2.ads2_available = true) ∧
      (readADS2Channel0 s now beginOk none).1 = s.lastGoodAds2Reading ∧
      (readADS2Channel0 s now beginOk none).2.lastGoodAds2Reading
        = s.lastGoodAds2Reading ∧
      (readADS2Channel0 s now beginOk none).2.ads2ErrorCount
        = (s.ads2ErrorCount + 1) % 256 ∧
      (s.ads2ErrorCount < 255 →
        (readADS2Channel0 s now beginOk none).2.ads2ErrorCount
          = s.ads2ErrorCount + 1) ∧
      ((readADS2Channel0 s now beginOk none).2.ads2_available = false ↔
        5 ≤ (readADS2Channel0 s now beginOk none).2.ads2ErrorCount) ∧
      (s.ads2ErrorCount < 5 →
        ((readADS2Channel0 s now beginOk none).2.ads2_available = false ↔
          (readADS2Channel0 s now beginOk none).2.ads2ErrorCount = 5))) := by
  constructor
  · intro h
    refine ⟨fun v => ?_, ?_⟩
    · rw [readShuntDifferential_ok s now beginOk v h]
      simp [h]
    · rw [readShuntDifferential_fail s now beginOk h]
      refine ⟨rfl, rfl, rfl, fun hlt => Nat.mod_eq_of_lt (by omega), ?_, fun hlt => ?_⟩
      · simp only [decide_eq_false_iff_not, not_lt]
      · have hm : (s.ads1ErrorCount + 1) % 256 = s.ads1ErrorCount + 1 :=
          Nat.mod_eq_of_lt (by omega)
        simp only [decide_eq_false_iff_not, not_lt, hm]
        omega
  · intro h
    refine ⟨fun v => ?_, ?_⟩
    · rw [readADS2Channel0_ok s now beginOk v h]
      simp [h]
    · rw [readADS2Channel0_fail s now beginOk h]
      refine ⟨rfl, rfl, rfl, fun hlt => Nat.mod_eq_of_lt (by omega), ?_, fun hlt => ?_⟩
      · simp only [decide_eq_false_iff_not, not_lt]
      · have hm : (s.ads2ErrorCount + 1) % 256 = s.ads2ErrorCount + 1 :=
          Nat.mod_eq_of_lt (by omega)
        simp only [decide_eq_false_iff_not, not_lt, hm]
        omega

/-- Witness of `tracker_read_available` at the boot state. -/
theorem tracker_read_available_witness :
    (bootAdcState true).ads1_available = true ∧
    (readShuntDifferential (bootAdcState true) 100 false (some 7)).1 = 7 ∧
    (readADS2Channel0 (bootAdcState true) 100 false none).2.ads2ErrorCount = (0 + 1) % 256 :=
  ⟨rfl,
   (((tracker_read_available (bootAdcState true) 100 false).1 rfl).1 7).1,
   ((tracker_read_available (bootAdcState true) 100 false).2 rfl).2.2.2.1⟩

/-- Claim C2, refuted as stated. From boot, five consecutive failed reads of
channel 1 at `millis() = 10000, …, 10068` make it unavailable on the fifth (it
is still available after four), and the next read, at `10085`, only 17 ms after
the channel became unavailable, probes and configures the device: the recovery
timer `lastAds1RecoveryAttempt` still holds its boot value `0`. -/
theorem probe_17ms_after_becoming_unavailable :
    (shuntReads (bootAdcState true) (fiveFailedReads.take 4)).ads1_available = true ∧
    (shuntReads (bootAdcState true) fiveFailedReads).ads1_available = false ∧
    (shuntReads (bootAdcState true) fiveFailedReads).lastAds1RecoveryAttempt = 0 ∧
    (readShuntDifferential (shuntReads (bootAdcState true) fiveFailedReads)
        10085 true none).2.busLog
      = (shuntReads (bootAdcState true) fiveFailedReads).busLog ++
          [BusOp.begin ADS1_ADDR, BusOp.setGain ADS1_ADDR Gain.GAIN_EIGHT,
           BusOp.setDataRate ADS1_ADDR] := by
  decide

/-- The 32-bit difference of two clock values is their difference when the
clock has not wrapped in between. -/
theorem ulongSub_eq_sub (now last : Nat) (h1 : last ≤ now) (h2 : now < 2 ^ 32) :
    ulongSub now last = now - last := by
  have h3 : last % 2 ^ 32 = last := Nat.mod_eq_of_lt (by omega)
  unfold ulongSub
  rw [h3]
  have h4 : now + 2 ^ 32 - last = (now - last) + 2 ^ 32 := by omega
  rw [h4, Nat.add_mod_right]
  exact Nat.mod_eq_of_lt (by omega)

/-- A read of channel 1 while it is unavailable and the recovery interval has
not passed. -/
theorem readShuntDifferential_wait (s : AdcState) (now : Nat) (beginOk : Bool)
    (reading : Option Int) (h : s.ads1_available = false)
    (hw : ulongSub now s.lastAds1RecoveryAttempt ≤ 5000) :
    readShuntDifferential s now beginOk reading = (s.lastGoodShuntReading, s) := by
  have : ¬ ulongSub now s.lastAds1RecoveryAttempt > RECOVERY_INTERVAL_MS := by
    simp only [RECOVERY_INTERVAL_MS]; omega
  simp [readShuntDifferential, h, this]

/-- A read of channel 1 while it is unavailable and the recovery interval has
passed. -/
theorem readShuntDifferential_probe (s : AdcState) (now : Nat) (beginOk : Bool)
    (reading : Option Int) (h : s.ads1_available = false)
    (hw : 5000 < ulongSub now s.lastAds1RecoveryAttempt) :
    readShuntDifferential s now beginOk reading =
      (s.lastGoodShuntReading, { s with
        lastAds1RecoveryAttempt := now,
        busLog := s.busLog ++ BusOp.begin ADS1_ADDR ::
          (if beginOk then [BusOp.setGain ADS1_ADDR Gain.GAIN_EIGHT,
                            BusOp.setDataRate ADS1_ADDR] else []),
        ads1_available := beginOk,
        ads1ErrorCount := if beginOk then 0 else s.ads1ErrorCount }) := by
  have : ulongSub now s.lastAds1RecoveryAttempt > RECOVERY_INTERVAL_MS := by
    simp only [RECOVERY_INTERVAL_MS]; omega
  cases beginOk <;> simp [readShuntDifferential, h, this]

/-- A read of channel 2 while it is unavailable and the recovery interval has
not passed. -/
theorem readADS2Channel0_wait (s : AdcState) (now : Nat) (beginOk : Bool)
    (reading : Option Int) (h : s.ads2_available = false)
    (hw : ulongSub now s.lastAds2RecoveryAttempt ≤ 5000) :
    readADS2Channel0 s now beginOk reading = (s.lastGoodAds2Reading, s) := by
  have : ¬ ulongSub now s.lastAds2RecoveryAttempt > RECOVERY_INTERVAL_MS := by
    simp only [RECOVERY_INTERVAL_MS]; omega
  simp [readADS2Channel0, h, this]

/-- A read of channel 2 while it is unavailable and the recovery interval has
passed. -/
theorem readADS2Channel0_probe (s : AdcState) (now : Nat) (beginOk : Bool)
    (reading : Option Int) (h : s.ads2_available = false)
    (hw : 5000 < ulongSub now s.lastAds2RecoveryAttempt) :
    readADS2Channel0 s now beginOk reading =
      (s.lastGoodAds2Reading, { s with
        lastAds2RecoveryAttempt := now,
        busLog := s.busLog ++ BusOp.begin ADS2_ADDR ::
          (if beginOk then [BusOp.setGain ADS2_ADDR Gain.GAIN_ONE,
                            BusOp.setDataRate ADS2_ADDR] else []),
        ads2_available := beginOk,
        ads2ErrorCount := if beginOk then 0 else s.ads2ErrorCount }) := by
  have : ulongSub now s.lastAds2RecoveryAttempt > RECOVERY_INTERVAL_MS := by
    simp only [RECOVERY_INTERVAL_MS]; omega
  cases beginOk <;> simp [readADS2Channel0, h, this]

/-- Claim C2, amended. For each of the two channels, a read made while the
channel is unavailable returns the last good reading, leaves it unchanged and
never reads the converter. When at most 5000 ms (in 32-bit clock arithmetic)
have passed since the last recovery attempt of the channel, the read changes
nothing and makes no bus call; for a clock that has not wrapped this is
`now - lastRecoveryAttempt ≤ 5000`. When more than 5000 ms have passed, the
read stamps the attempt, probes the device, configures it only if the probe
succeeds, and the channel is available afterwards exactly when the probe
succeeded. -/
theorem tracker_read_unavailable (s : AdcState) (now : Nat) (beginOk : Bool)
    (reading : Option Int) :
    (s.ads1_available = false →
      (readShuntDifferential s now beginOk reading).1 = s.lastGoodShuntReading ∧
      (readShuntDifferential s now beginOk reading).2.lastGoodShuntReading
        = s.lastGoodShuntReading ∧
      (ulongSub now s.lastAds1RecoveryAttempt ≤ 5000 →
        (readShuntDifferential s now beginOk reading).2 = s) ∧
      (s.lastAds1RecoveryAttempt ≤ now → now < 2 ^ 32 →
        now - s.lastAds1RecoveryAttempt ≤ 5000 →
        (readShuntDifferential s now beginOk reading).2 = s) ∧
      (5000 < ulongSub now s.lastAds1RecoveryAttempt →
        (readShuntDifferential s now beginOk reading).2.busLog
          = s.busLog ++ BusOp.begin ADS1_ADDR ::
              (if beginOk then [BusOp.setGain ADS1_ADDR Gain.GAIN_EIGHT,
                                BusOp.setDataRate ADS1_ADDR] else []) ∧
        (readShuntDifferential s now beginOk reading).2.lastAds1RecoveryAttempt = now ∧
        (readShuntDifferential s now beginOk reading).2.ads1_available = beginOk)) ∧
    (s.ads2_available = false →
      (readADS2Channel0 s now beginOk reading).1 = s.lastGoodAds2Reading ∧
      (readADS2Channel0 s now beginOk reading).2.lastGoodAds2Reading
        = s.lastGoodAds2Reading ∧
      (ulongSub now s.lastAds2RecoveryAttempt ≤ 5000 →
        (readADS2Channel0 s now beginOk reading).2 = s) ∧
      (s.lastAds2RecoveryAttempt ≤ now → now < 2 ^ 32 →
        now - s.lastAds2RecoveryAttempt ≤ 5000 →
        (readADS2Channel0 s now beginOk reading).2 = s) ∧
      (5000 < ulongSub now s.lastAds2RecoveryAttempt →
        (readADS2Channel0 s now beginOk reading).2.busLog
          = s.busLog ++ BusOp.begin ADS2_ADDR ::
              (if beginOk then [BusOp.setGain ADS2_ADDR Gain.GAIN_ONE,
                                BusOp.setDataRate ADS2_ADDR] else []) ∧
        (readADS2Channel0 s now beginOk reading).2.lastAds2RecoveryAttempt = now ∧
        (readADS2Channel0 s now beginOk reading).2.ads2_available = beginOk)) := by
  constructor
  · intro h
    by_cases hw : ulongSub now s.lastAds1RecoveryAttempt ≤ 5000
    · rw [readShuntDifferential_wait s now beginOk reading h hw]
      exact ⟨rfl, rfl, fun _ => rfl, fun _ _ _ => rfl, fun hc => absurd hc (by omega)⟩
    · have hp : 5000 < ulongSub now s.lastAds1RecoveryAttempt := by omega
      rw [readShuntDifferential_probe s now beginOk reading h hp]
      refine ⟨rfl, rfl, fun hc => absurd hc hw, fun h1 h2 h3 => ?_, fun _ => ⟨rfl, rfl, rfl⟩⟩
      rw [ulongSub_eq_sub now _ h1 h2] at hw
      exact absurd h3 hw
  · intro h
    by_cases hw : ulongSub now s.lastAds2RecoveryAttempt ≤ 5000
    · rw [readADS2Channel0_wait s now beginOk reading h hw]
      exact ⟨rfl, rfl, fun _ => rfl, fun _ _ _ => rfl, fun hc => absurd hc (by omega)⟩
    · have hp : 5000 < ulongSub now s.lastAds2RecoveryAttempt := by omega
      rw [readADS2Channel0_probe s now beginOk reading h hp]
      refine ⟨rfl, rfl, fun hc => absurd hc hw, fun h1 h2 h3 => ?_, fun _ => ⟨rfl, rfl, rfl⟩⟩
      rw [ulongSub_eq_sub now _ h1 h2] at hw
      exact absurd h3 hw

/-- Witness of `tracker_read_unavailable`: 17 ms after a failed probe the read
of the unavailable channel 1 changes nothing. -/
theorem tracker_read_unavailable_witness :
    unavailableSinceProbeAt20000.ads1_available = false ∧
    unavailableSinceProbeAt20000.lastAds1RecoveryAttempt = 20000 ∧
    (readShuntDifferential unavailableSinceProbeAt20000 20017 true (some 5)).2
      = unavailableSinceProbeAt20000 :=
  ⟨by decide, by decide,
   ((tracker_read_unavailable unavailableSinceProbeAt20000 20017 true (some 5)).1
      (by decide)).2.2.1 (by decide)⟩

/-- Every state produced by a sequence of reads of channel 1 from a reachable
state is reachable. -/
theorem AdcReachable.after_reads {s : AdcState} (h : AdcReachable s)
    (calls : List (Nat × Bool × Option Int)) : AdcReachable (shuntReads s calls) := by
  induction calls generalizing s with
  | nil => exact h
  | cons c rest ih =>
    simp only [shuntReads, List.foldl_cons]
    exact ih (AdcReachable.readShunt c.1 c.2.1 c.2.2 h)

/-- Claim C3, the code at the failing input. After boot, five failed reads of
channel 1 and a monitor pass whose probe succeeds, the state is reachable,
channel 1 is available and its error count is still `5`; a single failed read
then raises the count to `6` and makes the channel unavailable. The recovery
made by a read itself, from the same state, resets the count to `0`. -/
theorem monitor_recovery_keeps_error_count :
    AdcReachable recoveredByMonitor ∧
    recoveredByMonitor.ads1_available = true ∧
    recoveredByMonitor.ads1ErrorCount = 5 ∧
    (readShuntDifferential recoveredByMonitor 40000 false none).2.ads1_available = false ∧
    (readShuntDifferential recoveredByMonitor 40000 false none).2.ads1ErrorCount = 6 ∧
    (readShuntDifferential (shuntReads (bootAdcState true) fiveFailedReads)
        40000 true none).2.ads1_available = true ∧
    (readShuntDifferential (shuntReads (bootAdcState true) fiveFailedReads)
        40000 true none).2.ads1ErrorCount = 0 := by
  refine ⟨?_, by decide, by decide, by decide, by decide, by decide, by decide⟩
  exact AdcReachable.monitor true true
    (AdcReachable.after_reads (AdcReachable.boot true) fiveFailedReads)

/-! ## Theorems: the acquisition tick -/

/-- A call of `readShuntDifferential` leaves the variables of channel 2
unchanged, keeps the bus trace as a prefix, and adds no call that addresses
ADS1115 #2. -/
theorem readShuntDifferential_frame (s : AdcState) (now : Nat) (beginOk : Bool)
    (reading : Option Int) :
    (readShuntDifferential s now beginOk reading).2.ads2_available = s.ads2_available ∧
    (readShuntDifferential s now beginOk reading).2.lastGoodAds2Reading
      = s.lastGoodAds2Reading ∧
    (readShuntDifferential s now beginOk reading).2.ads2ErrorCount = s.ads2ErrorCount ∧
    (readShuntDifferential s now beginOk reading).2.lastAds2RecoveryAttempt
      = s.lastAds2RecoveryAttempt ∧
    (readShuntDifferential s now beginOk reading).2.busLog.take s.busLog.length = s.busLog ∧
    ∀ op ∈ (readShuntDifferential s now beginOk reading).2.busLog.drop s.busLog.length,
      op.device ≠ some ADS2_ADDR := by
  cases hav : s.ads1_available
  · by_cases hw : ulongSub now s.lastAds1RecoveryAttempt ≤ 5000
    · rw [readShuntDifferential_wait s now beginOk reading hav hw]
      simp
    · rw [readShuntDifferential_probe s now beginOk reading hav (by omega)]
      cases beginOk <;> simp [BusOp.device, ADS1_ADDR, ADS2_ADDR]
  · cases reading with
    | none =>
      rw [readShuntDifferential_fail s now beginOk hav]
      simp [BusOp.device, ADS1_ADDR, ADS2_ADDR]
    | some v =>
      rw [readShuntDifferential_ok s now beginOk v hav]
      simp [BusOp.device, ADS1_ADDR, ADS2_ADDR]

/-- Claim C4. One acquisition tick of `dataTask` with cursor `c = bufferIndex`.
If the buffer lock is acquired, slot `c` of `shuntBuffer` becomes the raw
channel-1 reading minus the channel-1 offset, slot `c` of `ads2Buffer` becomes
the raw channel-2 reading minus the channel-2 offset, every other slot of both
buffers is unchanged and the cursor becomes `(c + 1) mod 10`. If the lock is
not acquired, both buffers and the cursor are unchanged and channel 2 is not
read: the converter variables are exactly as the read of channel 1 leaves them,
so those of channel 2 are unchanged and no bus call made in the tick addresses
ADS1115 #2. -/
theorem dataTask_tick {F : Type} [Sub F] [IntCast F] (g : Globals F) (now1 : Nat) (begin1Ok : Bool) (reading1 : Option Int)
    (now2 : Nat) (begin2Ok : Bool) (reading2 : Option Int) :
    ((dataTask g now1 begin1Ok reading1 true now2 begin2Ok reading2).shuntBuffer g.bufferIndex
        = ((readShuntDifferential g.adc now1 begin1Ok reading1).1 : F) - g.shuntOffsetFloat ∧
      (dataTask g now1 begin1Ok reading1 true now2 begin2Ok reading2).ads2Buffer g.bufferIndex
        = ((readADS2Channel0 (readShuntDifferential g.adc now1 begin1Ok reading1).2
              now2 begin2Ok reading2).1 : F) - g.ads2OffsetFloat ∧
      (∀ i, i ≠ g.bufferIndex →
        (dataTask g now1 begin1Ok reading1 true now2 begin2Ok reading2).shuntBuffer i
          = g.shuntBuffer i ∧
        (dataTask g now1 begin1Ok reading1 true now2 begin2Ok reading2).ads2Buffer i
          = g.ads2Buffer i) ∧
      (dataTask g now1 begin1Ok reading1 true now2 begin2Ok reading2).bufferIndex
        = (g.bufferIndex + 1) % 10) ∧
    ((dataTask g now1 begin1Ok reading1 false now2 begin2Ok reading2).shuntBuffer
        = g.shuntBuffer ∧
      (dataTask g now1 begin1Ok reading1 false now2 begin2Ok reading2).ads2Buffer
        = g.ads2Buffer ∧
      (dataTask g now1 begin1Ok reading1 false now2 begin2Ok reading2).bufferIndex
        = g.bufferIndex ∧
      (dataTask g now1 begin1Ok reading1 false now2 begin2Ok reading2).adc
        = (readShuntDifferential g.adc now1 begin1Ok reading1).2 ∧
      (dataTask g now1 begin1Ok reading1 false now2 begin2Ok reading2).adc.ads2_available
        = g.adc.ads2_available ∧
      (dataTask g now1 begin1Ok reading1 false now2 begin2Ok reading2).adc.lastGoodAds2Reading
        = g.adc.lastGoodAds2Reading ∧
      (dataTask g now1 begin1Ok reading1 false now2 begin2Ok reading2).adc.ads2ErrorCount
        = g.adc.ads2ErrorCount ∧
      (dataTask g now1 begin1Ok reading1 false now2 begin2Ok reading2).adc.busLog.take
          g.adc.busLog.length = g.adc.busLog ∧
      ∀ op ∈ (dataTask g now1 begin1Ok reading1 false now2 begin2Ok reading2).adc.busLog.drop
          g.adc.busLog.length, op.device ≠ some ADS2_ADDR) := by
  have hf := readShuntDifferential_frame g.adc now1 begin1Ok reading1
  refine ⟨⟨?_, ?_, ?_, ?_⟩, ?_⟩
  · simp [dataTask]
  · simp [dataTask]
  · intro i hi
    simp [dataTask, Function.update_noteq hi]
  · simp [dataTask, avgWindow]
  · refine ⟨rfl, rfl, rfl, rfl, ?_, ?_, ?_, ?_, ?_⟩
    · exact hf.1
    · exact hf.2.1
    · exact hf.2.2.1
    · exact hf.2.2.2.2.1
    · exact hf.2.2.2.2.2

/-! ## Theorems: text primitives -/

/-- The code point of a decimal digit lies between `'0'` and `'9'`. -/
theorem isDigit_bounds {c : Char} (h : c.isDigit = true) : 48 ≤ c.toNat ∧ c.toNat ≤ 57 := by
  simp only [Char.isDigit, Bool.and_eq_true, decide_eq_true_eq] at h
  have h1 : (48 : UInt32) ≤ c.val := h.1
  have h2 : c.val ≤ (57 : UInt32) := h.2
  rw [UInt32.le_def] at h1 h2
  exact ⟨h1, h2⟩

/-- A decimal digit is not white space. -/
theorem isSpace_of_isDigit {c : Char} (h : c.isDigit = true) : isSpace c = false := by
  have hb := isDigit_bounds h
  simp only [isSpace, Bool.or_eq_false_iff, Bool.and_eq_false_iff, decide_eq_false_iff_not]
  omega

/-- A decimal digit is neither a sign nor the dot. -/
theorem isDigit_ne_sign {c : Char} (h : c.isDigit = true) : c ≠ '-' ∧ c ≠ '+' ∧ c ≠ '.' := by
  have hb := isDigit_bounds h
  refine ⟨?_, ?_, ?_⟩ <;> intro he <;> rw [he] at hb <;> revert hb <;> decide

/-- The run of digits at the head of a numeral followed by text that does not
begin with a digit is the numeral, and the text is what follows the run. -/
theorem takeWhile_dropWhile_digits (ds rest : Str) (hd : ∀ c ∈ ds, c.isDigit = true)
    (hr : ∀ c, rest.head? = some c → c.isDigit = false) :
    (ds ++ rest).takeWhile Char.isDigit = ds ∧ (ds ++ rest).dropWhile Char.isDigit = rest := by
  induction ds with
  | nil =>
    cases rest with
    | nil => simp
    | cons c r =>
      have hc : c.isDigit = false := hr c rfl
      simp [List.takeWhile, List.dropWhile, hc]
  | cons d ds ih =>
    have hd1 : d.isDigit = true := hd d (List.mem_cons_self _ _)
    have ih1 := ih (fun c hc => hd c (List.mem_cons_of_mem _ hc))
    simp [List.takeWhile, List.dropWhile, hd1, ih1.1, ih1.2]

/-- The conversion `%d` of `sscanf` on a numeral followed by text that does not
begin with a digit reads the value of the numeral, clamped to `long`, and
leaves that text. -/
theorem scanInt_numeral (ds rest : Str) (hn : IsNumeral ds)
    (hr : ∀ c, rest.head? = some c → c.isDigit = false) :
    scanInt (ds ++ rest) = some (clampLong false (numeralValue ds), rest) := by
  obtain ⟨hne, hd⟩ := hn
  have htd := takeWhile_dropWhile_digits ds rest hd hr
  cases ds with
  | nil => exact absurd rfl hne
  | cons d ds' =>
    have hd1 : d.isDigit = true := hd d (List.mem_cons_self _ _)
    have hsp := isSpace_of_isDigit hd1
    have hsg := isDigit_ne_sign hd1
    have h1 : (d :: ds' ++ rest).dropWhile isSpace = d :: ds' ++ rest := by
      simp [List.dropWhile, hsp]
    unfold scanInt
    simp only [h1]
    have h2 : (d :: ds' ++ rest).head? = some d := rfl
    simp only [h2, Option.some.injEq, hsg.1, hsg.2.1, or_self, if_false, decide_False]
    rw [htd.1, htd.2]
    simp [numeralValue]

/-- The function `atol` on a numeral followed by text that does not begin with a
digit gives the value of the numeral, clamped to `long`. -/
theorem atol_numeral (ds rest : Str) (hn : IsNumeral ds)
    (hr : ∀ c, rest.head? = some c → c.isDigit = false) :
    atol (ds ++ rest) = clampLong false (numeralValue ds) := by
  obtain ⟨hne, hd⟩ := hn
  have htd := takeWhile_dropWhile_digits ds rest hd hr
  cases ds with
  | nil => exact absurd rfl hne
  | cons d ds' =>
    have hd1 : d.isDigit = true := hd d (List.mem_cons_self _ _)
    have hsp := isSpace_of_isDigit hd1
    have hsg := isDigit_ne_sign hd1
    have h1 : (d :: ds' ++ rest).dropWhile isSpace = d :: ds' ++ rest := by
      simp [List.dropWhile, hsp]
    unfold atol
    simp only [h1]
    have h2 : (d :: ds' ++ rest).head? = some d := rfl
    simp only [h2, Option.some.injEq, hsg.1, hsg.2.1, or_self, if_false, decide_False]
    rw [htd.1]
    rfl

/-- The text from index `n` on, when `n` is the length of what comes before. -/
theorem substringFrom_append (a b : Str) (n : Nat) (h : a.length = n) :
    substringFrom (a ++ b) n = b := by
  subst h
  unfold substringFrom substring
  simp only [List.length_append]
  have h1 : ¬ a.length > a.length + b.length := by omega
  simp only [h1, if_false]
  by_cases hb : b = []
  · subst hb; simp
  · have h2 : ¬ a.length ≥ a.length + b.length := by
      have := List.length_pos.mpr hb
      omega
    simp [h2]

/-- The text between two indices, when they delimit the middle part. -/
theorem substring_append (a b c : Str) (n m : Nat) (h : a.length = n)
    (hm : n + b.length = m) : substring (a ++ (b ++ c)) n m = b := by
  subst h; subst hm
  unfold substring
  simp only [List.length_append]
  have h1 : ¬ a.length > a.length + b.length := by omega
  simp only [h1, if_false]
  by_cases hb : a.length ≥ a.length + (b.length + c.length)
  · have : b = [] := List.length_eq_zero.mp (by omega)
    simp [hb, this]
  · simp only [hb, if_false]
    have h3 : ¬ a.length + b.length > a.length + (b.length + c.length) := by omega
    simp [h3]

/-! ## Theorems: the command validator and the version handshake -/

/-- The pin test of the validator in terms of the four configured pins. -/
theorem validPin_iff (pin : Int) :
    validPin pin = true ↔ (pin = 25 ∨ pin = 27 ∨ pin = 32 ∨ pin = 26) := by
  simp only [validPin, relayPins, List.any_cons, List.any_nil, Bool.or_false,
    Bool.or_eq_true, beq_iff_eq]
  constructor
  · rintro (h | h | h | h) <;> simp [← h]
  · rintro (h | h | h | h) <;> simp [h]

/-- The value `toInt` gives for a text of two digits. -/
theorem toInt_two_digits (d1 d2 : Char) (h1 : d1.isDigit = true) (h2 : d2.isDigit = true) :
    toInt [d1, d2] = (((d1.toNat - 48) * 10 + (d2.toNat - 48) : Nat) : Int) := by
  have hn : IsNumeral [d1, d2] := by
    refine ⟨by simp, ?_⟩
    intro c hc
    simp only [List.mem_cons, List.mem_singleton, List.not_mem_nil, or_false] at hc
    rcases hc with hc | hc <;> rw [hc] <;> assumption
  have h := atol_numeral [d1, d2] [] hn (by simp)
  simp only [List.append_nil] at h
  have b1 := isDigit_bounds h1
  have b2 := isDigit_bounds h2
  rw [toInt, h]
  have hv : numeralValue [d1, d2] = (d1.toNat - 48) * 10 + (d2.toNat - 48) := by
    show (0 * 10 + (d1.toNat - 48)) * 10 + (d2.toNat - 48) = _
    rw [Nat.zero_mul, Nat.zero_add]
  rw [hv]
  have : (d1.toNat - 48) * 10 + (d2.toNat - 48) ≤ 99 := by omega
  have h99 : (((d1.toNat - 48) * 10 + (d2.toNat - 48) : Nat) : Int) ≤ 99 := by
    exact_mod_cast this
  have hmax : (99 : Int) ≤ LONG_MAX := by decide
  unfold clampLong
  simp only [Bool.false_eq_true, if_false]
  exact min_eq_left (le_trans h99 hmax)

/-- What `validateCommand` computes on a command `SET_<two digits>_<state>`. -/
theorem validateCommand_set_eq (d1 d2 : Char) (h1 : d1.isDigit = true)
    (h2 : d2.isDigit = true) (state : Str) :
    validateCommand ("SET_".toList ++ [d1, d2] ++ '_' :: state) =
      if ¬ validPin (((d1.toNat - 48) * 10 + (d2.toNat - 48) : Nat) : Int) then
        .error ("ERROR:INVALID_PIN:".toList
          ++ intToStr (((d1.toNat - 48) * 10 + (d2.toNat - 48) : Nat) : Int))
      else if state ≠ "ON".toList ∧ state ≠ "OFF".toList then
        .error ("ERROR:INVALID_STATE:".toList ++ state)
      else .ok () := by
  have e1 : "SET_".toList ++ [d1, d2] ++ '_' :: state
      = "SET_".toList ++ ([d1, d2] ++ '_' :: state) := by simp
  have e2 : "SET_".toList ++ [d1, d2] ++ '_' :: state
      = ("SET_".toList ++ [d1, d2] ++ ['_']) ++ state := by simp
  have hsub : substring ("SET_".toList ++ [d1, d2] ++ '_' :: state) 4 6 = [d1, d2] := by
    rw [e1]
    exact substring_append _ _ _ 4 6 rfl rfl
  have hfrom : substringFrom ("SET_".toList ++ [d1, d2] ++ '_' :: state) 7 = state := by
    rw [e2]
    exact substringFrom_append _ _ 7 rfl
  have hbare : ¬ ("SET_".toList ++ [d1, d2] ++ '_' :: state = "CALIBRATE".toList
      ∨ "SET_".toList ++ [d1, d2] ++ '_' :: state = "OTA".toList
      ∨ "SET_".toList ++ [d1, d2] ++ '_' :: state = "SCAN".toList
      ∨ "SET_".toList ++ [d1, d2] ++ '_' :: state = "DISCONNECT".toList) := by
    simp
  have htog : startsWith ("SET_".toList ++ [d1, d2] ++ '_' :: state) "TOGGLE_".toList
      = false := by
    simp [startsWith, List.isPrefixOf]
  have hset : startsWith ("SET_".toList ++ [d1, d2] ++ '_' :: state) "SET_".toList
      = true := by
    simp [startsWith, List.isPrefixOf]
  unfold validateCommand
  rw [if_neg hbare]
  simp only [htog, hset, hsub, hfrom, toInt_two_digits d1 d2 h1 h2, Bool.false_eq_true,
    if_false, if_true]

/-- Claim C5. For a command `SET_<pin>_<state>` whose pin is written with two
digits, `validateCommand` succeeds if and only if the pin is one of 25, 27, 32,
26 and the state is exactly `ON` or `OFF`; with another pin it fails with
`ERROR:INVALID_PIN:` followed by the pin number, and with a configured pin and
another state it fails with `ERROR:INVALID_STATE:` followed by the state. So
`SET_25_ON` succeeds and `SET_99_ON` fails with `ERROR:INVALID_PIN:99`. -/
theorem validateCommand_set (d1 d2 : Char) (h1 : d1.isDigit = true)
    (h2 : d2.isDigit = true) (state : Str) :
    (validateCommand ("SET_".toList ++ [d1, d2] ++ '_' :: state) = .ok () ↔
      (((((d1.toNat - 48) * 10 + (d2.toNat - 48) : Nat) : Int) = 25
        ∨ (((d1.toNat - 48) * 10 + (d2.toNat - 48) : Nat) : Int) = 27
        ∨ (((d1.toNat - 48) * 10 + (d2.toNat - 48) : Nat) : Int) = 32
        ∨ (((d1.toNat - 48) * 10 + (d2.toNat - 48) : Nat) : Int) = 26)
       ∧ (state = "ON".toList ∨ state = "OFF".toList))) ∧
    (¬ ((((d1.toNat - 48) * 10 + (d2.toNat - 48) : Nat) : Int) = 25
        ∨ (((d1.toNat - 48) * 10 + (d2.toNat - 48) : Nat) : Int) = 27
        ∨ (((d1.toNat - 48) * 10 + (d2.toNat - 48) : Nat) : Int) = 32
        ∨ (((d1.toNat - 48) * 10 + (d2.toNat - 48) : Nat) : Int) = 26) →
      validateCommand ("SET_".toList ++ [d1, d2] ++ '_' :: state) =
        .error ("ERROR:INVALID_PIN:".toList
          ++ intToStr (((d1.toNat - 48) * 10 + (d2.toNat - 48) : Nat) : Int))) ∧
    (((((d1.toNat - 48) * 10 + (d2.toNat - 48) : Nat) : Int) = 25
        ∨ (((d1.toNat - 48) * 10 + (d2.toNat - 48) : Nat) : Int) = 27
        ∨ (((d1.toNat - 48) * 10 + (d2.toNat - 48) : Nat) : Int) = 32
        ∨ (((d1.toNat - 48) * 10 + (d2.toNat - 48) : Nat) : Int) = 26) →
      state ≠ "ON".toList → state ≠ "OFF".toList →
      validateCommand ("SET_".toList ++ [d1, d2] ++ '_' :: state) =
        .error ("ERROR:INVALID_STATE:".toList ++ state)) ∧
    validateCommand "SET_25_ON".toList = .ok () ∧
    validateCommand "SET_99_ON".toList = .error "ERROR:INVALID_PIN:99".toList := by
  rw [validateCommand_set_eq d1 d2 h1 h2 state, ← validPin_iff]
  generalize (((d1.toNat - 48) * 10 + (d2.toNat - 48) : Nat) : Int) = pin
  refine ⟨?_, ?_, ?_, by decide, by decide⟩
  · split_ifs with a b
    · refine ⟨fun h => ?_, fun h => ?_⟩
      · simp at h
      · rcases h with ⟨_, hon | hoff⟩
        · exact absurd hon b.1
        · exact absurd hoff b.2
    · refine ⟨fun _ => ⟨a, ?_⟩, fun _ => ?_⟩
      · by_contra hc
        exact b (not_or.mp hc)
      · trivial
    · refine ⟨fun h => ?_, fun h => absurd h.1 a⟩
      simp at h
  · intro hp
    rw [if_pos hp]
  · intro hp hon hoff
    rw [if_neg (not_not.mpr hp), if_pos ⟨hon, hoff⟩]

/-- Witness of `validateCommand_set` at `SET_27_OFF`. -/
theorem validateCommand_set_witness :
    validateCommand ("SET_".toList ++ ['2', '7'] ++ '_' :: "OFF".toList) = .ok () :=
  (validateCommand_set '2' '7' (by decide) (by decide) "OFF".toList).1.mpr
    ⟨by decide, by decide⟩

/-- Claim C6, the code on every command `SET_SAMPLING_RATE_<text>`. The command
begins with `SET_`, so the branch for `SET_<pin>_<state>` handles it: the pin
text is `SA`, its value is `0`, and the command fails with
`ERROR:INVALID_PIN:0` whatever the interval is. So `SET_SAMPLING_RATE_100`,
with an interval within 5 to 1000, is rejected, and `SET_SAMPLING_RATE_2000`
fails with a message that is not the `INVALID_SAMPLING_RATE` one. -/
theorem validateCommand_sampling_rate_rejected (t : Str) :
    validateCommand ("SET_SAMPLING_RATE_".toList ++ t)
      = .error "ERROR:INVALID_PIN:0".toList ∧
    validateCommand "SET_SAMPLING_RATE_100".toList = .error "ERROR:INVALID_PIN:0".toList ∧
    validateCommand "SET_SAMPLING_RATE_2000".toList
      ≠ .error "ERROR:INVALID_SAMPLING_RATE:Value must be between 5-1000".toList := by
  refine ⟨?_, by decide, by decide⟩
  have e1 : "SET_SAMPLING_RATE_".toList ++ t
      = "SET_".toList ++ ("SA".toList ++ ("MPLING_RATE_".toList ++ t)) := by simp
  have hsub : substring ("SET_SAMPLING_RATE_".toList ++ t) 4 6 = "SA".toList := by
    rw [e1]
    exact substring_append _ _ _ 4 6 rfl rfl
  have hbare : ¬ ("SET_SAMPLING_RATE_".toList ++ t = "CALIBRATE".toList
      ∨ "SET_SAMPLING_RATE_".toList ++ t = "OTA".toList
      ∨ "SET_SAMPLING_RATE_".toList ++ t = "SCAN".toList
      ∨ "SET_SAMPLING_RATE_".toList ++ t = "DISCONNECT".toList) := by
    simp
  have htog : startsWith ("SET_SAMPLING_RATE_".toList ++ t) "TOGGLE_".toList = false := by
    simp [startsWith, List.isPrefixOf]
  have hset : startsWith ("SET_SAMPLING_RATE_".toList ++ t) "SET_".toList = true := by
    simp [startsWith, List.isPrefixOf]
  have hpin : toInt "SA".toList = 0 := by decide
  have hvalid : validPin 0 = false := by decide
  have hzero : intToStr 0 = "0".toList := by decide
  unfold validateCommand
  rw [if_neg hbare]
  simp only [htog, hset, hsub, hpin, hvalid, hzero, Bool.false_eq_true, if_false, if_true,
    not_false_eq_true]
  rfl

/-- A text that begins with `SET_SAMPLING_RATE_` begins with `SET_`. -/
theorem startsWith_set_of_sampling_rate (command : Str)
    (h : startsWith command "SET_SAMPLING_RATE_".toList = true) :
    startsWith command "SET_".toList = true := by
  unfold startsWith at *
  rw [List.isPrefixOf_iff_prefix] at *
  exact List.IsPrefix.trans (by decide) h

/-- Two texts that differ within their first `n` characters stay different
whatever is appended to them. -/
theorem append_ne_of_take_ne (a b x y : Str) (n : Nat) (ha : n ≤ a.length) (hb : n ≤ b.length)
    (h : a.take n ≠ b.take n) : a ++ x ≠ b ++ y := by
  intro he
  have ht := congrArg (List.take n) he
  rw [List.take_append_of_le_length ha, List.take_append_of_le_length hb] at ht
  exact h ht

/-- The commands `validateCommand` answers with `ERROR:UNKNOWN_COMMAND:` followed
by the command are exactly those that are none of the four bare words and begin
with none of `TOGGLE_`, `SET_` and `SELECT_`. -/
theorem validateCommand_unknown_iff (c : Str) :
    validateCommand c = .error ("ERROR:UNKNOWN_COMMAND:".toList ++ c) ↔
      (¬ (c = "CALIBRATE".toList ∨ c = "OTA".toList ∨ c = "SCAN".toList
          ∨ c = "DISCONNECT".toList) ∧
        startsWith c "TOGGLE_".toList = false ∧
        startsWith c "SET_".toList = false ∧
        startsWith c "SELECT_".toList = false) := by
  have hpin : ∀ x : Str, "ERROR:INVALID_PIN:".toList ++ x ≠ "ERROR:UNKNOWN_COMMAND:".toList ++ c :=
    fun x => append_ne_of_take_ne _ _ x c 7 (by decide) (by decide) (by decide)
  have hstate : ∀ x : Str,
      "ERROR:INVALID_STATE:".toList ++ x ≠ "ERROR:UNKNOWN_COMMAND:".toList ++ c :=
    fun x => append_ne_of_take_ne _ _ x c 7 (by decide) (by decide) (by decide)
  have hrate : "ERROR:INVALID_SAMPLING_RATE:Value must be between 5-1000".toList
      ≠ "ERROR:UNKNOWN_COMMAND:".toList ++ c := by
    have h := append_ne_of_take_ne
      "ERROR:INVALID_SAMPLING_RATE:Value must be between 5-1000".toList
      "ERROR:UNKNOWN_COMMAND:".toList [] c 7 (by decide) (by decide) (by decide)
    rwa [List.append_nil] at h
  have hcolon : "ERROR:INVALID_WIFI_FORMAT:Missing colon separator".toList
      ≠ "ERROR:UNKNOWN_COMMAND:".toList ++ c := by
    have h := append_ne_of_take_ne
      "ERROR:INVALID_WIFI_FORMAT:Missing colon separator".toList
      "ERROR:UNKNOWN_COMMAND:".toList [] c 7 (by decide) (by decide) (by decide)
    rwa [List.append_nil] at h
  have hssid : "ERROR:INVALID_SSID:Empty SSID".toList
      ≠ "ERROR:UNKNOWN_COMMAND:".toList ++ c := by
    have h := append_ne_of_take_ne
      "ERROR:INVALID_SSID:Empty SSID".toList
      "ERROR:UNKNOWN_COMMAND:".toList [] c 7 (by decide) (by decide) (by decide)
    rwa [List.append_nil] at h
  constructor
  · intro h
    unfold validateCommand at h
    by_cases hbare : c = "CALIBRATE".toList ∨ c = "OTA".toList ∨ c = "SCAN".toList
        ∨ c = "DISCONNECT".toList
    · rw [if_pos hbare] at h
      exact absurd h (by intro h0; cases h0)
    rw [if_neg hbare] at h
    cases htog : startsWith c "TOGGLE_".toList
    · cases hset : startsWith c "SET_".toList
      · have hsr : startsWith c "SET_SAMPLING_RATE_".toList = false := by
          cases hr : startsWith c "SET_SAMPLING_RATE_".toList
          · rfl
          · rw [startsWith_set_of_sampling_rate c hr] at hset
            exact absurd hset (by decide)
        cases hsel : startsWith c "SELECT_".toList
        · exact ⟨hbare, rfl, rfl, rfl⟩
        · exfalso
          simp only [htog, hset, hsr, hsel, Bool.false_eq_true, if_false, if_true] at h
          split at h
          · exact hcolon (Except.error.inj h)
          · split_ifs at h
            exact hssid (Except.error.inj h)
      · exfalso
        simp only [htog, hset, Bool.false_eq_true, if_false, if_true] at h
        split_ifs at h
        · exact hstate _ (Except.error.inj h)
        · exact hpin _ (Except.error.inj h)
    · exfalso
      simp only [htog, if_true] at h
      split_ifs at h
      exact hpin _ (Except.error.inj h)
  · rintro ⟨hbare, htog, hset, hsel⟩
    have hrate2 : startsWith c "SET_SAMPLING_RATE_".toList = false := by
      cases hr : startsWith c "SET_SAMPLING_RATE_".toList
      · rfl
      · rw [startsWith_set_of_sampling_rate c hr] at hset
        exact absurd hset (by decide)
    unfold validateCommand
    rw [if_neg hbare]
    simp only [htog, hset, hrate2, hsel, Bool.false_eq_true, if_false]

/-- Claim C7 fails as stated: the texts `SET_`, `TOGGLE_` and `SELECT_` match no
row of the command grammar, and `validateCommand` rejects them with the error
of their keyword (`ERROR:INVALID_PIN:0` for the first two), not with
`ERROR:UNKNOWN_COMMAND:`; the texts `SET_26XON` and `TOGGLE_25abc` match no row
either and are not rejected at all: on the sample device `onWrite` switches
relay 26 on for `SET_26XON`. -/
theorem unmatched_command_not_unknown :
    matchesCommandGrammar "SET_".toList = false ∧
    validateCommand "SET_".toList = .error "ERROR:INVALID_PIN:0".toList ∧
    validateCommand "SET_".toList
      ≠ .error ("ERROR:UNKNOWN_COMMAND:".toList ++ "SET_".toList) ∧
    matchesCommandGrammar "TOGGLE_".toList = false ∧
    validateCommand "TOGGLE_".toList = .error "ERROR:INVALID_PIN:0".toList ∧
    matchesCommandGrammar "SELECT_".toList = false ∧
    validateCommand "SELECT_".toList
      = .error "ERROR:INVALID_WIFI_FORMAT:Missing colon separator".toList ∧
    matchesCommandGrammar "SET_26XON".toList = false ∧
    validateCommand "SET_26XON".toList = .ok () ∧
    (RelayControlCallback.onWrite sampleGlobals "SET_26XON".toList [] []).map
        (fun g => (g.relayStates 3, g.relayNotifications))
      = some (true, ["RELAY_UPDATE:26:ON".toList]) ∧
    sampleGlobals.relayStates 3 = false ∧
    matchesCommandGrammar "TOGGLE_25abc".toList = false ∧
    validateCommand "TOGGLE_25abc".toList = .ok () := by
  refine ⟨by decide, by decide, by decide, by decide, by decide, by decide, by decide,
    by decide, by decide, by decide, by decide, by decide, by decide⟩

/-- Claim C7, amended. A command that `validateCommand` rejects with the message
`e` makes `onWrite` do nothing but notify: the run ends (it is never refused),
its result is the state with `e` sent on the relay characteristic, and with a
relay characteristic present exactly one notification, `e`, is appended while
the relay states, the pin levels, the stored preferences, both sampling periods,
the calibration offsets and the converter state are those before the write. The
message is `ERROR:UNKNOWN_COMMAND:` followed by the command exactly for the
commands that are none of `CALIBRATE`, `OTA`, `SCAN`, `DISCONNECT` and begin with
none of `TOGGLE_`, `SET_` and `SELECT_`; a command that begins with one of the
three is judged by the checks of that keyword. -/
theorem onWrite_rejected {F : Type} [Div F] [IntCast F] (g : Globals F) (command e : Str)
    (outcomes1 outcomes2 : List (Option Int))
    (h : validateCommand command = .error e) :
    RelayControlCallback.onWrite g command outcomes1 outcomes2 = some (notifyRelay g e) ∧
    (g.pRelayCharacteristic = true →
      RelayControlCallback.onWrite g command outcomes1 outcomes2
        = some { g with relayNotifications := g.relayNotifications ++ [e] } ∧
      ∃ g1, RelayControlCallback.onWrite g command outcomes1 outcomes2 = some g1 ∧
        g1.relayStates = g.relayStates ∧
        g1.pinLevel = g.pinLevel ∧
        g1.prefs = g.prefs ∧
        g1.samplingIntervalMs = g.samplingIntervalMs ∧
        getSamplingInterval g1 = getSamplingInterval g ∧
        g1.shuntOffsetFloat = g.shuntOffsetFloat ∧
        g1.ads2OffsetFloat = g.ads2OffsetFloat ∧
        g1.adc = g.adc ∧
        g1.relayNotifications = g.relayNotifications ++ [e]) ∧
    (∀ c : Str,
      validateCommand c = .error ("ERROR:UNKNOWN_COMMAND:".toList ++ c) ↔
        (¬ (c = "CALIBRATE".toList ∨ c = "OTA".toList ∨ c = "SCAN".toList
            ∨ c = "DISCONNECT".toList) ∧
          startsWith c "TOGGLE_".toList = false ∧
          startsWith c "SET_".toList = false ∧
          startsWith c "SELECT_".toList = false)) := by
  have hrun : RelayControlCallback.onWrite g command outcomes1 outcomes2
      = some (notifyRelay g e) := by
    unfold RelayControlCallback.onWrite
    rw [h]
  refine ⟨hrun, fun hp => ?_, validateCommand_unknown_iff⟩
  have hn : notifyRelay g e = { g with relayNotifications := g.relayNotifications ++ [e] } := by
    simp [notifyRelay, hp]
  rw [hrun, hn]
  exact ⟨rfl, _, rfl, rfl, rfl, rfl, rfl, rfl, rfl, rfl, rfl, rfl⟩

/-- Witness of `onWrite_rejected`: the command `SET_99_ON` written to the
sample device is answered by one notification and nothing else changes, the
command `FOO` is unknown, and the command `SET_` is not answered as unknown. -/
theorem onWrite_rejected_witness :
    validateCommand "SET_99_ON".toList = .error "ERROR:INVALID_PIN:99".toList ∧
    RelayControlCallback.onWrite sampleGlobals "SET_99_ON".toList [] []
      = some { sampleGlobals with relayNotifications := ["ERROR:INVALID_PIN:99".toList] } ∧
    validateCommand "FOO".toList = .error ("ERROR:UNKNOWN_COMMAND:".toList ++ "FOO".toList) ∧
    validateCommand "SET_".toList ≠ .error ("ERROR:UNKNOWN_COMMAND:".toList ++ "SET_".toList) :=
  ⟨by decide,
   ((onWrite_rejected sampleGlobals "SET_99_ON".toList "ERROR:INVALID_PIN:99".toList [] []
      (by decide)).2.1 rfl).1,
   ((onWrite_rejected sampleGlobals "SET_99_ON".toList "ERROR:INVALID_PIN:99".toList [] []
      (by decide)).2.2 "FOO".toList).mpr ⟨by decide, by decide, by decide, by decide⟩,
   fun hu => absurd
     (((onWrite_rejected sampleGlobals "SET_99_ON".toList "ERROR:INVALID_PIN:99".toList [] []
      (by decide)).2.2 "SET_".toList).mp hu).2.2.1 (by decide)⟩

/-- The values `sscanf` reads from a version text made of three numerals
separated by dots. -/
theorem sscanfVersion_numerals (ds1 ds2 ds3 : Str) (h1 : IsNumeral ds1) (h2 : IsNumeral ds2)
    (h3 : IsNumeral ds3) :
    sscanfVersion (ds1 ++ '.' :: (ds2 ++ '.' :: ds3)) =
      (clampLong false (numeralValue ds1), clampLong false (numeralValue ds2),
       clampLong false (numeralValue ds3)) := by
  have hdot : ∀ r : Str, ∀ c, ('.' :: r).head? = some c → c.isDigit = false := by
    intro r c hc
    simp only [List.head?_cons, Option.some.injEq] at hc
    rw [← hc]
    decide
  have e3 : scanInt ds3 = some (clampLong false (numeralValue ds3), []) := by
    have := scanInt_numeral ds3 [] h3 (by simp)
    simpa using this
  unfold sscanfVersion
  rw [scanInt_numeral ds1 _ h1 (hdot _)]
  simp only [scanLit, if_true]
  rw [scanInt_numeral ds2 _ h2 (hdot _)]
  simp only [scanLit, if_true]
  rw [e3]

/-- Clamping to `long` does not change whether a number is `1`, nor whether it
exceeds `2`. -/
theorem clampLong_compare (v : Nat) :
    (clampLong false v = 1 ↔ v = 1) ∧ (clampLong false v > 2 ↔ v > 2) := by
  unfold clampLong LONG_MAX
  simp only [Bool.false_eq_true, if_false]
  constructor
  · constructor
    · intro h
      have : ((v : Int) = 1) := by
        rcases min_choice (v : Int) (2 ^ 31 - 1) with hm | hm
        · rw [hm] at h; exact h
        · rw [hm] at h; norm_num at h
      exact_mod_cast this
    · intro h
      subst h
      norm_num
  · constructor
    · intro h
      have : (2 : Int) < v := lt_of_lt_of_le h (min_le_left _ _)
      exact_mod_cast this
    · intro h
      have hv : (2 : Int) < v := by exact_mod_cast h
      exact lt_min hv (by norm_num)

/-- Claim C8. For a client version text `<major>.<minor>.<patch>` of three
decimal numerals, `checkProtocolVersionCompatibility` (server major 1, minor 2)
succeeds if and only if the major number is 1 and the minor number is at most
2; it fails with `ERROR:INCOMPATIBLE_VERSION:Major version mismatch` when the
major number is not 1, and with
`ERROR:INCOMPATIBLE_VERSION:Client using newer minor version` when the major
number is 1 and the minor number exceeds 2. So `1.0.0` succeeds, and `2.0.0`
and `1.5.0` fail, the first on the major and the second on the minor number. -/
theorem checkProtocolVersionCompatibility_numerals (major minor patch : Str)
    (h1 : IsNumeral major) (h2 : IsNumeral minor) (h3 : IsNumeral patch) :
    (checkProtocolVersionCompatibility (major ++ '.' :: (minor ++ '.' :: patch)) = .ok () ↔
      numeralValue major = 1 ∧ numeralValue minor ≤ 2) ∧
    (numeralValue major ≠ 1 →
      checkProtocolVersionCompatibility (major ++ '.' :: (minor ++ '.' :: patch))
        = .error "ERROR:INCOMPATIBLE_VERSION:Major version mismatch".toList) ∧
    (numeralValue major = 1 → numeralValue minor > 2 →
      checkProtocolVersionCompatibility (major ++ '.' :: (minor ++ '.' :: patch))
        = .error "ERROR:INCOMPATIBLE_VERSION:Client using newer minor version".toList) ∧
    checkProtocolVersionCompatibility "1.0.0".toList = .ok () ∧
    checkProtocolVersionCompatibility "2.0.0".toList
      = .error "ERROR:INCOMPATIBLE_VERSION:Major version mismatch".toList ∧
    checkProtocolVersionCompatibility "1.5.0".toList
      = .error "ERROR:INCOMPATIBLE_VERSION:Client using newer minor version".toList := by
  have hc1 := clampLong_compare (numeralValue major)
  have hc2 := clampLong_compare (numeralValue minor)
  have hrun : checkProtocolVersionCompatibility (major ++ '.' :: (minor ++ '.' :: patch)) =
      if clampLong false (numeralValue major) ≠ 1 then
        .error "ERROR:INCOMPATIBLE_VERSION:Major version mismatch".toList
      else if clampLong false (numeralValue minor) > 2 then
        .error "ERROR:INCOMPATIBLE_VERSION:Client using newer minor version".toList
      else .ok () := by
    unfold checkProtocolVersionCompatibility
    rw [sscanfVersion_numerals major minor patch h1 h2 h3]
    rfl
  rw [hrun]
  refine ⟨?_, ?_, ?_, by decide, by decide, by decide⟩
  · split_ifs with a b
    · refine ⟨fun h => ?_, fun h => ?_⟩
      · simp at h
      · exact absurd (hc1.1.mpr h.1) a
    · refine ⟨fun h => ?_, fun h => ?_⟩
      · simp at h
      · have := hc2.2.mp b
        omega
    · refine ⟨fun _ => ⟨hc1.1.mp (not_not.mp a), ?_⟩, fun _ => ?_⟩
      · by_contra hc
        exact b (hc2.2.mpr (by omega))
      · trivial
  · intro hm
    rw [if_pos (fun hc => hm (hc1.1.mp hc))]
  · intro hm hn
    rw [if_neg (not_not.mpr (hc1.1.mpr hm)), if_pos (hc2.2.mpr hn)]

/-- Witness of `checkProtocolVersionCompatibility_numerals` at `1.2.7`. -/
theorem checkProtocolVersionCompatibility_witness :
    checkProtocolVersionCompatibility ("1".toList ++ '.' :: ("2".toList ++ '.' :: "7".toList))
      = .ok () :=
  (checkProtocolVersionCompatibility_numerals "1".toList "2".toList "7".toList
    ⟨by decide, by decide⟩ ⟨by decide, by decide⟩ ⟨by decide, by decide⟩).1.mpr
    ⟨by decide, by decide⟩

/-! ## Theorems: the subscription table -/

/-- What a result of `findSubscription` says about the slot found. -/
theorem findSubscription_some {st : McpState} {clientId : Nat} {uri : Str} {i : Nat}
    (h : findSubscription st clientId uri = some i) :
    i < st.subscriptionCount ∧ (st.subscriptions i).clientId = clientId ∧
    (st.subscriptions i).active = true ∧ (st.subscriptions i).uri = uri := by
  unfold findSubscription at h
  rw [List.find?_range_eq_some] at h
  obtain ⟨hp, hmem, _⟩ := h
  simp only [Bool.and_eq_true, beq_iff_eq] at hp
  exact ⟨List.mem_range.mp hmem, hp.1.1, hp.1.2, hp.2⟩

/-- What the result `-1` of `findSubscription` says about the slots in use. -/
theorem findSubscription_none {st : McpState} {clientId : Nat} {uri : Str}
    (h : findSubscription st clientId uri = none) (i : Nat) (hi : i < st.subscriptionCount)
    (hc : (st.subscriptions i).clientId = clientId) (ha : (st.subscriptions i).active = true) :
    (st.subscriptions i).uri ≠ uri := by
  unfold findSubscription at h
  rw [List.find?_range_eq_none] at h
  have := h i hi
  intro hu
  simp [hc, ha, hu] at this

/-- An active subscription of the client for the uri among the slots in use is
found by `findSubscription`. -/
theorem findSubscription_isSome_of_active {st : McpState} {clientId : Nat} {uri : Str}
    {i : Nat} (hi : i < st.subscriptionCount) (hc : (st.subscriptions i).clientId = clientId)
    (ha : (st.subscriptions i).active = true) (hu : (st.subscriptions i).uri = uri) :
    ∃ j, findSubscription st clientId uri = some j := by
  cases hf : findSubscription st clientId uri with
  | some j => exact ⟨j, rfl⟩
  | none => exact absurd hu (findSubscription_none hf i hi hc ha)

/-- The three outcomes of `addSubscription` for a pair that is not subscribed:
an inactive slot in use is overwritten, or the next slot is taken, or the table
is full and nothing changes. -/
theorem addSubscription_cases (st : McpState) (clientId : Nat) (uri : Str) (now : Nat)
    (h : findSubscription st clientId uri = none) :
    (∃ k, k < st.subscriptionCount ∧ (st.subscriptions k).active = false ∧
      addSubscription st clientId uri now =
        { st with subscriptions :=
            Function.update st.subscriptions k (newSubscription clientId uri now) }) ∨
    (st.subscriptionCount < MAX_SUBSCRIPTIONS ∧
      (∀ i, i < st.subscriptionCount → (st.subscriptions i).active = true) ∧
      addSubscription st clientId uri now =
        { st with
          subscriptions := Function.update st.subscriptions st.subscriptionCount
            (newSubscription clientId uri now),
          subscriptionCount := st.subscriptionCount + 1 }) ∨
    (¬ st.subscriptionCount < MAX_SUBSCRIPTIONS ∧
      (∀ i, i < st.subscriptionCount → (st.subscriptions i).active = true) ∧
      addSubscription st clientId uri now = st) := by
  unfold addSubscription
  rw [h]
  cases hs : (List.range st.subscriptionCount).find? (fun i => !(st.subscriptions i).active) with
  | some k =>
    left
    rw [List.find?_range_eq_some] at hs
    refine ⟨k, List.mem_range.mp hs.2.1, ?_, rfl⟩
    simpa using hs.1
  | none =>
    rw [List.find?_range_eq_none] at hs
    have hall : ∀ i, i < st.subscriptionCount → (st.subscriptions i).active = true := by
      intro i hi
      simpa using hs i hi
    by_cases hc : st.subscriptionCount < MAX_SUBSCRIPTIONS
    · right; left
      exact ⟨hc, hall, by simp [hc]⟩
    · right; right
      exact ⟨hc, hall, by simp [hc]⟩

/-- The function `addSubscription` keeps the subscriptions free of duplicates. -/
theorem NoDuplicateSubscriptions.add {st : McpState} (hinv : NoDuplicateSubscriptions st)
    (clientId : Nat) (uri : Str) (now : Nat) :
    NoDuplicateSubscriptions (addSubscription st clientId uri now) := by
  cases hf : findSubscription st clientId uri with
  | some i =>
    have : addSubscription st clientId uri now = st := by
      unfold addSubscription; rw [hf]
    rw [this]; exact hinv
  | none =>
    have hnone := fun i hi hc ha => findSubscription_none hf i hi hc ha
    rcases addSubscription_cases st clientId uri now hf with
      ⟨k, hk, _, he⟩ | ⟨_, _, he⟩ | ⟨_, _, he⟩
    · rw [he]
      intro i j hi hj hai haj hcl hur
      simp only at hi hj hai haj hcl hur
      by_cases hik : i = k <;> by_cases hjk : j = k
      · rw [hik, hjk]
      · exfalso
        rw [hik] at hcl hur
        simp only [Function.update_same, Function.update_noteq hjk, newSubscription] at hcl hur haj
        exact hnone j hj hcl.symm haj hur.symm
      · exfalso
        rw [hjk] at hcl hur
        simp only [Function.update_same, Function.update_noteq hik, newSubscription] at hcl hur hai
        exact hnone i hi hcl hai hur
      · simp only [Function.update_noteq hik, Function.update_noteq hjk] at hcl hur hai haj
        exact hinv i j hi hj hai haj hcl hur
    · rw [he]
      intro i j hi hj hai haj hcl hur
      simp only at hi hj hai haj hcl hur
      by_cases hik : i = st.subscriptionCount <;> by_cases hjk : j = st.subscriptionCount
      · rw [hik, hjk]
      · exfalso
        rw [hik] at hcl hur
        simp only [Function.update_same, Function.update_noteq hjk, newSubscription] at hcl hur haj
        exact hnone j (by omega) hcl.symm haj hur.symm
      · exfalso
        rw [hjk] at hcl hur
        simp only [Function.update_same, Function.update_noteq hik, newSubscription] at hcl hur hai
        exact hnone i (by omega) hcl hai hur
      · simp only [Function.update_noteq hik, Function.update_noteq hjk] at hcl hur hai haj
        exact hinv i j (by omega) (by omega) hai haj hcl hur
    · rw [he]; exact hinv

/-- A change of the table that keeps the counter and the client id and uri of
every slot, and activates no slot, keeps the subscriptions free of duplicates. -/
theorem NoDuplicateSubscriptions.of_shrink {st st1 : McpState}
    (hinv : NoDuplicateSubscriptions st)
    (hcount : st1.subscriptionCount = st.subscriptionCount)
    (hslot : ∀ k, (st1.subscriptions k).clientId = (st.subscriptions k).clientId ∧
      (st1.subscriptions k).uri = (st.subscriptions k).uri ∧
      ((st1.subscriptions k).active = true → (st.subscriptions k).active = true)) :
    NoDuplicateSubscriptions st1 := by
  intro i j hi hj hai haj hcl hur
  rw [hcount] at hi hj
  rw [(hslot i).1, (hslot j).1] at hcl
  rw [(hslot i).2.1, (hslot j).2.1] at hur
  exact hinv i j hi hj ((hslot i).2.2 hai) ((hslot j).2.2 haj) hcl hur

/-- The function `removeSubscription` keeps the subscriptions free of
duplicates. -/
theorem NoDuplicateSubscriptions.remove {st : McpState} (hinv : NoDuplicateSubscriptions st)
    (clientId : Nat) (uri : Str) :
    NoDuplicateSubscriptions (removeSubscription st clientId uri) := by
  unfold removeSubscription
  cases hf : findSubscription st clientId uri with
  | none => exact hinv
  | some index =>
    refine NoDuplicateSubscriptions.of_shrink hinv rfl (fun k => ?_)
    by_cases hk : k = index
    · subst hk
      simp
    · simp [Function.update_noteq hk]

/-- The loop of `removeAllSubscriptions` keeps the counter and the client id and
uri of every slot, and activates no slot. -/
theorem removeAllSubscriptions_loop (clientId : Nat) (l : List Nat) (st : McpState) :
    (l.foldl (removeAllSubscriptionsAt clientId) st).subscriptionCount
      = st.subscriptionCount ∧
    ∀ k, ((l.foldl (removeAllSubscriptionsAt clientId) st).subscriptions k).clientId
        = (st.subscriptions k).clientId ∧
      ((l.foldl (removeAllSubscriptionsAt clientId) st).subscriptions k).uri
        = (st.subscriptions k).uri ∧
      (((l.foldl (removeAllSubscriptionsAt clientId) st).subscriptions k).active = true →
        (st.subscriptions k).active = true) := by
  induction l generalizing st with
  | nil => simp
  | cons i rest ih =>
    simp only [List.foldl_cons]
    obtain ⟨h1, h2⟩ := ih (removeAllSubscriptionsAt clientId st i)
    by_cases hc : (st.subscriptions i).clientId = clientId
    · simp only [removeAllSubscriptionsAt, if_pos hc] at h1 h2 ⊢
      refine ⟨h1, fun k => ?_⟩
      obtain ⟨a, b, c⟩ := h2 k
      by_cases hk : k = i
      · subst hk
        simp only [Function.update_same] at a b c
        exact ⟨a, b, fun h => absurd (c h) (by simp)⟩
      · simp only [Function.update_noteq hk] at a b c
        exact ⟨a, b, c⟩
    · simp only [removeAllSubscriptionsAt, if_neg hc] at h1 h2 ⊢
      exact ⟨h1, h2⟩

/-- The function `removeAllSubscriptions` keeps the subscriptions free of
duplicates. -/
theorem NoDuplicateSubscriptions.removeAll {st : McpState}
    (hinv : NoDuplicateSubscriptions st) (clientId : Nat) :
    NoDuplicateSubscriptions (removeAllSubscriptions st clientId) := by
  have h := removeAllSubscriptions_loop clientId (List.range st.subscriptionCount) st
  exact NoDuplicateSubscriptions.of_shrink hinv h.1 h.2

/-- The body of the loop of `checkSubscriptions` in terms of what a poll makes
of one subscription and of the notification it sends. -/
theorem checkSubscriptionAt_eq (resources : List Resource) (st : McpState) (i : Nat) :
    checkSubscriptionAt resources st i =
      { st with
        subscriptions := Function.update st.subscriptions i
          (polledSubscription resources (st.subscriptions i)),
        sent := st.sent ++ (changeNotification resources (st.subscriptions i)).toList } := by
  unfold checkSubscriptionAt polledSubscription changeNotification
  by_cases ha : (st.subscriptions i).active = false
  · simp only [if_pos ha, Option.toList, List.append_nil, Function.update_eq_self]
  · simp only [if_neg ha]
    cases hr : resources.find? (fun r => r.uri == (st.subscriptions i).uri) with
    | none => simp only [Option.toList, List.append_nil, Function.update_eq_self]
    | some r =>
      by_cases hv : r.value = (st.subscriptions i).lastValue
      · have hs : ({ st.subscriptions i with lastValue := r.value } : Subscription)
            = st.subscriptions i := by rw [hv]
        simp only [if_neg (not_not.mpr hv), hs, Option.toList, List.append_nil,
          Function.update_eq_self]
      · simp only [if_pos hv, Option.toList, Function.update_same]

/-- The loop of `checkSubscriptions` over a list of distinct indices: each slot
of the list is polled once, the notifications are sent in the order of the
list, and nothing else changes. -/
theorem checkSubscriptions_loop (resources : List Resource) (l : List Nat) (hl : l.Nodup)
    (st : McpState) :
    l.foldl (checkSubscriptionAt resources) st =
      { st with
        subscriptions := fun k =>
          if k ∈ l then polledSubscription resources (st.subscriptions k)
          else st.subscriptions k,
        sent := st.sent
          ++ l.filterMap (fun i => changeNotification resources (st.subscriptions i)) } := by
  induction l generalizing st with
  | nil => simp
  | cons i rest ih =>
    have hi : i ∉ rest := (List.nodup_cons.mp hl).1
    simp only [List.foldl_cons]
    rw [ih (List.nodup_cons.mp hl).2, checkSubscriptionAt_eq]
    have hsubs : (fun k => if k ∈ rest then
          polledSubscription resources
            (Function.update st.subscriptions i
              (polledSubscription resources (st.subscriptions i)) k)
          else Function.update st.subscriptions i
              (polledSubscription resources (st.subscriptions i)) k)
        = (fun k => if k ∈ i :: rest then polledSubscription resources (st.subscriptions k)
          else st.subscriptions k) := by
      funext k
      by_cases hk : k = i
      · subst hk
        simp [hi]
      · simp [hk, Function.update_noteq hk]
    have hsent : rest.filterMap (fun j => changeNotification resources
          (Function.update st.subscriptions i
            (polledSubscription resources (st.subscriptions i)) j))
        = rest.filterMap (fun j => changeNotification resources (st.subscriptions j)) := by
      apply List.filterMap_congr
      intro j hj
      have hji : j ≠ i := fun h => hi (h ▸ hj)
      simp [Function.update_noteq hji]
    simp only [hsubs, hsent]
    cases hn : changeNotification resources (st.subscriptions i) <;>
      simp [List.filterMap_cons, hn]

/-- A poll that passes the 200 ms throttle: every slot in use is polled once,
in index order. -/
theorem checkSubscriptions_eq (resources : List Resource) (st : McpState) (now : Nat)
    (h : 200 ≤ ulongSub now st.lastCheck) :
    checkSubscriptions resources st now =
      { subscriptions := fun k =>
          if k < st.subscriptionCount then polledSubscription resources (st.subscriptions k)
          else st.subscriptions k,
        subscriptionCount := st.subscriptionCount,
        lastCheck := now,
        sent := st.sent ++ (List.range st.subscriptionCount).filterMap
          (fun i => changeNotification resources (st.subscriptions i)) } := by
  unfold checkSubscriptions
  rw [if_neg (by omega)]
  simp only
  rw [checkSubscriptions_loop resources _ (List.nodup_range _)]
  simp [List.mem_range]

/-- A poll keeps the client id, the uri and the active flag of a subscription. -/
theorem polledSubscription_frame (resources : List Resource) (s : Subscription) :
    (polledSubscription resources s).clientId = s.clientId ∧
    (polledSubscription resources s).uri = s.uri ∧
    (polledSubscription resources s).active = s.active := by
  unfold polledSubscription
  split
  · exact ⟨rfl, rfl, rfl⟩
  · split <;> exact ⟨rfl, rfl, rfl⟩

/-- The function `checkSubscriptions` keeps the subscriptions free of
duplicates. -/
theorem NoDuplicateSubscriptions.check {st : McpState} (hinv : NoDuplicateSubscriptions st)
    (resources : List Resource) (now : Nat) :
    NoDuplicateSubscriptions (checkSubscriptions resources st now) := by
  by_cases h : 200 ≤ ulongSub now st.lastCheck
  · rw [checkSubscriptions_eq resources st now h]
    refine NoDuplicateSubscriptions.of_shrink hinv rfl (fun k => ?_)
    have hf := polledSubscription_frame resources (st.subscriptions k)
    by_cases hk : k < st.subscriptionCount
    · simp only [hk, if_true]
      exact ⟨hf.1, hf.2.1, fun ha => by rw [← hf.2.2]; exact ha⟩
    · simp [hk]
  · have : checkSubscriptions resources st now = st := by
      unfold checkSubscriptions
      rw [if_pos (by omega)]
    rw [this]
    exact hinv

/-- In every reachable state the subscriptions are free of duplicates. -/
theorem McpReachable.noDuplicates {st : McpState} (h : McpReachable st) :
    NoDuplicateSubscriptions st := by
  induction h with
  | init =>
    intro i j hi _ _ _ _ _
    exact absurd hi (by simp [initialMcpState])
  | add clientId uri now _ ih => exact ih.add clientId uri now
  | remove clientId uri _ ih => exact ih.remove clientId uri
  | removeAll clientId _ ih => exact ih.removeAll clientId
  | check resources now _ ih => exact ih.check resources now

/-- Among the outputs of a partial function on a list, those that pass a test
are the outputs at one element, when the outputs at all other elements fail
the test. -/
theorem filter_filterMap_eq_of_unique {α β : Type} (f : α → Option β) (p : β → Bool) (k : α)
    (l : List α) (hl : l.Nodup) (hk : k ∈ l)
    (hother : ∀ i ∈ l, i ≠ k → ∀ x, f i = some x → p x = false) :
    (l.filterMap f).filter p = (f k).toList.filter p := by
  have hnil : ∀ l1 : List α, (∀ i ∈ l1, ∀ x, f i = some x → p x = false) →
      (l1.filterMap f).filter p = [] := by
    intro l1 h1
    rw [List.filter_eq_nil_iff]
    intro x hx
    obtain ⟨a, ha, hfa⟩ := List.mem_filterMap.mp hx
    simp [h1 a ha x hfa]
  induction l with
  | nil => cases hk
  | cons a rest ih =>
    have ha : a ∉ rest := (List.nodup_cons.mp hl).1
    have hsplit : (a :: rest).filterMap f = (f a).toList ++ rest.filterMap f := by
      cases hfa : f a <;> simp [List.filterMap_cons, hfa]
    rw [hsplit, List.filter_append]
    by_cases hak : a = k
    · subst hak
      have hrest : (rest.filterMap f).filter p = [] := by
        apply hnil
        intro i hi x hx
        exact hother i (List.mem_cons_of_mem _ hi) (fun h => ha (h ▸ hi)) x hx
      rw [hrest, List.append_nil]
    · have hkr : k ∈ rest := by
        rcases List.mem_cons.mp hk with h | h
        · exact absurd h.symm hak
        · exact h
      have hhead : (f a).toList.filter p = [] := by
        cases hfa : f a with
        | none => rfl
        | some x =>
          have := hother a (List.mem_cons_self _ _) hak x hfa
          simp [this]
      rw [hhead, List.nil_append]
      exact ih (List.nodup_cons.mp hl).2 hkr
        (fun i hi => hother i (List.mem_cons_of_mem _ hi))


/-- A notification sent for a subscription carries its client id and its uri,
and is sent only for an active subscription. -/
theorem changeNotification_some {resources : List Resource} {s : Subscription}
    {x : Notification} (h : changeNotification resources s = some x) :
    s.active = true ∧ x.clientId = s.clientId ∧ x.uri = s.uri := by
  unfold changeNotification at h
  by_cases ha : s.active = false
  · rw [if_pos ha] at h
    cases h
  · rw [if_neg ha] at h
    cases hr : resources.find? (fun r => r.uri == s.uri) with
    | none => rw [hr] at h; cases h
    | some r =>
      rw [hr] at h
      simp only at h
      by_cases hv : r.value ≠ s.lastValue
      · rw [if_pos hv] at h
        cases h
        exact ⟨by simpa using ha, rfl, rfl⟩
      · rw [if_neg hv] at h
        cases h

/-- One poll that passes the throttle, seen from one active subscription whose
uri is registered: among the notifications the poll sends, the ones for this
subscription are a single change notification with the current value when that
value differs from the last sent value, and none otherwise; the last sent value
becomes the current value and the rest of the subscription is unchanged. -/
theorem checkSubscriptions_slot {st : McpState} (hinv : NoDuplicateSubscriptions st)
    (resources : List Resource) (now k : Nat) (r : Resource)
    (hthr : 200 ≤ ulongSub now st.lastCheck) (hk : k < st.subscriptionCount)
    (ha : (st.subscriptions k).active = true)
    (hr : resources.find? (fun x => x.uri == (st.subscriptions k).uri) = some r) :
    notificationsTo (st.subscriptions k).clientId (st.subscriptions k).uri
        ((checkSubscriptions resources st now).sent.drop st.sent.length)
      = (if r.value ≠ (st.subscriptions k).lastValue then
          [{ clientId := (st.subscriptions k).clientId, uri := (st.subscriptions k).uri,
             data := r.value }]
         else []) ∧
    (checkSubscriptions resources st now).subscriptions k
      = { st.subscriptions k with lastValue := r.value } ∧
    (checkSubscriptions resources st now).subscriptionCount = st.subscriptionCount ∧
    (checkSubscriptions resources st now).lastCheck = now ∧
    (checkSubscriptions resources st now).sent.take st.sent.length = st.sent := by
  rw [checkSubscriptions_eq resources st now hthr]
  simp only [List.drop_left, List.take_left, hk, if_true]
  refine ⟨?_, ?_, trivial, trivial, trivial⟩
  · unfold notificationsTo
    rw [filter_filterMap_eq_of_unique
      (fun i => changeNotification resources (st.subscriptions i)) _ k
      (List.range st.subscriptionCount) (List.nodup_range _) (List.mem_range.mpr hk)]
    · simp only [changeNotification, ha, Bool.true_eq_false, if_false, hr]
      by_cases hv : r.value = (st.subscriptions k).lastValue
      · simp [hv]
      · simp [hv]
    · intro i hi hik x hx
      obtain ⟨hai, hci, hui⟩ := changeNotification_some hx
      cases hp : (x.clientId == (st.subscriptions k).clientId && x.uri == (st.subscriptions k).uri)
      · rfl
      · exfalso
        simp only [Bool.and_eq_true, beq_iff_eq] at hp
        exact hik (hinv i k (List.mem_range.mp hi) hk hai ha
          (by rw [← hci]; exact hp.1) (by rw [← hui]; exact hp.2))
  · simp only [polledSubscription, ha, Bool.true_eq_false, if_false, hr]

/-- A new subscription found in the table right after `addSubscription` is the
slot that call has filled. -/
theorem addSubscription_fresh (st : McpState) (clientId : Nat) (uri : Str) (now k : Nat)
    (h0 : findSubscription st clientId uri = none)
    (h1 : findSubscription (addSubscription st clientId uri now) clientId uri = some k) :
    (addSubscription st clientId uri now).subscriptions k = newSubscription clientId uri now ∧
    k < (addSubscription st clientId uri now).subscriptionCount ∧
    (addSubscription st clientId uri now).lastCheck = st.lastCheck := by
  obtain ⟨hk, hc, ha, hu⟩ := findSubscription_some h1
  have hnone := fun i hi hc ha => findSubscription_none h0 i hi hc ha
  rcases addSubscription_cases st clientId uri now h0 with
    ⟨j, hj, _, he⟩ | ⟨_, _, he⟩ | ⟨_, _, he⟩
  · rw [he] at hk hc ha hu ⊢
    simp only at hk hc ha hu ⊢
    by_cases hkj : k = j
    · subst hkj
      exact ⟨Function.update_same _ _ _, hk, trivial⟩
    · simp only [Function.update_noteq hkj] at hc ha hu
      exact absurd hu (hnone k hk hc ha)
  · rw [he] at hk hc ha hu ⊢
    simp only at hk hc ha hu ⊢
    by_cases hkj : k = st.subscriptionCount
    · subst hkj
      exact ⟨Function.update_same _ _ _, hk, trivial⟩
    · simp only [Function.update_noteq hkj] at hc ha hu
      exact absurd hu (hnone k (by omega) hc ha)
  · rw [he] at h1
    rw [h0] at h1
    cases h1

/-- Claim C9. First part: for a reachable table and a poll of
`checkSubscriptions` that passes its 200 ms throttle, every active subscription
in use whose uri is registered gets a change notification in that poll if and
only if the current value of the resource differs from the last sent value of
the subscription (then exactly one, carrying the current value), and its last
sent value is the current value afterwards. Second part: after a new
subscription of client `c` to `u` has been created by `addSubscription`, three
successive polls that pass the throttle and find the values `v`, `v`, `w` for
`u`, with `v ≠ w` and `v` not the empty text (the initial last sent value; no
registered accessor returns the empty text), send client `c` for `u` exactly
one notification with `v` in the first poll, none in the second, and exactly
one with `w` in the third. -/
theorem subscription_poll_notifies_on_change :
    (∀ (st : McpState) (resources : List Resource) (now k : Nat) (r : Resource),
      McpReachable st →
      200 ≤ ulongSub now st.lastCheck →
      k < st.subscriptionCount →
      (st.subscriptions k).active = true →
      resources.find? (fun x => x.uri == (st.subscriptions k).uri) = some r →
      (notificationsTo (st.subscriptions k).clientId (st.subscriptions k).uri
          ((checkSubscriptions resources st now).sent.drop st.sent.length)
        = (if r.value ≠ (st.subscriptions k).lastValue then
            [{ clientId := (st.subscriptions k).clientId, uri := (st.subscriptions k).uri,
               data := r.value }]
           else [])) ∧
      ((checkSubscriptions resources st now).subscriptions k).lastValue = r.value ∧
      (checkSubscriptions resources st now).sent.take st.sent.length = st.sent) ∧
    (∀ (st0 st1 st2 st3 st4 : McpState) (c : Nat) (u : Str) (t0 k : Nat)
      (res1 res2 res3 : List Resource) (now1 now2 now3 : Nat) (r1 r2 r3 : Resource)
      (v w : Str),
      McpReachable st0 →
      findSubscription st0 c u = none →
      st1 = addSubscription st0 c u t0 →
      findSubscription st1 c u = some k →
      st2 = checkSubscriptions res1 st1 now1 →
      st3 = checkSubscriptions res2 st2 now2 →
      st4 = checkSubscriptions res3 st3 now3 →
      200 ≤ ulongSub now1 st0.lastCheck →
      200 ≤ ulongSub now2 now1 →
      200 ≤ ulongSub now3 now2 →
      res1.find? (fun x => x.uri == u) = some r1 → r1.value = v →
      res2.find? (fun x => x.uri == u) = some r2 → r2.value = v →
      res3.find? (fun x => x.uri == u) = some r3 → r3.value = w →
      v ≠ w → v ≠ [] →
      notificationsTo c u (st2.sent.drop st1.sent.length)
        = [{ clientId := c, uri := u, data := v }] ∧
      notificationsTo c u (st3.sent.drop st2.sent.length) = [] ∧
      notificationsTo c u (st4.sent.drop st3.sent.length)
        = [{ clientId := c, uri := u, data := w }]) := by
  constructor
  · intro st resources now k r hreach hthr hk ha hr
    have h := checkSubscriptions_slot hreach.noDuplicates resources now k r hthr hk ha hr
    refine ⟨h.1, ?_, h.2.2.2.2⟩
    rw [h.2.1]
  · intro st0 st1 st2 st3 st4 c u t0 k res1 res2 res3 now1 now2 now3 r1 r2 r3 v w
      hreach h0 e1 hfind e2 e3 e4 ht1 ht2 ht3 hr1 hv1 hr2 hv2 hr3 hv3 hvw hv
    have hreach1 : McpReachable st1 := e1 ▸ McpReachable.add c u t0 hreach
    have hreach2 : McpReachable st2 := e2 ▸ McpReachable.check res1 now1 hreach1
    have hreach3 : McpReachable st3 := e3 ▸ McpReachable.check res2 now2 hreach2
    rw [e1] at hfind
    obtain ⟨hslot, hk, hlc⟩ := addSubscription_fresh st0 c u t0 k h0 hfind
    rw [← e1] at hslot hk hlc
    -- the first poll
    have hu1 : (st1.subscriptions k).uri = u := by rw [hslot]; rfl
    have hc1 : (st1.subscriptions k).clientId = c := by rw [hslot]; rfl
    have ha1 : (st1.subscriptions k).active = true := by rw [hslot]; rfl
    have hl1 : (st1.subscriptions k).lastValue = [] := by rw [hslot]; rfl
    have p1 := checkSubscriptions_slot hreach1.noDuplicates res1 now1 k r1
      (by rw [hlc]; exact ht1) hk ha1 (by rw [hu1]; exact hr1)
    rw [← e2, hu1, hc1, hl1, hv1] at p1
    -- the second poll
    have hs2 : st2.subscriptions k = { st1.subscriptions k with lastValue := v } := p1.2.1
    have hu2 : (st2.subscriptions k).uri = u := by rw [hs2]; exact hu1
    have hc2 : (st2.subscriptions k).clientId = c := by rw [hs2]; exact hc1
    have ha2 : (st2.subscriptions k).active = true := by rw [hs2]; exact ha1
    have hl2 : (st2.subscriptions k).lastValue = v := by rw [hs2]
    have hk2 : k < st2.subscriptionCount := by rw [p1.2.2.1]; exact hk
    have p2 := checkSubscriptions_slot hreach2.noDuplicates res2 now2 k r2
      (by rw [p1.2.2.2.1]; exact ht2) hk2 ha2 (by rw [hu2]; exact hr2)
    rw [← e3, hu2, hc2, hl2, hv2] at p2
    -- the third poll
    have hs3 : st3.subscriptions k = { st2.subscriptions k with lastValue := v } := p2.2.1
    have hu3 : (st3.subscriptions k).uri = u := by rw [hs3]; exact hu2
    have hc3 : (st3.subscriptions k).clientId = c := by rw [hs3]; exact hc2
    have ha3 : (st3.subscriptions k).active = true := by rw [hs3]; exact ha2
    have hl3 : (st3.subscriptions k).lastValue = v := by rw [hs3]
    have hk3 : k < st3.subscriptionCount := by rw [p2.2.2.1]; exact hk2
    have p3 := checkSubscriptions_slot hreach3.noDuplicates res3 now3 k r3
      (by rw [p2.2.2.2.1]; exact ht3) hk3 ha3 (by rw [hu3]; exact hr3)
    rw [← e4, hu3, hc3, hl3, hv3] at p3
    refine ⟨?_, ?_, ?_⟩
    · rw [p1.1, if_pos hv]
    · rw [p2.1, if_neg (not_not.mpr rfl)]
    · rw [p3.1, if_pos (Ne.symm hvw)]

/-- Witness of `subscription_poll_notifies_on_change`: client 3 subscribes to
`relay.0`, and three polls find the values `on`, `on`, `off`; after the first
poll the last sent value of the subscription is `on`. -/
theorem subscription_poll_witness :
    ((checkSubscriptions (sampleResources "on".toList) sampleSubscribed 1200).subscriptions
        0).lastValue = "on".toList ∧
    notificationsTo 3 "relay.0".toList
        ((checkSubscriptions (sampleResources "on".toList) sampleSubscribed 1200).sent.drop
          sampleSubscribed.sent.length)
      = [{ clientId := 3, uri := "relay.0".toList, data := "on".toList }] ∧
    notificationsTo 3 "relay.0".toList
        ((checkSubscriptions (sampleResources "on".toList)
            (checkSubscriptions (sampleResources "on".toList) sampleSubscribed 1200) 1400).sent.drop
          (checkSubscriptions (sampleResources "on".toList) sampleSubscribed 1200).sent.length)
      = [] ∧
    notificationsTo 3 "relay.0".toList
        ((checkSubscriptions (sampleResources "off".toList)
            (checkSubscriptions (sampleResources "on".toList)
              (checkSubscriptions (sampleResources "on".toList) sampleSubscribed 1200) 1400)
            1600).sent.drop
          (checkSubscriptions (sampleResources "on".toList)
            (checkSubscriptions (sampleResources "on".toList) sampleSubscribed 1200)
            1400).sent.length)
      = [{ clientId := 3, uri := "relay.0".toList, data := "off".toList }] :=
  ⟨(subscription_poll_notifies_on_change.1 sampleSubscribed (sampleResources "on".toList)
      1200 0 { uri := "relay.0".toList, type := "boolean".toList, value := "on".toList }
      (McpReachable.add 3 "relay.0".toList 1000 McpReachable.init)
      (by decide) (by decide) (by decide) (by decide)).2.1,
   subscription_poll_notifies_on_change.2 initialMcpState sampleSubscribed _ _ _
    3 "relay.0".toList 1000 0
    (sampleResources "on".toList) (sampleResources "on".toList) (sampleResources "off".toList)
    1200 1400 1600
    { uri := "relay.0".toList, type := "boolean".toList, value := "on".toList }
    { uri := "relay.0".toList, type := "boolean".toList, value := "on".toList }
    { uri := "relay.0".toList, type := "boolean".toList, value := "off".toList }
    "on".toList "off".toList
    McpReachable.init (by decide) rfl (by decide) rfl rfl rfl
    (by decide) (by decide) (by decide)
    (by decide) rfl (by decide) rfl (by decide) rfl (by decide) (by decide)⟩

/-- Claim C10. Subscribing is idempotent: when an active subscription of client
`c` to `u` exists among the slots in use, `addSubscription` for `c` and `u`
leaves the whole state of the table unchanged (every slot with its last sent
value, and `subscriptionCount`). And in every reachable state no two active
subscriptions in use have the same client id and the same uri. -/
theorem addSubscription_idempotent :
    (∀ (st : McpState) (c : Nat) (u : Str) (now i : Nat),
      i < st.subscriptionCount →
      (st.subscriptions i).active = true →
      (st.subscriptions i).clientId = c →
      (st.subscriptions i).uri = u →
      addSubscription st c u now = st) ∧
    (∀ st : McpState, McpReachable st →
      ∀ i j, i < st.subscriptionCount → j < st.subscriptionCount →
        (st.subscriptions i).active = true → (st.subscriptions j).active = true →
        (st.subscriptions i).clientId = (st.subscriptions j).clientId →
        (st.subscriptions i).uri = (st.subscriptions j).uri → i = j) := by
  constructor
  · intro st c u now i hi ha hc hu
    obtain ⟨j, hj⟩ := findSubscription_isSome_of_active hi hc ha hu
    unfold addSubscription
    rw [hj]
  · intro st hreach
    exact hreach.noDuplicates

/-- Witness of `addSubscription_idempotent`: client 3 subscribes to `relay.0` a
second time. -/
theorem addSubscription_idempotent_witness :
    addSubscription sampleSubscribed 3 "relay.0".toList 2000 = sampleSubscribed :=
  addSubscription_idempotent.1 sampleSubscribed 3 "relay.0".toList 2000 0
    (by decide) (by decide) (by decide) (by decide)

/-! ## Theorems: the bounded subscription pool -/

/-- The slot `addSubscription` fills when the pair is new and an inactive slot is
in use: the inactive slot of lowest index. -/
theorem addSubscription_reuse (st : McpState) (clientId : Nat) (uri : Str) (now k : Nat)
    (h : findSubscription st clientId uri = none) (hk : k < st.subscriptionCount)
    (hinactive : (st.subscriptions k).active = false)
    (hlow : ∀ j, j < k → (st.subscriptions j).active = true) :
    addSubscription st clientId uri now =
      { st with subscriptions :=
          Function.update st.subscriptions k (newSubscription clientId uri now) } := by
  have hfind : (List.range st.subscriptionCount).find? (fun i => !(st.subscriptions i).active)
      = some k := by
    rw [List.find?_range_eq_some]
    refine ⟨by simp [hinactive], List.mem_range.mpr hk, fun j hj => ?_⟩
    simp [hlow j hj]
  unfold addSubscription
  rw [h]
  simp only [hfind]

/-- The counter after `addSubscription`: it never decreases, grows by at most
one, and stays within the pool size. -/
theorem addSubscription_count (st : McpState) (clientId : Nat) (uri : Str) (now : Nat) :
    st.subscriptionCount ≤ (addSubscription st clientId uri now).subscriptionCount ∧
    (st.subscriptionCount ≤ MAX_SUBSCRIPTIONS →
      (addSubscription st clientId uri now).subscriptionCount ≤ MAX_SUBSCRIPTIONS) ∧
    ((addSubscription st clientId uri now).subscriptionCount ≠ st.subscriptionCount →
      ∀ i, i < st.subscriptionCount → (st.subscriptions i).active = true) := by
  cases hf : findSubscription st clientId uri with
  | some i =>
    have : addSubscription st clientId uri now = st := by
      unfold addSubscription; rw [hf]
    rw [this]
    exact ⟨le_refl _, id, fun hne => absurd rfl hne⟩
  | none =>
    rcases addSubscription_cases st clientId uri now hf with
      ⟨k, _, _, he⟩ | ⟨hlt, hall, he⟩ | ⟨_, _, he⟩
    · rw [he]
      exact ⟨le_refl _, id, fun hne => absurd rfl hne⟩
    · rw [he]
      exact ⟨Nat.le_succ _, fun _ => hlt, fun _ => hall⟩
    · rw [he]
      exact ⟨le_refl _, id, fun hne => absurd rfl hne⟩

/-- The function `removeSubscription` keeps the counter. -/
theorem removeSubscription_count (st : McpState) (clientId : Nat) (uri : Str) :
    (removeSubscription st clientId uri).subscriptionCount = st.subscriptionCount := by
  unfold removeSubscription
  cases findSubscription st clientId uri <;> rfl

/-- The function `removeAllSubscriptions` keeps the counter. -/
theorem removeAllSubscriptions_count (st : McpState) (clientId : Nat) :
    (removeAllSubscriptions st clientId).subscriptionCount = st.subscriptionCount :=
  (removeAllSubscriptions_loop clientId (List.range st.subscriptionCount) st).1

/-- The function `checkSubscriptions` keeps the counter. -/
theorem checkSubscriptions_count (resources : List Resource) (st : McpState) (now : Nat) :
    (checkSubscriptions resources st now).subscriptionCount = st.subscriptionCount := by
  by_cases h : 200 ≤ ulongSub now st.lastCheck
  · rw [checkSubscriptions_eq resources st now h]
  · unfold checkSubscriptions
    rw [if_pos (by omega)]

/-- In every reachable state the counter is at most the pool size. -/
theorem McpReachable.count_le {st : McpState} (h : McpReachable st) :
    st.subscriptionCount ≤ MAX_SUBSCRIPTIONS := by
  induction h with
  | init => exact Nat.zero_le _
  | add clientId uri now _ ih => exact (addSubscription_count _ clientId uri now).2.1 ih
  | remove clientId uri _ ih => rw [removeSubscription_count]; exact ih
  | removeAll clientId _ ih => rw [removeAllSubscriptions_count]; exact ih
  | check resources now _ ih => rw [checkSubscriptions_count]; exact ih

/-- Claim C20. In every reachable state of the subscription table
`subscriptionCount` is at most 5; none of `addSubscription`,
`removeSubscription`, `removeAllSubscriptions` and `checkSubscriptions` decreases
it; `addSubscription` of a pair that is not subscribed changes it only when
every slot in use is active; and when a slot in use is inactive, it overwrites
the inactive slot of lowest index and leaves the counter and every other slot
unchanged. -/
theorem subscription_pool_bounded :
    (∀ st : McpState, McpReachable st → 0 ≤ st.subscriptionCount ∧ st.subscriptionCount ≤ 5) ∧
    (∀ (st : McpState) (c : Nat) (u : Str) (now : Nat),
      st.subscriptionCount ≤ (addSubscription st c u now).subscriptionCount) ∧
    (∀ (st : McpState) (c : Nat) (u : Str),
      (removeSubscription st c u).subscriptionCount = st.subscriptionCount) ∧
    (∀ (st : McpState) (c : Nat),
      (removeAllSubscriptions st c).subscriptionCount = st.subscriptionCount) ∧
    (∀ (st : McpState) (resources : List Resource) (now : Nat),
      (checkSubscriptions resources st now).subscriptionCount = st.subscriptionCount) ∧
    (∀ (st : McpState) (c : Nat) (u : Str) (now : Nat),
      findSubscription st c u = none →
      ((addSubscription st c u now).subscriptionCount ≠ st.subscriptionCount →
        (addSubscription st c u now).subscriptionCount = st.subscriptionCount + 1 ∧
        ∀ i, i < st.subscriptionCount → (st.subscriptions i).active = true) ∧
      (∀ k, k < st.subscriptionCount → (st.subscriptions k).active = false →
        (∀ j, j < k → (st.subscriptions j).active = true) →
        (addSubscription st c u now).subscriptionCount = st.subscriptionCount ∧
        (addSubscription st c u now).subscriptions k = newSubscription c u now ∧
        ∀ i, i ≠ k →
          (addSubscription st c u now).subscriptions i = st.subscriptions i)) := by
  refine ⟨fun st h => ⟨Nat.zero_le _, h.count_le⟩,
    fun st c u now => (addSubscription_count st c u now).1,
    removeSubscription_count, removeAllSubscriptions_count,
    fun st resources now => checkSubscriptions_count resources st now, ?_⟩
  intro st c u now hnew
  constructor
  · intro hne
    refine ⟨?_, (addSubscription_count st c u now).2.2 hne⟩
    rcases addSubscription_cases st c u now hnew with
      ⟨k, _, _, he⟩ | ⟨_, _, he⟩ | ⟨_, _, he⟩
    · rw [he] at hne; exact absurd rfl hne
    · rw [he]
    · rw [he] at hne; exact absurd rfl hne
  · intro k hk hinactive hlow
    rw [addSubscription_reuse st c u now k hnew hk hinactive hlow]
    exact ⟨rfl, Function.update_same _ _ _, fun i hi => Function.update_noteq hi _ _⟩

/-- Witness of `subscription_pool_bounded`: after client 3 has left, the slot of
its subscription is reused for client 4 and the counter stays 1. -/
theorem subscription_pool_bounded_witness :
    sampleSubscribed.subscriptionCount ≤ 5 ∧
    (addSubscription (removeAllSubscriptions sampleSubscribed 3) 4 "relay.1".toList
        3000).subscriptionCount
      = (removeAllSubscriptions sampleSubscribed 3).subscriptionCount ∧
    (addSubscription (removeAllSubscriptions sampleSubscribed 3) 4 "relay.1".toList
        3000).subscriptions 0
      = newSubscription 4 "relay.1".toList 3000 :=
  ⟨(subscription_pool_bounded.1 sampleSubscribed
      (McpReachable.add 3 "relay.0".toList 1000 McpReachable.init)).2,
   ((subscription_pool_bounded.2.2.2.2.2 (removeAllSubscriptions sampleSubscribed 3) 4
      "relay.1".toList 3000 (by decide)).2 0 (by decide) (by decide)
      (fun j hj => absurd hj (Nat.not_lt_zero j))).1,
   ((subscription_pool_bounded.2.2.2.2.2 (removeAllSubscriptions sampleSubscribed 3) 4
      "relay.1".toList 3000 (by decide)).2 0 (by decide) (by decide)
      (fun j hj => absurd hj (Nat.not_lt_zero j))).2.1⟩

/-! ## Theorems: the sampling-period tool and the relay mutations -/

/-- Claim C12, the code on every interval. The tool
`config.set_sampling_interval` with the interval `n` reports success exactly
when `10 ≤ n ≤ 10000`, but the period that `getSamplingInterval` returns
becomes `n` only when `10 ≤ n ≤ 1000`, because `setSamplingInterval` stores
nothing above 1000. So the interval 5000 gives `success = true` with the message
`Sampling interval set to 5000ms` while the period stays 17. -/
theorem setSamplingIntervalTool_period {F : Type} (g : Globals F) (n : Nat) :
    (setSamplingIntervalTool g (intervalParams n)).2.success
      = decide (10 ≤ n ∧ n ≤ 10000) ∧
    getSamplingInterval (setSamplingIntervalTool g (intervalParams n)).1
      = (if 10 ≤ n ∧ n ≤ 1000 then n else getSamplingInterval g) ∧
    (setSamplingIntervalTool sampleGlobals (intervalParams 5000)).2
      = { success := true, message := "Sampling interval set to 5000ms".toList } ∧
    getSamplingInterval (setSamplingIntervalTool sampleGlobals (intervalParams 5000)).1 = 17 ∧
    getSamplingInterval sampleGlobals = 17 := by
  refine ⟨?_, ?_, by decide, by decide, by decide⟩
  · by_cases h : 10 ≤ n ∧ n ≤ 10000
    · simp [setSamplingIntervalTool, intervalParams, noToolParams, h]
    · simp [setSamplingIntervalTool, intervalParams, noToolParams, h]
  · by_cases h : 10 ≤ n ∧ n ≤ 10000
    · by_cases h2 : n ≤ 1000
      · have h3 : n ≥ 5 ∧ n ≤ 1000 := ⟨by omega, h2⟩
        have h4 : 10 ≤ n ∧ n ≤ 1000 := ⟨h.1, h2⟩
        rw [if_pos h4]
        simp [setSamplingIntervalTool, intervalParams, noToolParams, h, setSamplingInterval,
          getSamplingInterval, h3]
      · have h3 : ¬ (n ≥ 5 ∧ n ≤ 1000) := fun hc => h2 hc.2
        have h4 : ¬ (10 ≤ n ∧ n ≤ 1000) := fun hc => h2 hc.2
        rw [if_neg h4]
        simp [setSamplingIntervalTool, intervalParams, noToolParams, h, setSamplingInterval,
          getSamplingInterval, h3]
    · have h4 : ¬ (10 ≤ n ∧ n ≤ 1000) := fun hc => h ⟨hc.1, by omega⟩
      rw [if_neg h4]
      simp [setSamplingIntervalTool, intervalParams, noToolParams, h, getSamplingInterval]

/-- Claim C13, the code on the RPC tool. The tool `relay.set` never writes the
key-value store: on the sample device, `relay.set` with index 0 and state `true`
sets `relayStates[0]`, drives pin 25 high and reports success, and the key
`relay0` is still absent. The radio command `SET_25_ON` on the same device
stores `true` under `relay0`. -/
theorem setRelayTool_does_not_persist {F : Type} (g : Globals F) (params : ToolParams) :
    (setRelayTool g params).1.prefs = g.prefs ∧
    (setRelayTool sampleGlobals (relayParams 0 true)).2.success = true ∧
    (setRelayTool sampleGlobals (relayParams 0 true)).1.relayStates 0 = true ∧
    (setRelayTool sampleGlobals (relayParams 0 true)).1.pinLevel 25 = true ∧
    (setRelayTool sampleGlobals (relayParams 0 true)).1.prefs "relay0".toList = none ∧
    (RelayControlCallback.onWrite sampleGlobals "SET_25_ON".toList [] []).map
        (fun g1 => (g1.relayStates 0, g1.pinLevel 25, g1.prefs "relay0".toList))
      = some (true, true, some (PrefValue.bool true)) := by
  refine ⟨?_, by decide, by decide, by decide, by decide, by decide⟩
  simp only [setRelayTool, setRelay]
  split_ifs <;> simp [blinkRelayFeedback, digitalWrite]

/-- Claim C14, the code on the two relay commands. On the sample device
`TOGGLE_25` emits the two notifications `LOG:Relay 25 toggled to ON` and
`RELAY_UPDATE:25:ON`, in this order, while `SET_25_ON` and `SET_25_OFF` emit only
the one notification `RELAY_UPDATE:25:ON`, respectively `RELAY_UPDATE:25:OFF`,
and no line that begins with `LOG:`. -/
theorem set_command_emits_one_notification :
    (RelayControlCallback.onWrite sampleGlobals "TOGGLE_25".toList [] []).map
        (fun g1 => g1.relayNotifications)
      = some ["LOG:Relay 25 toggled to ON".toList, "RELAY_UPDATE:25:ON".toList] ∧
    (RelayControlCallback.onWrite sampleGlobals "SET_25_ON".toList [] []).map
        (fun g1 => g1.relayNotifications)
      = some ["RELAY_UPDATE:25:ON".toList] ∧
    (RelayControlCallback.onWrite sampleGlobals "SET_25_OFF".toList [] []).map
        (fun g1 => g1.relayNotifications)
      = some ["RELAY_UPDATE:25:OFF".toList] ∧
    (RelayControlCallback.onWrite sampleGlobals "SET_25_ON".toList [] []).map
        (fun g1 => g1.relayStates 0)
      = some true := by
  refine ⟨by decide, by decide, by decide, by decide⟩

/-! ## Theorems: the network-join command -/

/-- The index of the first colon of a text whose part before it has none. -/
theorem indexOf_colon_append (ssid rest : Str) (h : ':' ∉ ssid) :
    indexOf (ssid ++ ':' :: rest) ':' = some ssid.length := by
  induction ssid with
  | nil => simp [indexOf]
  | cons c cs ih =>
    have hc : c ≠ ':' := fun e => h (e ▸ List.mem_cons_self _ _)
    have hcs : ':' ∉ cs := fun e => h (List.mem_cons_of_mem _ e)
    simp [indexOf, hc, ih hcs]

/-- A text without a colon has no index of a colon. -/
theorem indexOf_colon_none (payload : Str) (h : ':' ∉ payload) :
    indexOf payload ':' = none := by
  induction payload with
  | nil => rfl
  | cons c cs ih =>
    have hc : c ≠ ':' := fun e => h (e ▸ List.mem_cons_self _ _)
    have hcs : ':' ∉ cs := fun e => h (List.mem_cons_of_mem _ e)
    simp [indexOf, hc, ih hcs]

/-- What `validateCommand` computes on a command `SELECT_<payload>`. -/
theorem validateCommand_select_eq (payload : Str) :
    validateCommand ("SELECT_".toList ++ payload) =
      match indexOf payload ':' with
      | none => .error "ERROR:INVALID_WIFI_FORMAT:Missing colon separator".toList
      | some colonIndex =>
        if (substring payload 0 colonIndex).length = 0 then
          .error "ERROR:INVALID_SSID:Empty SSID".toList
        else .ok () := by
  have hfrom : substringFrom ("SELECT_".toList ++ payload) 7 = payload :=
    substringFrom_append _ _ 7 rfl
  have hbare : ¬ ("SELECT_".toList ++ payload = "CALIBRATE".toList
      ∨ "SELECT_".toList ++ payload = "OTA".toList
      ∨ "SELECT_".toList ++ payload = "SCAN".toList
      ∨ "SELECT_".toList ++ payload = "DISCONNECT".toList) := by
    simp
  have htog : startsWith ("SELECT_".toList ++ payload) "TOGGLE_".toList = false := by
    simp [startsWith, List.isPrefixOf]
  have hset : startsWith ("SELECT_".toList ++ payload) "SET_".toList = false := by
    simp [startsWith, List.isPrefixOf]
  have hrate : startsWith ("SELECT_".toList ++ payload) "SET_SAMPLING_RATE_".toList
      = false := by
    simp [startsWith, List.isPrefixOf]
  have hsel : startsWith ("SELECT_".toList ++ payload) "SELECT_".toList = true := by
    simp [startsWith, List.isPrefixOf]
  unfold validateCommand
  rw [if_neg hbare]
  simp only [htog, hset, hrate, hsel, hfrom, Bool.false_eq_true, if_false, if_true]

/-- What `WifiControlCallback::onWrite` does on a command `SELECT_<payload>`
that passes validation. -/
theorem WifiControlCallback.onWrite_select_eq {F : Type} (g : Globals F) (w : WifiState)
    (payload : Str) (env : WifiEnv)
    (hv : validateCommand ("SELECT_".toList ++ payload) = .ok ()) :
    WifiControlCallback.onWrite g w ("SELECT_".toList ++ payload) env =
      match indexOf payload ':' with
      | some colonIndex =>
        connectToWifi g w (substring payload 0 colonIndex)
          (substringFrom payload (colonIndex + 1)) env
      | none => (g, w) := by
  have hfrom : substringFrom ("SELECT_".toList ++ payload) 7 = payload :=
    substringFrom_append _ _ 7 rfl
  have hscan : ¬ ("SELECT_".toList ++ payload = "SCAN".toList) := by simp
  have hsel : startsWith ("SELECT_".toList ++ payload) "SELECT_".toList = true := by
    simp [startsWith, List.isPrefixOf]
  unfold WifiControlCallback.onWrite
  rw [hv]
  simp only [if_neg hscan, hsel, hfrom, if_true]

/-- Claim C19. For every non-empty ssid without a colon and every password, the
command `SELECT_<ssid>:<password>` passes `validateCommand`, and
`WifiControlCallback::onWrite` does exactly what `connectToWifi` does with that
ssid and that password: one call `WiFi.begin(ssid, password)`, followed only by
the start of the update service when the join succeeds. A `SELECT_` payload
without a colon is rejected with
`ERROR:INVALID_WIFI_FORMAT:Missing colon separator` and a payload that begins
with a colon is rejected with `ERROR:INVALID_SSID:Empty SSID`; in both cases the
callback only notifies the message: no call is made to the WiFi driver and the
key-value store is unchanged. -/
theorem select_command_joins {F : Type} (g : Globals F) (w : WifiState) (env : WifiEnv)
    (ssid password : Str) (hne : ssid ≠ []) (hcolon : ':' ∉ ssid) :
    validateCommand ("SELECT_".toList ++ (ssid ++ ':' :: password)) = .ok () ∧
    WifiControlCallback.onWrite g w ("SELECT_".toList ++ (ssid ++ ':' :: password)) env
      = connectToWifi g w ssid password env ∧
    (connectToWifi g w ssid password env).2.wifiCalls
      = w.wifiCalls ++ WifiCall.begin ssid password ::
          (if env.connected then [WifiCall.otaBegin] else []) ∧
    (∀ payload : Str, ':' ∉ payload →
      validateCommand ("SELECT_".toList ++ payload)
        = .error "ERROR:INVALID_WIFI_FORMAT:Missing colon separator".toList ∧
      WifiControlCallback.onWrite g w ("SELECT_".toList ++ payload) env
        = (g, notifyWifi w "ERROR:INVALID_WIFI_FORMAT:Missing colon separator".toList) ∧
      (WifiControlCallback.onWrite g w ("SELECT_".toList ++ payload) env).2.wifiCalls
        = w.wifiCalls) ∧
    (∀ rest : Str,
      validateCommand ("SELECT_".toList ++ (':' :: rest))
        = .error "ERROR:INVALID_SSID:Empty SSID".toList ∧
      WifiControlCallback.onWrite g w ("SELECT_".toList ++ (':' :: rest)) env
        = (g, notifyWifi w "ERROR:INVALID_SSID:Empty SSID".toList) ∧
      (WifiControlCallback.onWrite g w ("SELECT_".toList ++ (':' :: rest)) env).2.wifiCalls
        = w.wifiCalls) := by
  have hidx := indexOf_colon_append ssid password hcolon
  have hsub : substring (ssid ++ ':' :: password) 0 ssid.length = ssid := by
    have := substring_append [] ssid (':' :: password) 0 ssid.length rfl (by simp)
    simpa using this
  have hpw : substringFrom (ssid ++ ':' :: password) (ssid.length + 1) = password := by
    have := substringFrom_append (ssid ++ [':']) password (ssid.length + 1) (by simp)
    simpa using this
  have hlen : ssid.length ≠ 0 := fun h => hne (List.length_eq_zero.mp h)
  have hvalid : validateCommand ("SELECT_".toList ++ (ssid ++ ':' :: password)) = .ok () := by
    rw [validateCommand_select_eq, hidx]
    simp only [hsub, if_neg hlen]
  have hcalls : ∀ (msg : Str), (notifyWifi w msg).wifiCalls = w.wifiCalls := by
    intro msg
    unfold notifyWifi
    split <;> rfl
  refine ⟨hvalid, ?_, ?_, ?_, ?_⟩
  · rw [WifiControlCallback.onWrite_select_eq g w _ env hvalid, hidx]
    simp only [hsub, hpw]
  · unfold connectToWifi notifyWifi
    cases env.connected <;> cases w.pWifiCharacteristic <;> simp
  · intro payload hp
    have hv : validateCommand ("SELECT_".toList ++ payload)
        = .error "ERROR:INVALID_WIFI_FORMAT:Missing colon separator".toList := by
      rw [validateCommand_select_eq, indexOf_colon_none payload hp]
    have hrun : WifiControlCallback.onWrite g w ("SELECT_".toList ++ payload) env
        = (g, notifyWifi w "ERROR:INVALID_WIFI_FORMAT:Missing colon separator".toList) := by
      unfold WifiControlCallback.onWrite
      rw [hv]
    exact ⟨hv, hrun, by rw [hrun]; exact hcalls _⟩
  · intro rest
    have hv : validateCommand ("SELECT_".toList ++ (':' :: rest))
        = .error "ERROR:INVALID_SSID:Empty SSID".toList := by
      rw [validateCommand_select_eq]
      simp [indexOf, substring]
    have hrun : WifiControlCallback.onWrite g w ("SELECT_".toList ++ (':' :: rest)) env
        = (g, notifyWifi w "ERROR:INVALID_SSID:Empty SSID".toList) := by
      unfold WifiControlCallback.onWrite
      rw [hv]
    exact ⟨hv, hrun, by rw [hrun]; exact hcalls _⟩

/-- Witness of `select_command_joins`: the command `SELECT_My Net:pa:ss` joins
the network `My Net` with the password `pa:ss`. -/
theorem select_command_joins_witness :
    validateCommand ("SELECT_".toList ++ ("My Net".toList ++ ':' :: "pa:ss".toList)) = .ok () ∧
    WifiControlCallback.onWrite sampleGlobals sampleWifi
        ("SELECT_".toList ++ ("My Net".toList ++ ':' :: "pa:ss".toList)) sampleWifiEnv
      = connectToWifi sampleGlobals sampleWifi "My Net".toList "pa:ss".toList sampleWifiEnv ∧
    (WifiControlCallback.onWrite sampleGlobals sampleWifi ("SELECT_".toList ++ "MyNet".toList)
        sampleWifiEnv).2.wifiCalls = sampleWifi.wifiCalls :=
  ⟨(select_command_joins sampleGlobals sampleWifi sampleWifiEnv "My Net".toList "pa:ss".toList
      (by decide) (by decide)).1,
   (select_command_joins sampleGlobals sampleWifi sampleWifiEnv "My Net".toList "pa:ss".toList
      (by decide) (by decide)).2.1,
   ((select_command_joins sampleGlobals sampleWifi sampleWifiEnv "My Net".toList "pa:ss".toList
      (by decide) (by decide)).2.2.2.1 "MyNet".toList (by decide)).2.2⟩

/-! ## Theorems: calibration -/

/-- Reduction to `int32_t` leaves a number of that range unchanged. -/
theorem wrapInt32_eq (x : Int) (h1 : -2147483648 ≤ x) (h2 : x ≤ 2147483647) :
    wrapInt32 x = x := by
  unfold wrapInt32
  have e1 : (2 : Int) ^ 31 = 2147483648 := by norm_num
  have e2 : (2 : Int) ^ 32 = 4294967296 := by norm_num
  rw [e1, e2]
  have : (x + 2147483648) % 4294967296 = x + 2147483648 :=
    Int.emod_eq_of_lt (by omega) (by omega)
  rw [this]
  omega

/-- The sum of readings lies between the smallest and the largest reading times
their number. -/
theorem sum_int16_bounds (rs : List Int) (h : ∀ r ∈ rs, IsInt16 r) :
    -32768 * (rs.length : Int) ≤ rs.sum ∧ rs.sum ≤ 32767 * (rs.length : Int) := by
  induction rs with
  | nil => simp
  | cons r rest ih =>
    have hr := h r (List.mem_cons_self _ _)
    have ih1 := ih (fun x hx => h x (List.mem_cons_of_mem _ hx))
    unfold IsInt16 at hr
    simp only [List.sum_cons, List.length_cons, Nat.cast_add, Nat.cast_one]
    constructor <;> omega

/-- The sampling loop of `calibrateADC` ends as soon as the outcomes hold enough
successful readings, and then returns the start value plus the exact sum of
the first `n` successful readings, provided the accumulator has room for them. -/
theorem calibrationLoop_sum (op : BusOp) (outcomes : List (Option Int)) :
    ∀ (n : Nat) (sum : Int) (log : List BusOp),
      n ≤ (outcomes.filterMap id).length →
      (∀ r ∈ (outcomes.filterMap id).take n, IsInt16 r) →
      -2147483648 + 32768 * (n : Int) ≤ sum → sum + 32768 * (n : Int) ≤ 2147483647 →
      (calibrationLoop op n sum log outcomes).map Prod.fst
        = some (sum + ((outcomes.filterMap id).take n).sum) := by
  induction outcomes with
  | nil =>
    intro n sum log hn _ _ _
    have : n = 0 := by simpa using hn
    subst this
    simp [calibrationLoop]
  | cons o rest ih =>
    intro n sum log hn hr hlo hhi
    cases n with
    | zero => simp [calibrationLoop]
    | succ k =>
      cases o with
      | none =>
        have hfm : (none :: rest).filterMap id = rest.filterMap id := rfl
        rw [hfm] at hn hr ⊢
        show (calibrationLoop op (k + 1) sum (log ++ [op]) rest).map Prod.fst = _
        exact ih (k + 1) sum (log ++ [op]) hn hr hlo hhi
      | some r =>
        have hfm : (some r :: rest).filterMap id = r :: rest.filterMap id := rfl
        rw [hfm] at hn hr ⊢
        simp only [List.take_succ_cons, List.sum_cons, List.length_cons] at hn hr ⊢
        have hr0 : IsInt16 r := hr r (List.mem_cons_self _ _)
        unfold IsInt16 at hr0
        push_cast at hlo hhi
        have hw : wrapInt32 (sum + r) = sum + r := wrapInt32_eq _ (by omega) (by omega)
        show (calibrationLoop op k (wrapInt32 (sum + r)) (log ++ [op]) rest).map Prod.fst = _
        rw [hw, ih k (sum + r) (log ++ [op]) (by omega)
          (fun x hx => hr x (List.mem_cons_of_mem _ hx)) (by omega) (by omega)]
        rw [Int.add_assoc]

/-- The sampling loop of `calibrateADC` on outcomes that hold 16 readings:
the result exists and its sum is the exact sum of the readings. -/
theorem calibrationLoop_sixteen (op : BusOp) (outcomes : List (Option Int)) (log : List BusOp)
    (readings : List Int) (hlen : readings.length = 16)
    (htake : (outcomes.filterMap id).take 16 = readings) (hr : ∀ r ∈ readings, IsInt16 r) :
    ∃ log1, calibrationLoop op 16 0 log outcomes = some (readings.sum, log1) := by
  have hn : 16 ≤ (outcomes.filterMap id).length := by
    by_contra hc
    have h1 : ((outcomes.filterMap id).take 16).length = (outcomes.filterMap id).length := by
      rw [List.length_take]; omega
    rw [htake, hlen] at h1
    omega
  have h := calibrationLoop_sum op outcomes 16 0 log hn (by rw [htake]; exact hr)
    (by norm_num) (by norm_num)
  rw [htake, Int.zero_add] at h
  cases hc : calibrationLoop op 16 0 log outcomes with
  | none => rw [hc] at h; cases h
  | some p =>
    rw [hc] at h
    simp only [Option.map_some', Option.some.injEq] at h
    exact ⟨p.2, by rw [← h]⟩

/-- The exact sum of 16 readings and its sixteenth are `float` values. -/
theorem sum_sixteen_isBinary32 (readings : List Int) (hlen : readings.length = 16)
    (hr : ∀ r ∈ readings, IsInt16 r) :
    IsBinary32 ((readings.sum : Int) : ℚ) ∧ IsBinary32 (((readings.sum : Int) : ℚ) / 16) := by
  have hb := sum_int16_bounds readings hr
  rw [hlen] at hb
  have habs : (readings.sum).natAbs < 2 ^ 24 := by
    have : (readings.sum).natAbs ≤ 524288 := by omega
    have e : (2 : Nat) ^ 24 = 16777216 := by norm_num
    omega
  constructor
  · exact ⟨readings.sum, 0, habs, by norm_num, by norm_num, by simp⟩
  · refine ⟨readings.sum, -4, habs, by norm_num, by norm_num, ?_⟩
    have : (2 : ℚ) ^ (-4 : Int) = 1 / 16 := by norm_num
    rw [this]
    ring

/-- Claim C17. When the outcomes of the bus reads hold 16 successful `int16_t`
readings for each available channel (failed reads in between are taken again),
`calibrateADC` returns, and the offset of each available channel becomes the
`float` quotient of the exact sum of its first 16 readings by 16; the offset of
an unavailable channel is unchanged. For 16 such readings every partial sum
fits the 32-bit accumulator, and the sum, the divisor 16 and the exact quotient
sum / 16 are all `float` values, so the conversion and the division round
nothing. The readings 0, 1, …, 15 give the offset 7.5. -/
theorem calibrateADC_offsets {F : Type} [Div F] [IntCast F] (g : Globals F)
    (outcomes1 outcomes2 : List (Option Int)) (readings1 readings2 : List Int)
    (h1 : g.adc.ads1_available = true →
      readings1.length = 16 ∧ (outcomes1.filterMap id).take 16 = readings1 ∧
      ∀ r ∈ readings1, IsInt16 r)
    (h2 : g.adc.ads2_available = true →
      readings2.length = 16 ∧ (outcomes2.filterMap id).take 16 = readings2 ∧
      ∀ r ∈ readings2, IsInt16 r) :
    (∃ g1, calibrateADC g outcomes1 outcomes2 = some g1 ∧
      g1.shuntOffsetFloat
        = (if g.adc.ads1_available then ((readings1.sum : Int) : F) / ((16 : Int) : F)
           else g.shuntOffsetFloat) ∧
      g1.ads2OffsetFloat
        = (if g.adc.ads2_available then ((readings2.sum : Int) : F) / ((16 : Int) : F)
           else g.ads2OffsetFloat)) ∧
    (∀ readings : List Int, readings.length = 16 → (∀ r ∈ readings, IsInt16 r) →
      (∀ k, -2147483648 ≤ (readings.take k).sum ∧ (readings.take k).sum ≤ 2147483647) ∧
      IsBinary32 ((readings.sum : Int) : ℚ) ∧
      IsBinary32 16 ∧
      IsBinary32 (((readings.sum : Int) : ℚ) / 16)) ∧
    (calibrateADC sampleGlobals readingsZeroToFifteen readingsZeroToFifteen).map
        (fun g1 => (g1.shuntOffsetFloat, g1.ads2OffsetFloat))
      = some (15 / 2, 15 / 2) := by
  have main : ∀ {G : Type} [Div G] [IntCast G] (g : Globals G)
      (outcomes1 outcomes2 : List (Option Int)) (readings1 readings2 : List Int),
      (g.adc.ads1_available = true →
        readings1.length = 16 ∧ (outcomes1.filterMap id).take 16 = readings1 ∧
        ∀ r ∈ readings1, IsInt16 r) →
      (g.adc.ads2_available = true →
        readings2.length = 16 ∧ (outcomes2.filterMap id).take 16 = readings2 ∧
        ∀ r ∈ readings2, IsInt16 r) →
      ∃ g1, calibrateADC g outcomes1 outcomes2 = some g1 ∧
        g1.shuntOffsetFloat
          = (if g.adc.ads1_available then ((readings1.sum : Int) : G) / ((16 : Int) : G)
             else g.shuntOffsetFloat) ∧
        g1.ads2OffsetFloat
          = (if g.adc.ads2_available then ((readings2.sum : Int) : G) / ((16 : Int) : G)
             else g.ads2OffsetFloat) := by
    intro G _ _ g outcomes1 outcomes2 readings1 readings2 h1 h2
    unfold calibrateADC
    cases ha1 : g.adc.ads1_available <;> cases ha2 : g.adc.ads2_available
    · simp [ha1, ha2]
    · obtain ⟨hl, ht, hr⟩ := h2 ha2
      obtain ⟨log2, e2⟩ := calibrationLoop_sixteen (BusOp.readSingleEnded ADS2_ADDR 0)
        outcomes2 g.adc.busLog readings2 hl ht hr
      simp [ha1, ha2, e2]
    · obtain ⟨hl, ht, hr⟩ := h1 ha1
      obtain ⟨log1, e1⟩ := calibrationLoop_sixteen (BusOp.readDifferential01 ADS1_ADDR)
        outcomes1 g.adc.busLog readings1 hl ht hr
      simp [ha1, ha2, e1]
    · obtain ⟨hl, ht, hr⟩ := h1 ha1
      obtain ⟨log1, e1⟩ := calibrationLoop_sixteen (BusOp.readDifferential01 ADS1_ADDR)
        outcomes1 g.adc.busLog readings1 hl ht hr
      obtain ⟨hl2, ht2, hr2⟩ := h2 ha2
      obtain ⟨log2, e2⟩ := calibrationLoop_sixteen (BusOp.readSingleEnded ADS2_ADDR 0)
        outcomes2 log1 readings2 hl2 ht2 hr2
      simp [ha1, ha2, e1, e2]
  refine ⟨main g outcomes1 outcomes2 readings1 readings2 h1 h2, ?_, ?_⟩
  · intro readings hlen hr
    have hb := sum_sixteen_isBinary32 readings hlen hr
    refine ⟨fun k => ?_, hb.1, ⟨16, 0, by norm_num, by norm_num, by norm_num, by norm_num⟩, hb.2⟩
    have hk := sum_int16_bounds (readings.take k)
      (fun r hx => hr r (List.mem_of_mem_take hx))
    have hlk : ((readings.take k).length : Int) ≤ 16 := by
      have : (readings.take k).length ≤ 16 := by
        rw [List.length_take, hlen]; omega
      exact_mod_cast this
    constructor <;> omega
  · have hrs : ∀ r ∈ zeroToFifteen, IsInt16 r := by decide
    have hfm : (readingsZeroToFifteen.filterMap id).take 16
        = zeroToFifteen := by decide
    obtain ⟨g1, hg, ho1, ho2⟩ := main sampleGlobals readingsZeroToFifteen readingsZeroToFifteen
      zeroToFifteen zeroToFifteen
      (fun _ => ⟨by decide, hfm, hrs⟩) (fun _ => ⟨by decide, hfm, hrs⟩)
    have hsum : zeroToFifteen.sum = 120 := by decide
    have hav1 : sampleGlobals.adc.ads1_available = true := rfl
    have hav2 : sampleGlobals.adc.ads2_available = true := rfl
    rw [hg]
    simp only [Option.map_some', ho1, ho2, hav1, hav2, hsum, if_true]
    norm_num

/-- Witness of `calibrateADC_offsets`: on the sample device, with the readings
0, 1, …, 15 on both channels, calibration returns. -/
theorem calibrateADC_offsets_witness :
    ∃ g1, calibrateADC sampleGlobals readingsZeroToFifteen readingsZeroToFifteen = some g1 ∧
      g1.shuntOffsetFloat
        = (if sampleGlobals.adc.ads1_available then
            (((zeroToFifteen.sum : Int) : ℚ)) / ((16 : Int) : ℚ)
           else sampleGlobals.shuntOffsetFloat) ∧
      g1.ads2OffsetFloat
        = (if sampleGlobals.adc.ads2_available then
            (((zeroToFifteen.sum : Int) : ℚ)) / ((16 : Int) : ℚ)
           else sampleGlobals.ads2OffsetFloat) :=
  (calibrateADC_offsets sampleGlobals readingsZeroToFifteen readingsZeroToFifteen
    zeroToFifteen zeroToFifteen
    (fun _ => ⟨by decide, by decide, by decide⟩)
    (fun _ => ⟨by decide, by decide, by decide⟩)).1

/-! ## Theorems: the telemetry averages -/

/-- The summing loop over the 10 slots of a ring buffer, in exact arithmetic. -/
theorem bufferSum_ten {F : Type} [LinearOrderedField F] (buffer : Nat → F) :
    bufferSum buffer 10
      = buffer 0 + buffer 1 + buffer 2 + buffer 3 + buffer 4 + buffer 5 + buffer 6
        + buffer 7 + buffer 8 + buffer 9 := by
  have hr : List.range 10 = [0, 1, 2, 3, 4, 5, 6, 7, 8, 9] := by decide
  unfold bufferSum
  rw [hr]
  simp only [List.foldl_cons, List.foldl_nil, Int.cast_zero, zero_add]

/-- The macro `abs` is the absolute value. -/
theorem absMacro_eq_abs {F : Type} [LinearOrderedField F] (x : F) : absMacro x = |x| := by
  unfold absMacro
  simp only [Int.cast_zero]
  split_ifs with h
  · exact (abs_of_pos h).symm
  · exact (abs_of_nonpos (not_lt.mp h)).symm

/-- The deadband statement in terms of the absolute value. -/
theorem deadband_eq {F : Type} [LinearOrderedField F] (x : F) :
    deadband x = if |x| < 1 then 0 else x := by
  unfold deadband
  rw [absMacro_eq_abs]
  simp only [Int.cast_one, Int.cast_zero]

/-- A value that has passed the deadband is `0` or of magnitude at least `1`. -/
theorem deadband_zero_or_large {F : Type} [LinearOrderedField F] (x : F) :
    deadband x = 0 ∨ 1 ≤ |deadband x| := by
  rw [deadband_eq]
  split_ifs with h
  · exact Or.inl rfl
  · exact Or.inr (not_lt.mp h)

/-- The connection bookkeeping of `handleBLEConnections` sends nothing. -/
theorem handleBLEConnections_dataNotifications {F : Type} (b : BleState F) :
    (handleBLEConnections b).dataNotifications = b.dataNotifications := by
  unfold handleBLEConnections
  simp only []
  split_ifs <;> rfl

/-- The numbers met in the two averaging examples are binary32 values. -/
theorem example_values_isBinary32 :
    ∀ q ∈ ([0, 1, 3, 6, 10, 15, 3 / 2, 5] : List ℚ), IsBinary32 q := by
  intro q hq
  simp only [List.mem_cons, List.mem_singleton, List.not_mem_nil, or_false] at hq
  rcases hq with h | h | h | h | h | h | h | h <;> subst h
  · exact ⟨0, 0, by decide, by decide, by decide, by norm_num⟩
  · exact ⟨1, 0, by decide, by decide, by decide, by norm_num⟩
  · exact ⟨3, 0, by decide, by decide, by decide, by norm_num⟩
  · exact ⟨6, 0, by decide, by decide, by decide, by norm_num⟩
  · exact ⟨10, 0, by decide, by decide, by decide, by norm_num⟩
  · exact ⟨15, 0, by decide, by decide, by decide, by norm_num⟩
  · exact ⟨3, -1, by decide, by decide, by decide, by norm_num⟩
  · exact ⟨5, 0, by decide, by decide, by decide, by norm_num⟩

/-- The partial sums of the summing loop over the slots 1, 2, 3, 4, 5, 0, 0, 0,
0, 0. -/
theorem oneToFiveBuffer_partial_sums :
    (List.range 11).map (bufferSum oneToFiveBuffer)
      = [0, 1, 3, 6, 10, 15, 15, 15, 15, 15, 15] := by
  have hvals : ∀ i, oneToFiveBuffer i = [1, 2, 3, 4, 5, 0, 0, 0, 0, 0].getD i 0 := fun _ => rfl
  have hr : List.range 11 = [0, 1, 2, 3, 4, 5, 6, 7, 8, 9, 10] := by decide
  have h : ∀ n, List.range (n + 1) = List.range n ++ [n] := fun n => List.range_succ n
  rw [hr]
  simp only [List.map, bufferSum]
  simp only [List.range_zero, h, List.foldl_append, List.foldl_cons, List.foldl_nil, hvals]
  norm_num

/-! ## Theorems: the rounding to binary32 -/

/-- An integer is rounded to itself. -/
theorem roundHalfEven_intCast (n : Int) : roundHalfEven (n : ℚ) = n := by
  unfold roundHalfEven
  rw [Int.fract_intCast, Int.floor_intCast]
  norm_num

/-- The position of the leading bit of a positive rational number between two
consecutive powers of two. -/
theorem int_log_two_eq (r : ℚ) (k : Int) (h1 : (2 : ℚ) ^ k ≤ r) (h2 : r < (2 : ℚ) ^ (k + 1)) :
    Int.log 2 r = k := by
  have hpos : 0 < r := lt_of_lt_of_le (zpow_pos (by norm_num) k) h1
  have ha : Int.log 2 r < k + 1 :=
    (Int.lt_zpow_iff_log_lt (by norm_num) hpos).mp (by exact_mod_cast h2)
  have hb : k ≤ Int.log 2 r :=
    (Int.zpow_le_iff_le_log (by norm_num) hpos).mp (by exact_mod_cast h1)
  omega

/-- A binary32 value is rounded to itself. -/
theorem roundBinary32_of_isBinary32 (q : ℚ) (h : IsBinary32 q) : roundBinary32 q = q := by
  obtain ⟨m, e, hm, he1, _, rfl⟩ := h
  by_cases hm0 : m = 0
  · subst hm0
    simp [roundBinary32, roundHalfEven]
  · have hmq : |(m : ℚ)| < 2 ^ 24 := by
      have h1 : ((m.natAbs : Int) : ℚ) < ((2 ^ 24 : Nat) : Int) := by exact_mod_cast hm
      rw [Int.natCast_natAbs] at h1
      push_cast at h1
      exact_mod_cast h1
    have h2pos : (0 : ℚ) < 2 ^ e := zpow_pos (by norm_num) e
    have hpos : 0 < |(m : ℚ) * 2 ^ e| := by
      rw [abs_pos]
      exact mul_ne_zero (by exact_mod_cast hm0) (ne_of_gt h2pos)
    have hlt : |(m : ℚ) * 2 ^ e| < (2 : ℚ) ^ (24 + e) := by
      rw [abs_mul, abs_of_pos h2pos, zpow_add₀ (by norm_num : (2 : ℚ) ≠ 0)]
      have : |(m : ℚ)| * 2 ^ e < 2 ^ 24 * 2 ^ e := mul_lt_mul_of_pos_right hmq h2pos
      exact_mod_cast this
    have hlog : Int.log 2 |(m : ℚ) * 2 ^ e| < 24 + e :=
      (Int.lt_zpow_iff_log_lt (by norm_num) hpos).mp (by exact_mod_cast hlt)
    have hu : ulpExponent ((m : ℚ) * 2 ^ e) ≤ e := by
      unfold ulpExponent
      exact max_le (by omega) he1
    unfold roundBinary32
    generalize ulpExponent ((m : ℚ) * 2 ^ e) = u at hu
    obtain ⟨d, hd⟩ : ∃ d : Nat, e = u + d := ⟨(e - u).toNat, by omega⟩
    have h2u : (2 : ℚ) ^ u ≠ 0 := ne_of_gt (zpow_pos (by norm_num) u)
    have hq : (m : ℚ) * 2 ^ e / 2 ^ u = ((m * 2 ^ d : Int) : ℚ) := by
      rw [hd, zpow_add₀ (by norm_num : (2 : ℚ) ≠ 0), zpow_natCast]
      push_cast
      field_simp
      ring
    rw [hq, roundHalfEven_intCast, hd, zpow_add₀ (by norm_num : (2 : ℚ) ≠ 0), zpow_natCast]
    push_cast
    ring

/-- The quotient 11 / 10 is rounded to 9227469 / 8388608, which is
1.10000002384185791015625. -/
theorem roundBinary32_eleven_tenths : roundBinary32 (11 / 10) = 9227469 / 8388608 := by
  have hlog : Int.log 2 |(11 / 10 : ℚ)| = 0 := by
    apply int_log_two_eq
    · rw [abs_of_pos (by norm_num)]; norm_num
    · rw [abs_of_pos (by norm_num)]; norm_num
  have hu : ulpExponent (11 / 10) = -23 := by
    unfold ulpExponent
    rw [hlog]
    decide
  have hx : (11 / 10 : ℚ) / 2 ^ (-23 : Int) = 46137344 / 5 := by norm_num
  have hfloor : ⌊(46137344 / 5 : ℚ)⌋ = 9227468 := by
    rw [Int.floor_eq_iff]
    constructor <;> norm_num
  have hfract : Int.fract (46137344 / 5 : ℚ) = 4 / 5 := by
    rw [Int.fract, hfloor]
    norm_num
  have hr : roundHalfEven (46137344 / 5) = 9227469 := by
    unfold roundHalfEven
    rw [hfract, hfloor]
    norm_num
  unfold roundBinary32
  rw [hu, hx, hr]
  norm_num

/-- No binary32 value equals 11 / 10. -/
theorem eleven_tenths_not_isBinary32 : ¬ IsBinary32 (11 / 10) := by
  intro h
  have hr := roundBinary32_of_isBinary32 _ h
  rw [roundBinary32_eleven_tenths] at hr
  norm_num at hr

/-- An integer of magnitude below `2 ^ 24` is a binary32 value. -/
theorem intCast_isBinary32 (n : Int) (h : n.natAbs < 2 ^ 24) : IsBinary32 (n : ℚ) :=
  ⟨n, 0, h, by decide, by decide, by simp⟩

/-- The conversion of an integer of magnitude below `2 ^ 24` to `float` is
exact. -/
theorem binary32_intCast_val (n : Int) (h : n.natAbs < 2 ^ 24) :
    ((n : Int) : Binary32).val = (n : ℚ) :=
  roundBinary32_of_isBinary32 _ (intCast_isBinary32 n h)

/-- One more pass of the summing loop. -/
theorem bufferSum_succ {F : Type} [Add F] [IntCast F] (buffer : Nat → F) (n : Nat) :
    bufferSum buffer (n + 1) = bufferSum buffer n + buffer n := by
  unfold bufferSum
  rw [List.range_succ n, List.foldl_append]
  rfl

/-- The `float` summing loop returns the exact sum when every exact partial sum
is a binary32 value. -/
theorem bufferSum_binary32_exact (buffer : Nat → Binary32) (n : Nat)
    (h : ∀ k, k ≤ n → IsBinary32 (bufferSum (fun i => (buffer i).val) k)) :
    (bufferSum buffer n).val = bufferSum (fun i => (buffer i).val) n := by
  induction n with
  | zero =>
    show ((0 : Int) : Binary32).val = ((0 : Int) : ℚ)
    exact binary32_intCast_val 0 (by decide)
  | succ n ih =>
    have hn := h (n + 1) (le_refl _)
    rw [bufferSum_succ] at hn ⊢
    rw [bufferSum_succ]
    show roundBinary32 ((bufferSum buffer n).val + (buffer n).val) = _
    rw [ih (fun k hk => h k (Nat.le_succ_of_le hk))]
    exact roundBinary32_of_isBinary32 _ hn

/-- The macro `abs` on a `float` is the absolute value. -/
theorem absMacro_binary32 (x : Binary32) : (absMacro x).val = |x.val| := by
  have h0 : ((0 : Int) : Binary32).val = 0 := by
    rw [binary32_intCast_val 0 (by decide)]
    norm_num
  unfold absMacro
  by_cases h : ((0 : Int) : Binary32) < x
  · rw [if_pos h]
    have h1 : ((0 : Int) : Binary32).val < x.val := h
    rw [h0] at h1
    exact (abs_of_pos h1).symm
  · rw [if_neg h]
    have h1 : ¬ ((0 : Int) : Binary32).val < x.val := h
    rw [h0] at h1
    show -x.val = |x.val|
    exact (abs_of_nonpos (not_lt.mp h1)).symm

/-- The deadband statement on a `float` in terms of the absolute value. -/
theorem deadband_binary32 (x : Binary32) :
    (deadband x).val = if |x.val| < 1 then 0 else x.val := by
  have h0 : ((0 : Int) : Binary32).val = 0 := by
    rw [binary32_intCast_val 0 (by decide)]
    norm_num
  have h1 : ((1 : Int) : Binary32).val = 1 := by
    rw [binary32_intCast_val 1 (by decide)]
    norm_num
  unfold deadband
  by_cases h : absMacro x < ((1 : Int) : Binary32)
  · rw [if_pos h]
    have h2 : (absMacro x).val < ((1 : Int) : Binary32).val := h
    rw [absMacro_binary32, h1] at h2
    rw [if_pos h2, h0]
  · rw [if_neg h]
    have h2 : ¬ (absMacro x).val < ((1 : Int) : Binary32).val := h
    rw [absMacro_binary32, h1] at h2
    rw [if_neg h2]

/-- A `float` that has passed the deadband is `0` or of magnitude at least `1`. -/
theorem deadband_binary32_zero_or_large (x : Binary32) :
    (deadband x).val = 0 ∨ 1 ≤ |(deadband x).val| := by
  rw [deadband_binary32]
  split_ifs with h
  · exact Or.inl rfl
  · exact Or.inr (not_lt.mp h)

/-- The `shunt_diff` member of the document built with the lock acquired: the
`float` quotient of the `float` sum of the 10 slots by 10, after the
deadband. -/
theorem telemetryDocument_binary32 (g : Globals Binary32) (timestamp : Nat) :
    (telemetryDocument g true timestamp).shunt_diff.val
      = if |roundBinary32 ((bufferSum g.shuntBuffer 10).val / 10)| < 1 then 0
        else roundBinary32 ((bufferSum g.shuntBuffer 10).val / 10) := by
  have h10 : ((((avgWindow : Nat) : Int)) : Binary32).val = 10 := by
    have h : (((avgWindow : Nat) : Int)) = 10 := rfl
    rw [h, binary32_intCast_val 10 (by decide)]
    norm_num
  have hq : (bleAverages g true).1.val
      = roundBinary32 ((bufferSum g.shuntBuffer 10).val / 10) := by
    show roundBinary32 ((bufferSum g.shuntBuffer avgWindow).val
      / ((((avgWindow : Nat) : Int)) : Binary32).val) = _
    rw [h10]
    rfl
  show (deadband (bleAverages g true).1).val = _
  rw [deadband_binary32, hq]

/-- The exact partial sums of the slots 1, 2, 3, 4, 5, 0, 0, 0, 0, 0 are
binary32 values. -/
theorem oneToFiveBuffer32_exact (n : Nat) (hn : n ≤ 10) :
    IsBinary32 (bufferSum (fun i => (oneToFiveBuffer32 i).val) n) := by
  have hmem : bufferSum oneToFiveBuffer n ∈ (List.range 11).map (bufferSum oneToFiveBuffer) :=
    List.mem_map.mpr ⟨n, List.mem_range.mpr (by omega), rfl⟩
  rw [oneToFiveBuffer_partial_sums] at hmem
  have hsame : bufferSum (fun i => (oneToFiveBuffer32 i).val) n = bufferSum oneToFiveBuffer n :=
    rfl
  rw [hsame]
  apply example_values_isBinary32
  simp only [List.mem_cons, List.mem_singleton, List.not_mem_nil, or_false] at hmem ⊢
  tauto

/-- The exact partial sums of the slots 11, 0, 0, 0, 0, 0, 0, 0, 0, 0. -/
theorem elevenBuffer32_partial_sums (n : Nat) :
    bufferSum (fun i => (elevenBuffer32 i).val) n = if n = 0 then 0 else 11 := by
  induction n with
  | zero =>
    show ((0 : Int) : ℚ) = _
    simp
  | succ n ih =>
    rw [bufferSum_succ, ih]
    cases n with
    | zero => simp [elevenBuffer32]
    | succ k => simp [elevenBuffer32]

/-- The `float` sum of the slots 11, 0, 0, 0, 0, 0, 0, 0, 0, 0 is 11. -/
theorem elevenBuffer32_sum : (bufferSum elevenBuffer32 10).val = 11 := by
  rw [bufferSum_binary32_exact, elevenBuffer32_partial_sums]
  · simp
  · intro k _
    rw [elevenBuffer32_partial_sums]
    split_ifs
    · exact intCast_isBinary32 0 (by decide) |> fun h => by simpa using h
    · exact intCast_isBinary32 11 (by decide) |> fun h => by simpa using h

/-- Rounding to an integer does not pass an integer above. -/
theorem roundHalfEven_le (x : ℚ) (n : Int) (h : x ≤ n) : roundHalfEven x ≤ n := by
  rcases eq_or_lt_of_le h with he | hl
  · rw [he, roundHalfEven_intCast]
  · have hf : ⌊x⌋ < n := Int.floor_lt.mpr hl
    unfold roundHalfEven
    split_ifs <;> omega

/-- Rounding to an integer does not pass an integer below. -/
theorem le_roundHalfEven (x : ℚ) (n : Int) (h : (n : ℚ) ≤ x) : n ≤ roundHalfEven x := by
  have hf : n ≤ ⌊x⌋ := Int.le_floor.mpr h
  unfold roundHalfEven
  split_ifs <;> omega

/-- Rounding to binary32 does not pass a power of two: a result of magnitude at
most `2 ^ k` is rounded to one of magnitude at most `2 ^ k`. -/
theorem roundBinary32_abs_le (q : ℚ) (k : Nat) (h : |q| ≤ 2 ^ k) :
    |roundBinary32 q| ≤ 2 ^ k := by
  have hlog : Int.log 2 |q| ≤ k := by
    by_cases hq : q = 0
    · subst hq
      simp
    · have hpos : 0 < |q| := abs_pos.mpr hq
      have hlt : |q| < (2 : ℚ) ^ ((k : Int) + 1) := by
        have h1 : (2 : ℚ) ^ k < 2 ^ (k + 1) := by
          rw [pow_succ]
          have : (0 : ℚ) < 2 ^ k := pow_pos (by norm_num) k
          linarith
        have h2 : (2 : ℚ) ^ ((k : Int) + 1) = 2 ^ (k + 1) := by
          rw [← zpow_natCast]
          push_cast
          rfl
        rw [h2]
        exact lt_of_le_of_lt h h1
      have hlog : Int.log 2 |q| < (k : Int) + 1 :=
        (Int.lt_zpow_iff_log_lt (by norm_num) hpos).mp (by exact_mod_cast hlt)
      omega
  have hu : ulpExponent q ≤ k := by
    unfold ulpExponent
    exact max_le (by omega) (by omega)
  unfold roundBinary32
  generalize ulpExponent q = u at hu
  obtain ⟨d, hd⟩ : ∃ d : Nat, (k : Int) = u + d := ⟨((k : Int) - u).toNat, by omega⟩
  have h2u : (0 : ℚ) < 2 ^ u := zpow_pos (by norm_num) u
  have hk : (2 : ℚ) ^ k = 2 ^ d * 2 ^ u := by
    rw [← zpow_natCast, hd, zpow_add₀ (by norm_num : (2 : ℚ) ≠ 0), zpow_natCast]
    ring
  have hle := abs_le.mp h
  have hup : q / 2 ^ u ≤ ((2 ^ d : Int) : ℚ) := by
    rw [div_le_iff₀ h2u]
    push_cast
    rw [← hk]
    exact hle.2
  have hlo : (((-(2 ^ d) : Int)) : ℚ) ≤ q / 2 ^ u := by
    rw [le_div_iff₀ h2u]
    push_cast
    rw [neg_mul, ← hk]
    exact hle.1
  have h1 := roundHalfEven_le _ _ hup
  have h2 := le_roundHalfEven _ _ hlo
  rw [abs_mul, abs_of_pos h2u, hk]
  apply mul_le_mul_of_nonneg_right _ (le_of_lt h2u)
  rw [abs_le]
  constructor
  · have : ((-(2 ^ d) : Int) : ℚ) ≤ (roundHalfEven (q / 2 ^ u) : ℚ) := by exact_mod_cast h2
    push_cast at this
    exact this
  · have : (roundHalfEven (q / 2 ^ u) : ℚ) ≤ ((2 ^ d : Int) : ℚ) := by exact_mod_cast h1
    push_cast at this
    exact this

/-- The `float` sum of slots of magnitude at most `2 ^ B` stays of magnitude at
most `2 ^ (B + n)` after `n` passes of the loop. -/
theorem bufferSum_binary32_bounded (buffer : Nat → Binary32) (B : Nat)
    (h : ∀ i, |(buffer i).val| ≤ 2 ^ B) (n : Nat) :
    |(bufferSum buffer n).val| ≤ 2 ^ (B + n) := by
  induction n with
  | zero =>
    have h0 : (bufferSum buffer 0).val = 0 :=
      (binary32_intCast_val 0 (by decide)).trans (by norm_num)
    rw [h0, abs_zero]
    positivity
  | succ n ih =>
    rw [bufferSum_succ]
    show |roundBinary32 ((bufferSum buffer n).val + (buffer n).val)| ≤ _
    apply roundBinary32_abs_le
    have h1 := abs_add (bufferSum buffer n).val (buffer n).val
    have h2 : (2 : ℚ) ^ B ≤ 2 ^ (B + n) := pow_le_pow_right₀ (by norm_num) (by omega)
    have h3 : (2 : ℚ) ^ (B + (n + 1)) = 2 * 2 ^ (B + n) := by
      rw [← Nat.add_assoc, pow_succ]
      ring
    rw [h3]
    linarith [h n]

/-- Claim C18 fails as stated. With the slots 11, 0, 0, 0, 0, 0, 0, 0, 0, 0 in
the shunt buffer and the lock acquired, the arithmetic mean of the slots is
11 / 10, of magnitude at least 1, and the `shunt_diff` value of the document is
9227469 / 8388608 (1.10000002384185791015625), the `float` nearest to 11 / 10:
the sum 11 is exact and the division by 10 rounds. No `float` equals
11 / 10. -/
theorem telemetry_mean_is_rounded :
    ((elevenBuffer32 0).val + (elevenBuffer32 1).val + (elevenBuffer32 2).val
      + (elevenBuffer32 3).val + (elevenBuffer32 4).val + (elevenBuffer32 5).val
      + (elevenBuffer32 6).val + (elevenBuffer32 7).val + (elevenBuffer32 8).val
      + (elevenBuffer32 9).val) / 10 = (11 / 10 : ℚ) ∧
    (1 : ℚ) ≤ |11 / 10| ∧
    (telemetryDocument { sampleGlobals32 with shuntBuffer := elevenBuffer32 } true
        0).shunt_diff.val = 9227469 / 8388608 ∧
    (telemetryDocument { sampleGlobals32 with shuntBuffer := elevenBuffer32 } true
        0).shunt_diff.val ≠ 11 / 10 ∧
    ¬ IsBinary32 (11 / 10) := by
  have hdoc : (telemetryDocument { sampleGlobals32 with shuntBuffer := elevenBuffer32 } true
      0).shunt_diff.val = 9227469 / 8388608 := by
    rw [telemetryDocument_binary32]
    show (if |roundBinary32 ((bufferSum elevenBuffer32 10).val / 10)| < 1 then 0
        else roundBinary32 ((bufferSum elevenBuffer32 10).val / 10)) = _
    rw [elevenBuffer32_sum, roundBinary32_eleven_tenths]
    have habs : |(9227469 / 8388608 : ℚ)| = 9227469 / 8388608 := abs_of_pos (by norm_num)
    rw [habs, if_neg (by norm_num)]
  refine ⟨?_, ?_, hdoc, ?_, eleven_tenths_not_isBinary32⟩
  · simp [elevenBuffer32]
  · rw [abs_of_pos (by norm_num)]
    norm_num
  · rw [hdoc]
    norm_num

/-- Claim C18, amended. The telemetry task computes in `float`. When it
acquires the buffer lock, the `shunt_diff` value of its document is the `float`
quotient by 10 of the `float` sum of the 10 slots of `shuntBuffer` (the loop
starts at 0 and rounds after each addition, the division rounds once more),
replaced by `0` when the magnitude of that quotient is below `1`. When every
exact partial sum of the slots and their arithmetic mean are `float` values,
nothing is rounded and the value is that arithmetic mean, replaced by `0` when
its magnitude is below `1`. Whether or not the lock is acquired, each of the two
measurements of the document is `0` or of magnitude at least `1`, and a pass of
`bleTask` notifies nothing or exactly this document. The slots 1, 2, 3, 4, 5,
0, 0, 0, 0, 0 give 1.5, and `getBufferAverage` over 1, 2, 3, 4, 5 with size 5
gives 3. With slots of magnitude at most `2 ^ 17` (a slot is the difference of a
16-bit reading and an offset that is a mean of 16-bit readings) every
intermediate result stays of magnitude at most `2 ^ 27`, far from the overflow
of the format. -/
theorem telemetry_mean_and_deadband (g : Globals Binary32) (b : BleState Binary32)
    (lockAcquired : Bool) (timestamp jsonLength now : Nat) :
    (telemetryDocument g true timestamp).shunt_diff.val
      = (if |roundBinary32 ((bufferSum g.shuntBuffer 10).val / 10)| < 1 then 0
         else roundBinary32 ((bufferSum g.shuntBuffer 10).val / 10)) ∧
    (bufferSum g.shuntBuffer 0).val = 0 ∧
    (∀ n, (bufferSum g.shuntBuffer (n + 1)).val
      = roundBinary32 ((bufferSum g.shuntBuffer n).val + (g.shuntBuffer n).val)) ∧
    ((∀ n, n ≤ 10 → IsBinary32 (bufferSum (fun i => (g.shuntBuffer i).val) n)) →
      IsBinary32 (((g.shuntBuffer 0).val + (g.shuntBuffer 1).val + (g.shuntBuffer 2).val
        + (g.shuntBuffer 3).val + (g.shuntBuffer 4).val + (g.shuntBuffer 5).val
        + (g.shuntBuffer 6).val + (g.shuntBuffer 7).val + (g.shuntBuffer 8).val
        + (g.shuntBuffer 9).val) / 10) →
      (telemetryDocument g true timestamp).shunt_diff.val
        = (if |((g.shuntBuffer 0).val + (g.shuntBuffer 1).val + (g.shuntBuffer 2).val
              + (g.shuntBuffer 3).val + (g.shuntBuffer 4).val + (g.shuntBuffer 5).val
              + (g.shuntBuffer 6).val + (g.shuntBuffer 7).val + (g.shuntBuffer 8).val
              + (g.shuntBuffer 9).val) / 10| < 1
           then 0
           else ((g.shuntBuffer 0).val + (g.shuntBuffer 1).val + (g.shuntBuffer 2).val
              + (g.shuntBuffer 3).val + (g.shuntBuffer 4).val + (g.shuntBuffer 5).val
              + (g.shuntBuffer 6).val + (g.shuntBuffer 7).val + (g.shuntBuffer 8).val
              + (g.shuntBuffer 9).val) / 10)) ∧
    ((telemetryDocument g lockAcquired timestamp).shunt_diff.val = 0
      ∨ 1 ≤ |(telemetryDocument g lockAcquired timestamp).shunt_diff.val|) ∧
    ((telemetryDocument g lockAcquired timestamp).ads2_a0.val = 0
      ∨ 1 ≤ |(telemetryDocument g lockAcquired timestamp).ads2_a0.val|) ∧
    ((bleTask g b lockAcquired timestamp jsonLength now).dataNotifications
        = b.dataNotifications
      ∨ (bleTask g b lockAcquired timestamp jsonLength now).dataNotifications
        = b.dataNotifications ++ [telemetryDocument g lockAcquired timestamp]) ∧
    (telemetryDocument { sampleGlobals32 with shuntBuffer := oneToFiveBuffer32 } true
        timestamp).shunt_diff.val = 3 / 2 ∧
    (getBufferAverage oneToFiveBuffer32 5).val = 3 ∧
    ((∀ i, |(g.shuntBuffer i).val| ≤ 2 ^ 17) →
      (∀ n, n ≤ 10 → |(bufferSum g.shuntBuffer n).val| ≤ 2 ^ 27) ∧
      |roundBinary32 ((bufferSum g.shuntBuffer 10).val / 10)| ≤ 2 ^ 27) := by
  have hsum15 : ∀ n, 5 ≤ n → n ≤ 10 → (bufferSum oneToFiveBuffer32 n).val = 15 := by
    intro n h5 h10
    rw [bufferSum_binary32_exact _ _ (fun k hk => oneToFiveBuffer32_exact k (by omega))]
    have hsame : bufferSum (fun i => (oneToFiveBuffer32 i).val) n = bufferSum oneToFiveBuffer n :=
      rfl
    have hall := oneToFiveBuffer_partial_sums
    have hr : List.range 11 = [0, 1, 2, 3, 4, 5, 6, 7, 8, 9, 10] := by decide
    rw [hr] at hall
    simp only [List.map, List.cons.injEq, and_true] at hall
    rw [hsame]
    interval_cases n
    · exact hall.2.2.2.2.2.1
    · exact hall.2.2.2.2.2.2.1
    · exact hall.2.2.2.2.2.2.2.1
    · exact hall.2.2.2.2.2.2.2.2.1
    · exact hall.2.2.2.2.2.2.2.2.2.1
    · exact hall.2.2.2.2.2.2.2.2.2.2
  have hb32 : ∀ q ∈ ([0, 1, 3, 6, 10, 15, 3 / 2, 5] : List ℚ), roundBinary32 q = q :=
    fun q hq => roundBinary32_of_isBinary32 q (example_values_isBinary32 q hq)
  refine ⟨telemetryDocument_binary32 g timestamp, binary32_intCast_val 0 (by decide) |>.trans
    (by norm_num), fun n => by rw [bufferSum_succ]; rfl, ?_, deadband_binary32_zero_or_large _,
    deadband_binary32_zero_or_large _, ?_, ?_, ?_, ?_⟩
  · intro hpartial hmean
    rw [telemetryDocument_binary32, bufferSum_binary32_exact _ _ hpartial, bufferSum_ten,
      roundBinary32_of_isBinary32 _ hmean]
  · have hb := handleBLEConnections_dataNotifications b
    unfold bleTask notifyData
    simp only []
    split_ifs
    · exact Or.inr (by rw [← hb])
    · exact Or.inl hb
    · exact Or.inl hb
    · exact Or.inl hb
    · exact Or.inl hb
  · rw [telemetryDocument_binary32]
    show (if |roundBinary32 ((bufferSum oneToFiveBuffer32 10).val / 10)| < 1 then 0
        else roundBinary32 ((bufferSum oneToFiveBuffer32 10).val / 10)) = _
    rw [hsum15 10 (by decide) (by decide)]
    have h32 : (15 / 10 : ℚ) = 3 / 2 := by norm_num
    have habs : |(3 / 2 : ℚ)| = 3 / 2 := abs_of_pos (by norm_num)
    rw [h32, hb32 (3 / 2) (by simp), habs, if_neg (by norm_num)]
  · show roundBinary32 ((bufferSum oneToFiveBuffer32 5).val / ((((5 : Nat) : Int)) : Binary32).val)
      = 3
    have h5 : ((((5 : Nat) : Int)) : Binary32).val = 5 := by
      have h : (((5 : Nat) : Int)) = 5 := rfl
      rw [h, binary32_intCast_val 5 (by decide)]
      norm_num
    rw [hsum15 5 (by decide) (by decide), h5]
    have h3 : (15 / 5 : ℚ) = 3 := by norm_num
    rw [h3, hb32 3 (by simp)]
  · intro hslots
    have hsum : ∀ n, n ≤ 10 → |(bufferSum g.shuntBuffer n).val| ≤ 2 ^ 27 := by
      intro n hn
      have h1 := bufferSum_binary32_bounded g.shuntBuffer 17 hslots n
      have h2 : (2 : ℚ) ^ (17 + n) ≤ 2 ^ 27 := pow_le_pow_right₀ (by norm_num) (by omega)
      exact le_trans h1 h2
    refine ⟨hsum, roundBinary32_abs_le _ 27 ?_⟩
    have h10 := hsum 10 (le_refl _)
    rw [abs_div]
    have habs : |(10 : ℚ)| = 10 := abs_of_pos (by norm_num)
    rw [habs, div_le_iff₀ (by norm_num)]
    have hnn : (0 : ℚ) ≤ 2 ^ 27 := by positivity
    linarith

/-- Witness of `telemetry_mean_and_deadband`: the exact partial sums 0, 1, 3, 6,
10, 15 of the slots 1, 2, 3, 4, 5, 0, 0, 0, 0, 0 and their mean 1.5 are `float`
values, and the document reports 1.5. -/
theorem telemetry_mean_and_deadband_witness :
    (∀ n, n ≤ 10 → IsBinary32 (bufferSum (fun i => (oneToFiveBuffer32 i).val) n)) ∧
    IsBinary32 (3 / 2) ∧
    (telemetryDocument { sampleGlobals32 with shuntBuffer := oneToFiveBuffer32 } true
        0).shunt_diff.val = 3 / 2 := by
  have hmean : ((oneToFiveBuffer32 0).val + (oneToFiveBuffer32 1).val
      + (oneToFiveBuffer32 2).val + (oneToFiveBuffer32 3).val + (oneToFiveBuffer32 4).val
      + (oneToFiveBuffer32 5).val + (oneToFiveBuffer32 6).val + (oneToFiveBuffer32 7).val
      + (oneToFiveBuffer32 8).val + (oneToFiveBuffer32 9).val) / 10 = (3 / 2 : ℚ) := by
    simp [oneToFiveBuffer32, oneToFiveBuffer]
    norm_num
  have h32 : IsBinary32 (3 / 2) := example_values_isBinary32 _ (by simp)
  have habs : |(3 / 2 : ℚ)| = 3 / 2 := abs_of_pos (by norm_num)
  have h := (telemetry_mean_and_deadband
    { sampleGlobals32 with shuntBuffer := oneToFiveBuffer32 } sampleBle32 true 0 100 0).2.2.2.1
    oneToFiveBuffer32_exact (by rw [hmean]; exact h32)
  rw [hmean, habs, if_neg (by norm_num)] at h
  exact ⟨oneToFiveBuffer32_exact, h32, h⟩

/-! ## Theorems: the life cycle of the socket listener -/

/-- A take that succeeds makes the caller the holder. -/
theorem xSemaphoreTake_holder (holder : Option TaskId) (caller : TaskId) (given : Bool)
    (h : (xSemaphoreTake holder caller given).2 = true) :
    (xSemaphoreTake holder caller given).1 = some caller := by
  unfold xSemaphoreTake at h ⊢
  cases holder with
  | none => rfl
  | some t =>
    by_cases ht : t = caller
    · simp [ht] at h
    · cases given <;> simp [ht] at h ⊢

/-- A task that holds the mutex fails to take it again. -/
theorem xSemaphoreTake_held (caller : TaskId) (given : Bool) :
    xSemaphoreTake (some caller) caller given = (some caller, false) := by
  simp [xSemaphoreTake]

/-- Called by the task that holds the mutex, `setupMcpServer` changes nothing. -/
theorem setupMcpServer_held {F : Type} (l : McpLifecycle F) (caller : TaskId)
    (wifiConnected given : Bool) (h : l.mutexHolder = some caller) :
    setupMcpServer l caller wifiConnected given = l := by
  unfold setupMcpServer
  rw [h, xSemaphoreTake_held]
  simp

/-- Once the static flag `setupCompleted` is set, `setupMcpServer` changes
nothing. -/
theorem setupMcpServer_completed {F : Type} (l : McpLifecycle F) (caller : TaskId)
    (wifiConnected given : Bool) (h : l.setupCompleted = true) :
    setupMcpServer l caller wifiConnected given = l := by
  unfold setupMcpServer
  simp [h]

/-- The start branch of the monitor task leaves the listener flag and the
trace of socket calls as they are. -/
theorem monitorTaskMcpStart_listener {F : Type} (l : McpLifecycle F)
    (given wifiConnected2 given2 : Bool) :
    (monitorTaskMcpStart l given wifiConnected2 given2).webSocketStarted = l.webSocketStarted ∧
    (monitorTaskMcpStart l given wifiConnected2 given2).socketCalls = l.socketCalls ∧
    (monitorTaskMcpStart l given wifiConnected2 given2).setupCompleted = l.setupCompleted := by
  unfold monitorTaskMcpStart
  simp only []
  by_cases ht : (xSemaphoreTake l.mutexHolder TaskId.monitorTask given).2 = true
  · have hh := xSemaphoreTake_holder _ _ _ ht
    rw [if_pos ht, hh]
    by_cases hs : l.mcpServerStarted = false
    · rw [if_pos hs, setupMcpServer_held _ _ _ _ rfl]
      exact ⟨rfl, rfl, rfl⟩
    · rw [if_neg hs]
      exact ⟨rfl, rfl, rfl⟩
  · rw [if_neg ht]
    exact ⟨rfl, rfl, rfl⟩

/-- While the listener is not running, a pass of `handleMcpLoop` returns and
leaves the listener flag, the latch and the trace of socket calls as they
are. -/
theorem handleMcpLoop_stopped {F : Type} [Div F] [IntCast F] (l : McpLifecycle F)
    (wifiConnected given : Bool) (closing : List Nat) (now : Nat) (wifiConnected2 given2 : Bool)
    (nowRetry : Nat) (events : List (Nat × WStype)) (resources : List Resource)
    (tools : List Tool) (nowPoll nowStatus nowStamp : Nat) (hs : l.webSocketStarted = false) :
    ∃ l1, handleMcpLoop l wifiConnected given closing now wifiConnected2 given2 nowRetry events
        resources tools nowPoll nowStatus nowStamp = some l1 ∧
      l1.webSocketStarted = false ∧ l1.socketCalls = l.socketCalls ∧
      l1.setupCompleted = l.setupCompleted ∧ l1.server = l.server := by
  have hw : ¬ (l.webSocketStarted = true) := by rw [hs]; decide
  unfold handleMcpLoop
  simp only []
  by_cases ht : (xSemaphoreTake l.mutexHolder TaskId.loopTask given).2 = true
  · have hh := xSemaphoreTake_holder _ _ _ ht
    rw [hh]
    simp only [ht, if_true]
    cases wifiConnected
    · rw [if_pos rfl, if_neg hw]
      exact ⟨_, rfl, hs, rfl, rfl, rfl⟩
    · rw [if_neg (by decide)]
      by_cases hr : ulongSub now l.lastRetry > WEBSOCKET_RETRY_DELAY
      · have hc : l.webSocketStarted = false ∧ ulongSub now l.lastRetry > WEBSOCKET_RETRY_DELAY :=
          ⟨hs, hr⟩
        rw [if_pos hc, setupMcpServer_held _ _ _ _ rfl, if_neg hw]
        simp only []
        split_ifs
        · exact ⟨_, rfl, hs, rfl, rfl, rfl⟩
        · exact ⟨_, rfl, hs, rfl, rfl, rfl⟩
      · have hc : ¬ (l.webSocketStarted = false
            ∧ ulongSub now l.lastRetry > WEBSOCKET_RETRY_DELAY) := fun hc => hr hc.2
        rw [if_neg hc, if_neg hw]
        simp only []
        split_ifs
        · exact ⟨_, rfl, hs, rfl, rfl, rfl⟩
        · exact ⟨_, rfl, hs, rfl, rfl, rfl⟩
  · have hf : (xSemaphoreTake l.mutexHolder TaskId.loopTask given).2 = false := by
      cases hx : (xSemaphoreTake l.mutexHolder TaskId.loopTask given).2
      · rfl
      · exact absurd hx ht
    rw [hf]
    simp only [Bool.false_eq_true, if_false]
    cases wifiConnected
    · rw [if_pos rfl]
      exact ⟨_, rfl, hs, rfl, rfl, rfl⟩
    · rw [if_neg (by decide)]
      split_ifs
      · exact ⟨_, rfl, hs, rfl, rfl, rfl⟩
      · exact ⟨_, rfl, hs, rfl, rfl, rfl⟩

/-- Claim C15, the code on every pass. A pass of `handleMcpLoop` that starts
with the listener not running returns with the listener still not running,
whatever the link, the lock, the clock and the retry time are, and so does the
start branch of the monitor task: both call `setupMcpServer` while they hold
`mcpServerMutex`, and `setupMcpServer`, called by the holder of the mutex, fails
to take it and changes nothing; it also changes nothing once its latch
`setupCompleted` is set. From the state after `setup()`, with the link up, the
lock free and `millis() = 6000`, the pass of `handleMcpLoop` ends with
`webSocketStarted = false`, `lastRetry = 6001` and no call made to the socket;
the pass of the monitor task ends with `webSocketStarted = false` and
`mcpServerStarted = true`; a listener stopped by a link loss is not running
after a later pass with the link up either; and `setupMcpServer` called with the
mutex free does start the listener. -/
theorem lifecycle_steps_never_start_listener {F : Type} [Div F] [IntCast F]
    (l : McpLifecycle F) (wifiConnected given : Bool) (closing : List Nat) (now : Nat)
    (wifiConnected2 given2 : Bool) (nowRetry : Nat) (events : List (Nat × WStype))
    (resources : List Resource) (tools : List Tool) (nowPoll nowStatus nowStamp : Nat)
    (caller : TaskId) :
    (handleMcpLoop { l with webSocketStarted := false } wifiConnected given closing now
        wifiConnected2 given2 nowRetry events resources tools nowPoll nowStatus nowStamp).map
        (fun l1 => l1.webSocketStarted) = some false ∧
    (monitorTaskMcpStart { l with webSocketStarted := false } given wifiConnected2
        given2).webSocketStarted = false ∧
    setupMcpServer { l with mutexHolder := some caller } caller wifiConnected given
      = { l with mutexHolder := some caller } ∧
    setupMcpServer { l with setupCompleted := true } caller wifiConnected given
      = { l with setupCompleted := true } ∧
    (handleMcpLoop bootLifecycle true false [] 6000 true false 6001 [] [] registeredTools
        6002 6003 6004).map
        (fun l1 => (l1.webSocketStarted, l1.lastRetry, l1.mutexHolder, l1.socketCalls))
      = some (false, 6001, none, []) ∧
    ((monitorTaskMcpStart bootLifecycle false true false).webSocketStarted,
      (monitorTaskMcpStart bootLifecycle false true false).mcpServerStarted) = (false, true) ∧
    ((handleMcpLoop listeningLifecycle false false [3] 9000 true false 9001 [] []
        registeredTools 9002 9003 9004).bind
        (fun l1 => handleMcpLoop l1 true false [] 15000 true false 15001 [] [] registeredTools
          15002 15003 15004)).map
        (fun l2 => (l2.webSocketStarted, l2.lastRetry))
      = some (false, 15001) ∧
    (setupMcpServer bootLifecycle TaskId.loopTask true false).webSocketStarted = true := by
  refine ⟨?_, ?_, setupMcpServer_held _ _ _ _ rfl, setupMcpServer_completed _ _ _ _ rfl,
    by decide, by decide, by decide, by decide⟩
  · obtain ⟨l1, h1, h2, _⟩ := handleMcpLoop_stopped { l with webSocketStarted := false }
      wifiConnected given closing now wifiConnected2 given2 nowRetry events resources tools
      nowPoll nowStatus nowStamp rfl
    rw [h1, Option.map_some', h2]
  · exact (monitorTaskMcpStart_listener _ given wifiConnected2 given2).1

/-- The slots after a run of the loop of `removeAllSubscriptions` over the
indices `l`: exactly the slots of the client among them are marked inactive. -/
theorem removeAllSubscriptions_fold_slot (clientId : Nat) (l : List Nat) (st : McpState)
    (k : Nat) :
    (l.foldl (removeAllSubscriptionsAt clientId) st).subscriptions k
      = if k ∈ l ∧ (st.subscriptions k).clientId = clientId then
          { st.subscriptions k with active := false }
        else st.subscriptions k := by
  induction l generalizing st with
  | nil => simp
  | cons i rest ih =>
    rw [List.foldl_cons, ih]
    by_cases hc : (st.subscriptions i).clientId = clientId
    · simp only [removeAllSubscriptionsAt, if_pos hc]
      by_cases hk : k = i
      · subst hk
        simp [hc]
      · simp [Function.update_noteq hk, hk]
    · simp only [removeAllSubscriptionsAt, if_neg hc]
      by_cases hk : k = i
      · subst hk
        simp [hc]
      · simp [hk]

/-- The slots after `removeAllSubscriptions`. -/
theorem removeAllSubscriptions_slot (st : McpState) (clientId : Nat) (k : Nat) :
    (removeAllSubscriptions st clientId).subscriptions k
      = if k < st.subscriptionCount ∧ (st.subscriptions k).clientId = clientId then
          { st.subscriptions k with active := false }
        else st.subscriptions k := by
  unfold removeAllSubscriptions
  rw [removeAllSubscriptions_fold_slot]
  simp only [List.mem_range]

/-- A tool sends nothing on the socket. -/
theorem toolFunction_run_socketSent {F : Type} [Div F] [IntCast F] (f : ToolFunction)
    (s s1 : McpServer F) (params : ToolParams) (resources : List Resource) (env : WifiEnv)
    (outcomes1 outcomes2 : List (Option Int)) (result : ToolResult)
    (h : f.run s params resources env outcomes1 outcomes2 = some (s1, result)) :
    s1.socketSent = s.socketSent := by
  cases f
  · simp only [ToolFunction.run, Option.some.injEq, Prod.mk.injEq] at h
    rw [← h.1]
  · simp only [ToolFunction.run, scanWifiTool, Option.some.injEq, Prod.mk.injEq] at h
    rw [← h.1]
  · simp only [ToolFunction.run, connectWifiTool, Option.some.injEq] at h
    split_ifs at h
    · rw [Prod.mk.injEq] at h; rw [← h.1]
    · rw [Prod.mk.injEq] at h; rw [← h.1]
  · simp only [ToolFunction.run, calibrateAdcTool] at h
    split at h
    · exact absurd h (by simp)
    · simp only [Option.some.injEq, Prod.mk.injEq] at h
      rw [← h.1]
  · simp only [ToolFunction.run, Option.some.injEq, Prod.mk.injEq] at h
    rw [← h.1]
  · simp only [ToolFunction.run, registerCopilotTool, Option.some.injEq, Prod.mk.injEq] at h
    rw [← h.1]
  · simp only [ToolFunction.run, printToSerial, Option.some.injEq] at h
    split_ifs at h
    · rw [Prod.mk.injEq] at h; rw [← h.1]
    · rw [Prod.mk.injEq] at h; rw [← h.1]

/-- Only the tool function `calibrateAdcTool` can fail to return, and it does so
only when `calibrateADC` does. -/
theorem toolFunction_run_none {F : Type} [Div F] [IntCast F] (f : ToolFunction)
    (s : McpServer F) (params : ToolParams) (resources : List Resource) (env : WifiEnv)
    (outcomes1 outcomes2 : List (Option Int))
    (h : f.run s params resources env outcomes1 outcomes2 = none) :
    f = ToolFunction.calibrateAdcTool ∧ calibrateADC s.g outcomes1 outcomes2 = none := by
  cases f
  · simp [ToolFunction.run] at h
  · simp [ToolFunction.run] at h
  · simp [ToolFunction.run] at h
  · refine ⟨rfl, ?_⟩
    simp only [ToolFunction.run, calibrateAdcTool] at h
    split at h
    · assumption
    · exact absurd h (by simp)
  · simp [ToolFunction.run] at h
  · simp [ToolFunction.run] at h
  · simp [ToolFunction.run] at h

/-- A search with `strEqual` finds nothing exactly when no entry has the name. -/
theorem find_strEqual_none {α : Type} (l : List α) (name : α → Str) (uri : Str) :
    l.find? (fun r => strEqual (some (name r)) (some uri)) = none ↔ ∀ r ∈ l, name r ≠ uri := by
  rw [List.find?_eq_none]
  constructor
  · intro h r hr he
    exact h r hr (by simp [strEqual, he])
  · intro h r hr
    simp [strEqual, h r hr]

/-- The outcome of `handleMcpRequest` for a request that has the members
`method` and `id`: the call fails to return only inside the tool
`adc.calibrate`; otherwise one text is sent to the client, with the `id` of the
request and either a result or an error object with the code 400 or 404. -/
theorem handleMcpRequest_shape {F : Type} [Div F] [IntCast F] (s : McpServer F)
    (clientId : Nat) (request : McpRequest) (resources : List Resource) (tools : List Tool)
    (now : Nat) (env : WifiEnv) (outcomes1 outcomes2 : List (Option Int))
    (hm : request.hasMethod = true) (hi : request.hasId = true) :
    (handleMcpRequest s clientId request resources tools now env outcomes1 outcomes2 = none ∧
      request.method = "tool.execute".toList ∧
      calibrateADC s.g outcomes1 outcomes2 = none ∧
      ∃ t ∈ tools, t.uri = request.uriString ∧ t.execute = ToolFunction.calibrateAdcTool) ∨
    ∃ s1 text,
      handleMcpRequest s clientId request resources tools now env outcomes1 outcomes2
        = some (sendTXT s1 clientId text) ∧
      s1.socketSent = s.socketSent ∧ text.id? = some request.id ∧
      (text.isResult = true ∨ text.code? = some 400 ∨ text.code? = some 404) := by
  have hg : ¬ (request.hasMethod = false ∨ request.hasId = false) := by simp [hm, hi]
  unfold handleMcpRequest
  rw [if_neg hg]
  simp only []
  by_cases h1 : request.method = "initialize".toList
  · rw [if_pos h1]
    exact Or.inr ⟨s, _, rfl, rfl, rfl, Or.inl rfl⟩
  rw [if_neg h1]
  by_cases h2 : request.method = "resources.list".toList
  · rw [if_pos h2]
    exact Or.inr ⟨s, _, rfl, rfl, rfl, Or.inl rfl⟩
  rw [if_neg h2]
  by_cases h3 : request.method = "resource.read".toList
  · rw [if_pos h3]
    split_ifs
    · exact Or.inr ⟨s, _, rfl, rfl, rfl, Or.inr (Or.inl rfl)⟩
    · split
      · exact Or.inr ⟨s, _, rfl, rfl, rfl, Or.inl rfl⟩
      · exact Or.inr ⟨s, _, rfl, rfl, rfl, Or.inr (Or.inr rfl)⟩
  rw [if_neg h3]
  by_cases h4 : request.method = "subscribe".toList
  · rw [if_pos h4]
    split_ifs
    · exact Or.inr ⟨s, _, rfl, rfl, rfl, Or.inr (Or.inl rfl)⟩
    · exact Or.inr ⟨s, _, rfl, rfl, rfl, Or.inr (Or.inr rfl)⟩
    · exact Or.inr ⟨_, _, rfl, rfl, rfl, Or.inl rfl⟩
  rw [if_neg h4]
  by_cases h5 : request.method = "unsubscribe".toList
  · rw [if_pos h5]
    split_ifs
    · exact Or.inr ⟨s, _, rfl, rfl, rfl, Or.inr (Or.inl rfl)⟩
    · refine Or.inr ⟨_, _, rfl, ?_, rfl, Or.inl rfl⟩
      split <;> rfl
  rw [if_neg h5]
  by_cases h6 : request.method = "tool.execute".toList
  · rw [if_pos h6]
    by_cases hu : request.hasParams = false ∨ request.hasUri = false
    · rw [if_pos hu]
      exact Or.inr ⟨s, _, rfl, rfl, rfl, Or.inr (Or.inl rfl)⟩
    · rw [if_neg hu]
      generalize (if request.hasToolParams = true then request.toolParams else noToolParams)
        = toolParams
      split
      · rename_i t hfind
        split
        · rename_i hrun
          have hn := toolFunction_run_none _ _ _ _ _ _ _ hrun
          have ht := List.find?_some hfind
          simp only [strEqual, beq_iff_eq] at ht
          exact Or.inl ⟨rfl, h6, hn.2, t, List.mem_of_find?_eq_some hfind, ht, hn.1⟩
        · rename_i s1 result hrun
          exact Or.inr ⟨s1, _, rfl, toolFunction_run_socketSent _ _ _ _ _ _ _ _ _ hrun, rfl,
            Or.inl rfl⟩
      · exact Or.inr ⟨s, _, rfl, rfl, rfl, Or.inr (Or.inr rfl)⟩
  rw [if_neg h6]
  exact Or.inr ⟨s, _, rfl, rfl, rfl, Or.inr (Or.inl rfl)⟩

/-- A request with `method` and `id` whose method takes a `uri` and whose `uri`
is missing gets the error 400 `Missing URI parameter`. -/
theorem handleMcpRequest_missing_uri {F : Type} [Div F] [IntCast F] (s : McpServer F)
    (clientId : Nat) (request : McpRequest) (resources : List Resource) (tools : List Tool)
    (now : Nat) (env : WifiEnv) (outcomes1 outcomes2 : List (Option Int))
    (hm : request.hasMethod = true) (hi : request.hasId = true)
    (hmethod : request.method ∈ ["resource.read".toList, "subscribe".toList,
      "unsubscribe".toList, "tool.execute".toList])
    (hu : request.hasParams = false ∨ request.hasUri = false) :
    handleMcpRequest s clientId request resources tools now env outcomes1 outcomes2
      = some (sendTXT s clientId
          (SocketText.error request.id 400 "Missing URI parameter".toList)) := by
  have hg : ¬ (request.hasMethod = false ∨ request.hasId = false) := by simp [hm, hi]
  unfold handleMcpRequest
  rw [if_neg hg]
  simp only []
  simp only [List.mem_cons, List.mem_singleton, List.not_mem_nil, or_false] at hmethod
  rcases hmethod with h | h | h | h
  · rw [if_neg (by rw [h]; decide), if_neg (by rw [h]; decide), if_pos h, if_pos hu]
  · rw [if_neg (by rw [h]; decide), if_neg (by rw [h]; decide), if_neg (by rw [h]; decide),
      if_pos h, if_pos hu]
  · rw [if_neg (by rw [h]; decide), if_neg (by rw [h]; decide), if_neg (by rw [h]; decide),
      if_neg (by rw [h]; decide), if_pos h, if_pos hu]
  · rw [if_neg (by rw [h]; decide), if_neg (by rw [h]; decide), if_neg (by rw [h]; decide),
      if_neg (by rw [h]; decide), if_neg (by rw [h]; decide), if_pos h, if_pos hu]

/-- A request with `method` and `id` whose method is none of the six known
ones gets the error 400 `Unknown method`. -/
theorem handleMcpRequest_unknown_method {F : Type} [Div F] [IntCast F] (s : McpServer F)
    (clientId : Nat) (request : McpRequest) (resources : List Resource) (tools : List Tool)
    (now : Nat) (env : WifiEnv) (outcomes1 outcomes2 : List (Option Int))
    (hm : request.hasMethod = true) (hi : request.hasId = true)
    (hmethod : request.method ∉ ["initialize".toList, "resources.list".toList,
      "resource.read".toList, "subscribe".toList, "unsubscribe".toList,
      "tool.execute".toList]) :
    handleMcpRequest s clientId request resources tools now env outcomes1 outcomes2
      = some (sendTXT s clientId (SocketText.error request.id 400 "Unknown method".toList)) := by
  have hg : ¬ (request.hasMethod = false ∨ request.hasId = false) := by simp [hm, hi]
  simp only [List.mem_cons, List.mem_singleton, List.not_mem_nil, or_false, not_or] at hmethod
  obtain ⟨h1, h2, h3, h4, h5, h6⟩ := hmethod
  unfold handleMcpRequest
  rw [if_neg hg]
  simp only []
  rw [if_neg h1, if_neg h2, if_neg h3, if_neg h4, if_neg h5, if_neg h6]

/-- A `resource.read` or `subscribe` request whose `uri` names no registered
resource, and a `tool.execute` request whose `uri` names no registered tool, get
the error 404. -/
theorem handleMcpRequest_not_found {F : Type} [Div F] [IntCast F] (s : McpServer F)
    (clientId : Nat) (request : McpRequest) (resources : List Resource) (tools : List Tool)
    (now : Nat) (env : WifiEnv) (outcomes1 outcomes2 : List (Option Int))
    (hm : request.hasMethod = true) (hi : request.hasId = true)
    (hp : request.hasParams = true) (hu : request.hasUri = true) :
    (request.method = "resource.read".toList →
      (∀ r ∈ resources, r.uri ≠ request.uriCStr.getD []) →
      handleMcpRequest s clientId request resources tools now env outcomes1 outcomes2
        = some (sendTXT s clientId
            (SocketText.error request.id 404 "Resource not found".toList))) ∧
    (request.method = "subscribe".toList →
      (∀ r ∈ resources, some r.uri ≠ request.uriCStr) →
      handleMcpRequest s clientId request resources tools now env outcomes1 outcomes2
        = some (sendTXT s clientId
            (SocketText.error request.id 404 "Resource not found".toList))) ∧
    (request.method = "tool.execute".toList →
      (∀ t ∈ tools, t.uri ≠ request.uriString) →
      handleMcpRequest s clientId request resources tools now env outcomes1 outcomes2
        = some (sendTXT s clientId (SocketText.error request.id 404 "Tool not found".toList))) := by
  have hg : ¬ (request.hasMethod = false ∨ request.hasId = false) := by simp [hm, hi]
  have hpu : ¬ (request.hasParams = false ∨ request.hasUri = false) := by simp [hp, hu]
  refine ⟨fun h hall => ?_, fun h hall => ?_, fun h hall => ?_⟩
  · unfold handleMcpRequest
    rw [if_neg hg]
    simp only []
    rw [if_neg (by rw [h]; decide), if_neg (by rw [h]; decide), if_pos h, if_neg hpu,
      (find_strEqual_none resources (fun r => r.uri) _).mpr hall]
  · have hany : resources.any (fun r => strEqual (some r.uri) request.uriCStr) = false := by
      rw [List.any_eq_false]
      intro r hr
      cases hc : request.uriCStr with
      | none => simp [strEqual]
      | some u =>
        have := hall r hr
        rw [hc] at this
        simp only [strEqual, beq_iff_eq]
        exact fun he => this (by rw [he])
    unfold handleMcpRequest
    rw [if_neg hg]
    simp only []
    rw [if_neg (by rw [h]; decide), if_neg (by rw [h]; decide), if_neg (by rw [h]; decide),
      if_pos h, if_neg hpu, if_pos hany]
  · unfold handleMcpRequest
    rw [if_neg hg]
    simp only []
    rw [if_neg (by rw [h]; decide), if_neg (by rw [h]; decide), if_neg (by rw [h]; decide),
      if_neg (by rw [h]; decide), if_neg (by rw [h]; decide), if_pos h, if_neg hpu,
      (find_strEqual_none tools (fun t => t.uri) _).mpr hall]

/-- Claim C11 fails as stated. The request object whose only member is `id`,
the number 7, and the request object whose only member is `method`, the string
`initialize`, each get the one text whose only member is `error`, the string
`Invalid request format`: it has no `id`, no `result` and no error object with
a code. -/
theorem request_without_method_or_id_gets_plain_error :
    (handleMcpRequest sampleServer 2 (idOnlyRequest 7) (sampleResources "on".toList)
        registeredTools 0 sampleWifiEnv [] []).map (fun s1 => s1.socketSent)
      = some [(2, SocketText.invalidRequestFormat)] ∧
    (handleMcpRequest sampleServer 2
        { emptyRequest with hasMethod := true, method := "initialize".toList }
        (sampleResources "on".toList) registeredTools 0 sampleWifiEnv [] []).map
        (fun s1 => s1.socketSent)
      = some [(2, SocketText.invalidRequestFormat)] ∧
    SocketText.invalidRequestFormat.id? ≠ some 7 ∧
    SocketText.invalidRequestFormat.isResult = false ∧
    SocketText.invalidRequestFormat.code? = none := by
  refine ⟨by decide, by decide, by decide, by decide, by decide⟩

/-- Claim C11, amended. A request object that lacks the member `method` or the
member `id` gets exactly one text, whose only member is `error`, the string
`Invalid request format`. For a request object that has both: unless the
request runs the tool `adc.calibrate` and `calibrateADC` does not return,
`handleMcpRequest` returns having sent exactly one text to the requesting
client, which carries the `id` of the request (as converted to `int`) and either
a result or an error object with the code 400 or 404; the code is 400 with
`Missing URI parameter` when the method is `resource.read`, `subscribe`,
`unsubscribe` or `tool.execute` and `params` or its `uri` is missing, and 400
with `Unknown method` when the method is none of the six known ones; it is 404
when the `uri` is there and names no registered resource (`resource.read`,
`subscribe`) or no registered tool (`tool.execute`). -/
theorem handleMcpRequest_one_response {F : Type} [Div F] [IntCast F] (s : McpServer F)
    (clientId : Nat) (request : McpRequest) (resources : List Resource) (tools : List Tool)
    (now : Nat) (env : WifiEnv) (outcomes1 outcomes2 : List (Option Int)) :
    (request.hasMethod = false ∨ request.hasId = false →
      handleMcpRequest s clientId request resources tools now env outcomes1 outcomes2
        = some (sendTXT s clientId SocketText.invalidRequestFormat)) ∧
    (request.hasMethod = true → request.hasId = true →
      ((calibrateADC s.g outcomes1 outcomes2 ≠ none
          ∨ request.method ≠ "tool.execute".toList
          ∨ ∀ t ∈ tools, t.uri = request.uriString →
              t.execute ≠ ToolFunction.calibrateAdcTool) →
        ∃ s1 text,
          handleMcpRequest s clientId request resources tools now env outcomes1 outcomes2
            = some s1 ∧
          s1.socketSent = s.socketSent ++ [(clientId, text)] ∧
          text.id? = some request.id ∧
          (text.isResult = true ∨ text.code? = some 400 ∨ text.code? = some 404)) ∧
      (request.method ∈ ["resource.read".toList, "subscribe".toList, "unsubscribe".toList,
          "tool.execute".toList] →
        request.hasParams = false ∨ request.hasUri = false →
        handleMcpRequest s clientId request resources tools now env outcomes1 outcomes2
          = some (sendTXT s clientId
              (SocketText.error request.id 400 "Missing URI parameter".toList))) ∧
      (request.method ∉ ["initialize".toList, "resources.list".toList, "resource.read".toList,
          "subscribe".toList, "unsubscribe".toList, "tool.execute".toList] →
        handleMcpRequest s clientId request resources tools now env outcomes1 outcomes2
          = some (sendTXT s clientId
              (SocketText.error request.id 400 "Unknown method".toList))) ∧
      (request.hasParams = true → request.hasUri = true →
        (request.method = "resource.read".toList →
          (∀ r ∈ resources, r.uri ≠ request.uriCStr.getD []) →
          handleMcpRequest s clientId request resources tools now env outcomes1 outcomes2
            = some (sendTXT s clientId
                (SocketText.error request.id 404 "Resource not found".toList))) ∧
        (request.method = "subscribe".toList →
          (∀ r ∈ resources, some r.uri ≠ request.uriCStr) →
          handleMcpRequest s clientId request resources tools now env outcomes1 outcomes2
            = some (sendTXT s clientId
                (SocketText.error request.id 404 "Resource not found".toList))) ∧
        (request.method = "tool.execute".toList →
          (∀ t ∈ tools, t.uri ≠ request.uriString) →
          handleMcpRequest s clientId request resources tools now env outcomes1 outcomes2
            = some (sendTXT s clientId
                (SocketText.error request.id 404 "Tool not found".toList))))) := by
  refine ⟨fun h => ?_, fun hm hi => ⟨fun hret => ?_, ?_, ?_, ?_⟩⟩
  · unfold handleMcpRequest
    rw [if_pos h]
  · rcases handleMcpRequest_shape s clientId request resources tools now env outcomes1
        outcomes2 hm hi with ⟨_, hmethod, hcal, t, ht, huri, hexec⟩ | ⟨s1, text, h1, h2, h3, h4⟩
    · rcases hret with hr | hr | hr
      · exact absurd hcal hr
      · exact absurd hmethod hr
      · exact absurd hexec (hr t ht huri)
    · refine ⟨_, text, h1, ?_, h3, h4⟩
      show s1.socketSent ++ [(clientId, text)] = _
      rw [h2]
  · exact handleMcpRequest_missing_uri s clientId request resources tools now env outcomes1
      outcomes2 hm hi
  · exact handleMcpRequest_unknown_method s clientId request resources tools now env outcomes1
      outcomes2 hm hi
  · exact handleMcpRequest_not_found s clientId request resources tools now env outcomes1
      outcomes2 hm hi

/-- Witness of `handleMcpRequest_one_response`: the request with the only member
`id` gets the plain error; the request `resource.read` with id 7 for `relay.9`,
which is not registered, gets one text with id 7 and the code 404; the same
request without `params` gets the code 400. -/
theorem handleMcpRequest_one_response_witness :
    handleMcpRequest sampleServer 2 (idOnlyRequest 7) (sampleResources "on".toList)
        registeredTools 0 sampleWifiEnv [] []
      = some (sendTXT sampleServer 2 SocketText.invalidRequestFormat) ∧
    handleMcpRequest sampleServer 2 (uriRequest "resource.read".toList 7 "relay.9".toList)
        (sampleResources "on".toList) registeredTools 0 sampleWifiEnv [] []
      = some (sendTXT sampleServer 2
          (SocketText.error 7 404 "Resource not found".toList)) ∧
    handleMcpRequest sampleServer 2 (methodRequest "resource.read".toList 7)
        (sampleResources "on".toList) registeredTools 0 sampleWifiEnv [] []
      = some (sendTXT sampleServer 2
          (SocketText.error 7 400 "Missing URI parameter".toList)) ∧
    ∃ s1 text,
      handleMcpRequest sampleServer 2 (uriRequest "resource.read".toList 7 "relay.9".toList)
        (sampleResources "on".toList) registeredTools 0 sampleWifiEnv [] [] = some s1 ∧
      s1.socketSent = sampleServer.socketSent ++ [(2, text)] ∧
      text.id? = some 7 ∧
      (text.isResult = true ∨ text.code? = some 400 ∨ text.code? = some 404) :=
  ⟨(handleMcpRequest_one_response sampleServer 2 (idOnlyRequest 7)
      (sampleResources "on".toList) registeredTools 0 sampleWifiEnv [] []).1
      (Or.inl (by decide)),
   ((handleMcpRequest_one_response sampleServer 2
      (uriRequest "resource.read".toList 7 "relay.9".toList)
      (sampleResources "on".toList) registeredTools 0 sampleWifiEnv [] []).2
      (by decide) (by decide)).2.2.2 (by decide) (by decide) |>.1 (by decide) (by decide),
   ((handleMcpRequest_one_response sampleServer 2 (methodRequest "resource.read".toList 7)
      (sampleResources "on".toList) registeredTools 0 sampleWifiEnv [] []).2
      (by decide) (by decide)).2.1 (by decide) (Or.inl (by decide)),
   ((handleMcpRequest_one_response sampleServer 2
      (uriRequest "resource.read".toList 7 "relay.9".toList)
      (sampleResources "on".toList) registeredTools 0 sampleWifiEnv [] []).2
      (by decide) (by decide)).1 (Or.inr (Or.inl (by decide)))⟩

/-! ## Theorems: the sampling period and the relay functions -/

/-- Claim C22. For every interval `v`, after `setSamplingInterval(v)` the
function `getSamplingInterval` returns `v` if `5 ≤ v ≤ 1000` and the value it
returned before otherwise. From the initial period 17 the intervals 123, 10 and
1000 are stored, the intervals 2 and 1001 are not, and after 123 has been
stored the intervals 2 and 1001 leave 123 in place. -/
theorem setSamplingInterval_stores_in_range {F : Type} (g : Globals F) (v : Nat) :
    getSamplingInterval (setSamplingInterval g v)
      = (if 5 ≤ v ∧ v ≤ 1000 then v else getSamplingInterval g) ∧
    getSamplingInterval (setSamplingInterval sampleGlobals 123) = 123 ∧
    getSamplingInterval (setSamplingInterval sampleGlobals 10) = 10 ∧
    getSamplingInterval (setSamplingInterval sampleGlobals 1000) = 1000 ∧
    getSamplingInterval (setSamplingInterval sampleGlobals 2) = 17 ∧
    getSamplingInterval (setSamplingInterval sampleGlobals 1001) = 17 ∧
    getSamplingInterval (setSamplingInterval (setSamplingInterval sampleGlobals 123) 2) = 123 ∧
    getSamplingInterval (setSamplingInterval (setSamplingInterval sampleGlobals 123) 1001)
      = 123 := by
  refine ⟨?_, by decide, by decide, by decide, by decide, by decide, by decide, by decide⟩
  unfold setSamplingInterval getSamplingInterval
  by_cases h : v ≥ 5 ∧ v ≤ 1000
  · rw [if_pos h, if_pos h]
  · rw [if_neg h, if_neg h]

/-- The entries of `relayPins` differ from the pin of the feedback LED. -/
theorem relayPins_ne_feedback (i : Nat) : relayPins.getD i 0 ≠ relayFeedbackLedPin := by
  have h : ∀ p ∈ (0 :: relayPins), p ≠ relayFeedbackLedPin := by decide
  apply h
  unfold List.getD
  cases hi : relayPins.get? i with
  | none => simp
  | some p =>
    simp only [Option.getD_some]
    exact List.mem_cons_of_mem _ (List.get?_mem hi)

/-- The function `blinkRelayFeedback` changes the level of the feedback LED pin
only, and leaves it low. -/
theorem blinkRelayFeedback_frame {F : Type} (g : Globals F) :
    (blinkRelayFeedback g).relayStates = g.relayStates ∧
    (blinkRelayFeedback g).prefs = g.prefs ∧
    (blinkRelayFeedback g).pinLevel relayFeedbackLedPin = false ∧
    ∀ p, p ≠ relayFeedbackLedPin → (blinkRelayFeedback g).pinLevel p = g.pinLevel p := by
  refine ⟨rfl, rfl, ?_, fun p hp => ?_⟩
  · simp [blinkRelayFeedback, digitalWrite]
  · simp [blinkRelayFeedback, digitalWrite, Function.update_noteq hp]

/-- Claim C24. For an index within 0..3, `toggleRelay` negates the relay state
of that index and leaves every other relay state unchanged, and applied twice
it restores the vector of relay states; for an index outside 0..3 it changes
nothing. -/
theorem toggleRelay_negates {F : Type} (g : Globals F) (index : Int) :
    (0 ≤ index ∧ index < 4 →
      (toggleRelay g index).relayStates index.toNat = !g.relayStates index.toNat ∧
      (∀ j, j ≠ index.toNat → (toggleRelay g index).relayStates j = g.relayStates j) ∧
      (toggleRelay (toggleRelay g index) index).relayStates = g.relayStates) ∧
    (¬ (0 ≤ index ∧ index < 4) → toggleRelay g index = g) := by
  constructor
  · intro h
    have hg : index ≥ 0 ∧ index < 4 := h
    have h1 : (toggleRelay g index).relayStates
        = Function.update g.relayStates index.toNat (!g.relayStates index.toNat) := by
      unfold toggleRelay
      rw [if_pos hg]
      exact (blinkRelayFeedback_frame _).1
    refine ⟨?_, fun j hj => ?_, ?_⟩
    · rw [h1, Function.update_same]
    · rw [h1, Function.update_noteq hj]
    · have h2 : (toggleRelay (toggleRelay g index) index).relayStates
          = Function.update (toggleRelay g index).relayStates index.toNat
              (!(toggleRelay g index).relayStates index.toNat) := by
        conv_lhs => unfold toggleRelay
        rw [if_pos hg]
        exact (blinkRelayFeedback_frame _).1
      rw [h2, h1]
      funext j
      by_cases hj : j = index.toNat
      · subst hj
        simp
      · simp [Function.update_noteq hj]
  · intro h
    have hg : ¬ (index ≥ 0 ∧ index < 4) := h
    unfold toggleRelay
    rw [if_neg hg]

/-- Witness of `toggleRelay_negates`: on the sample device, relay 0 is on after
one toggle and off again after two, and the index 4 changes nothing. -/
theorem toggleRelay_negates_witness :
    (toggleRelay sampleGlobals 0).relayStates 0 = true ∧
    (toggleRelay (toggleRelay sampleGlobals 0) 0).relayStates = sampleGlobals.relayStates ∧
    toggleRelay sampleGlobals 4 = sampleGlobals :=
  ⟨((toggleRelay_negates sampleGlobals 0).1 (by decide)).1,
   ((toggleRelay_negates sampleGlobals 0).1 (by decide)).2.2,
   (toggleRelay_negates sampleGlobals 4).2 (by decide)⟩

/-- Claim C25. For an index within 0..3 and a boolean `state`, after
`setRelay(index, state)` the relay state of that index is `state`, the level
written to the pin `relayPins[index]` is high exactly when `state` is true, and
every other relay state is unchanged; for an index outside 0..3 `setRelay`
changes nothing: no relay state and no pin level. -/
theorem setRelay_sets {F : Type} (g : Globals F) (index : Int) (state : Bool) :
    (0 ≤ index ∧ index < 4 →
      (setRelay g index state).relayStates index.toNat = state ∧
      (setRelay g index state).pinLevel (relayPins.getD index.toNat 0) = state ∧
      (∀ j, j ≠ index.toNat → (setRelay g index state).relayStates j = g.relayStates j)) ∧
    (¬ (0 ≤ index ∧ index < 4) → setRelay g index state = g) := by
  constructor
  · intro h
    have hg : index ≥ 0 ∧ index < 4 := h
    unfold setRelay
    rw [if_pos hg]
    simp only []
    refine ⟨?_, ?_, fun j hj => ?_⟩
    · rw [(blinkRelayFeedback_frame _).1]
      simp [digitalWrite]
    · rw [(blinkRelayFeedback_frame _).2.2.2 _ (relayPins_ne_feedback _)]
      simp [digitalWrite]
    · rw [(blinkRelayFeedback_frame _).1]
      simp [digitalWrite, Function.update_noteq hj]
  · intro h
    have hg : ¬ (index ≥ 0 ∧ index < 4) := h
    unfold setRelay
    rw [if_neg hg]

/-- Witness of `setRelay_sets`: on the sample device `setRelay(1, true)` turns
relay 1 on and drives pin 27 high, and the index -1 changes nothing. -/
theorem setRelay_sets_witness :
    (setRelay sampleGlobals 1 true).relayStates 1 = true ∧
    (setRelay sampleGlobals 1 true).pinLevel 27 = true ∧
    setRelay sampleGlobals (-1) true = sampleGlobals :=
  ⟨((setRelay_sets sampleGlobals 1 true).1 (by decide)).1,
   ((setRelay_sets sampleGlobals 1 true).1 (by decide)).2.1,
   (setRelay_sets sampleGlobals (-1) true).2 (by decide)⟩

/-! ## Theorems: the disconnect of a client -/

/-- In every reachable state the slots at and above the counter are
inactive. -/
theorem McpReachable.unused_inactive {st : McpState} (h : McpReachable st) :
    ∀ k, st.subscriptionCount ≤ k → (st.subscriptions k).active = false := by
  induction h with
  | init => intro k _; rfl
  | @add st clientId uri now _ ih =>
    intro k hk
    cases hf : findSubscription st clientId uri with
    | some j =>
      have he : addSubscription st clientId uri now = st := by
        unfold addSubscription
        rw [hf]
      rw [he] at hk ⊢
      exact ih k hk
    | none =>
      rcases addSubscription_cases st clientId uri now hf with
        ⟨j, hj, _, he⟩ | ⟨_, _, he⟩ | ⟨_, _, he⟩
      · rw [he] at hk ⊢
        simp only at hk ⊢
        rw [Function.update_noteq (by omega)]
        exact ih k hk
      · rw [he] at hk ⊢
        simp only at hk ⊢
        rw [Function.update_noteq (by omega)]
        exact ih k (by omega)
      · rw [he] at hk ⊢
        exact ih k hk
  | @remove st clientId uri _ ih =>
    intro k hk
    rw [removeSubscription_count] at hk
    unfold removeSubscription
    cases hf : findSubscription st clientId uri with
    | some j =>
      simp only
      by_cases hkj : k = j
      · subst hkj
        rw [Function.update_same]
      · rw [Function.update_noteq hkj]
        exact ih k hk
    | none => exact ih k hk
  | @removeAll st clientId _ ih =>
    intro k hk
    rw [removeAllSubscriptions_count] at hk
    rw [removeAllSubscriptions_slot]
    split_ifs
    · rfl
    · exact ih k hk
  | @check st resources now _ ih =>
    intro k hk
    rw [checkSubscriptions_count] at hk
    by_cases ht : 200 ≤ ulongSub now st.lastCheck
    · rw [checkSubscriptions_eq resources st now ht]
      simp only
      rw [if_neg (by omega)]
      exact ih k hk
    · have he : checkSubscriptions resources st now = st := by
        unfold checkSubscriptions
        rw [if_pos (by omega)]
      rw [he]
      exact ih k hk

/-- Claim C21. The disconnect event of the client `c` changes the subscription
table through `removeAllSubscriptions(c)`. After that call the counter is
unchanged; no slot in use holds an active subscription of `c`, and in a
reachable table no slot at all does; every slot whose client id is not `c` is
unchanged; and a slot of `c` in use keeps its client id, uri, time and last
value and only loses its active flag. -/
theorem removeAllSubscriptions_deactivates {F : Type} (s : McpServer F) (st : McpState)
    (c : Nat) :
    (webSocketDisconnected s c).mcp = removeAllSubscriptions s.mcp c ∧
    (removeAllSubscriptions st c).subscriptionCount = st.subscriptionCount ∧
    (∀ k, k < st.subscriptionCount →
      ((removeAllSubscriptions st c).subscriptions k).active = true →
      ((removeAllSubscriptions st c).subscriptions k).clientId ≠ c) ∧
    (McpReachable st → ∀ k,
      ((removeAllSubscriptions st c).subscriptions k).active = true →
      ((removeAllSubscriptions st c).subscriptions k).clientId ≠ c) ∧
    (∀ k, (st.subscriptions k).clientId ≠ c →
      (removeAllSubscriptions st c).subscriptions k = st.subscriptions k) ∧
    (∀ k, k < st.subscriptionCount → (st.subscriptions k).clientId = c →
      (removeAllSubscriptions st c).subscriptions k
        = { st.subscriptions k with active := false }) := by
  have hin : ∀ k, k < st.subscriptionCount →
      ((removeAllSubscriptions st c).subscriptions k).active = true →
      ((removeAllSubscriptions st c).subscriptions k).clientId ≠ c := by
    intro k hk ha
    rw [removeAllSubscriptions_slot] at ha ⊢
    by_cases hc : (st.subscriptions k).clientId = c
    · rw [if_pos ⟨hk, hc⟩] at ha
      exact absurd ha (by simp)
    · rw [if_neg (fun h => hc h.2)]
      exact hc
  refine ⟨?_, removeAllSubscriptions_count st c, hin, fun hr k ha => ?_, fun k hc => ?_,
    fun k hk hc => ?_⟩
  · unfold webSocketDisconnected
    simp only []
    split_ifs <;> rfl
  · by_cases hk : k < st.subscriptionCount
    · exact hin k hk ha
    · have hu := hr.unused_inactive k (by omega)
      rw [removeAllSubscriptions_slot, if_neg (fun h => hk h.1)] at ha
      rw [hu] at ha
      exact absurd ha (by simp)
  · rw [removeAllSubscriptions_slot, if_neg (fun h => hc h.2)]
  · rw [removeAllSubscriptions_slot, if_pos ⟨hk, hc⟩]

/-- Witness of `removeAllSubscriptions_deactivates`: in the table where client 3
holds the subscription in slot 0, the disconnect of client 3 leaves the counter
at 1 and slot 0 inactive, and the disconnect of client 4 leaves slot 0 as it
is. -/
theorem removeAllSubscriptions_deactivates_witness :
    (removeAllSubscriptions sampleSubscribed 3).subscriptionCount = 1 ∧
    (removeAllSubscriptions sampleSubscribed 3).subscriptions 0
      = { sampleSubscribed.subscriptions 0 with active := false } ∧
    (removeAllSubscriptions sampleSubscribed 4).subscriptions 0
      = sampleSubscribed.subscriptions 0 ∧
    (∀ k, ((removeAllSubscriptions sampleSubscribed 3).subscriptions k).active = true →
      ((removeAllSubscriptions sampleSubscribed 3).subscriptions k).clientId ≠ 3) :=
  ⟨(removeAllSubscriptions_deactivates sampleServer sampleSubscribed 3).2.1.trans (by decide),
   (removeAllSubscriptions_deactivates sampleServer sampleSubscribed 3).2.2.2.2.2 0
     (by decide) (by decide),
   (removeAllSubscriptions_deactivates sampleServer sampleSubscribed 4).2.2.2.2.1 0
     (by decide),
   (removeAllSubscriptions_deactivates sampleServer sampleSubscribed 3).2.2.2.1
     (McpReachable.add 3 "relay.0".toList 1000 McpReachable.init)⟩

/-! ## Theorems: the radio relay commands and the sampling period -/

/-- The function `calibrateADC` writes the two offsets and the bus trace only. -/
theorem calibrateADC_frame {F : Type} [Div F] [IntCast F] (g g1 : Globals F)
    (outcomes1 outcomes2 : List (Option Int)) (h : calibrateADC g outcomes1 outcomes2 = some g1) :
    g1.samplingIntervalStatic = g.samplingIntervalStatic ∧
    g1.samplingIntervalMs = g.samplingIntervalMs ∧
    g1.relayStates = g.relayStates ∧ g1.pinLevel = g.pinLevel ∧ g1.prefs = g.prefs ∧
    g1.shuntBuffer = g.shuntBuffer ∧ g1.ads2Buffer = g.ads2Buffer ∧
    g1.bufferIndex = g.bufferIndex := by
  unfold calibrateADC at h
  simp only [] at h
  split at h
  · cases h
  · rename_i g2 hstep
    have h2 : g2.samplingIntervalStatic = g.samplingIntervalStatic ∧
        g2.samplingIntervalMs = g.samplingIntervalMs ∧
        g2.relayStates = g.relayStates ∧ g2.pinLevel = g.pinLevel ∧ g2.prefs = g.prefs ∧
        g2.shuntBuffer = g.shuntBuffer ∧ g2.ads2Buffer = g.ads2Buffer ∧
        g2.bufferIndex = g.bufferIndex := by
      split at hstep
      · split at hstep
        · cases hstep
        · cases hstep
          exact ⟨rfl, rfl, rfl, rfl, rfl, rfl, rfl, rfl⟩
      · cases hstep
        exact ⟨rfl, rfl, rfl, rfl, rfl, rfl, rfl, rfl⟩
    split at h
    · split at h
      · cases h
      · cases h
        exact h2
    · cases h
      exact h2

/-- Claim C29. For every command written to the relay characteristic,
`RelayControlCallback::onWrite` returns with the value of `getSamplingInterval`
unchanged, unless the command is `CALIBRATE` and `calibrateADC` does not return.
On the sample device the command `SET_SAMPLING_RATE_50` is answered with
`ERROR:INVALID_PIN:0`, and both the period read by `getSamplingInterval` and the
global `samplingIntervalMs` stay 17. -/
theorem onWrite_keeps_sampling_interval {F : Type} [Div F] [IntCast F] (g : Globals F)
    (command : Str) (outcomes1 outcomes2 : List (Option Int)) :
    ((RelayControlCallback.onWrite g command outcomes1 outcomes2).map getSamplingInterval
        = some (getSamplingInterval g)
      ∨ (command = "CALIBRATE".toList ∧ calibrateADC g outcomes1 outcomes2 = none ∧
          RelayControlCallback.onWrite g command outcomes1 outcomes2 = none)) ∧
    (RelayControlCallback.onWrite sampleGlobals "SET_SAMPLING_RATE_50".toList [] []).map
        (fun g1 => (getSamplingInterval g1, g1.samplingIntervalMs, g1.relayNotifications))
      = some (17, 17, ["ERROR:INVALID_PIN:0".toList]) := by
  refine ⟨?_, by decide⟩
  have hn : ∀ (g0 : Globals F) (msg : Str),
      getSamplingInterval (notifyRelay g0 msg) = getSamplingInterval g0 := by
    intro g0 msg
    unfold notifyRelay getSamplingInterval
    split_ifs <;> rfl
  unfold RelayControlCallback.onWrite
  split
  · left
    rw [Option.map_some', hn]
  · by_cases h1 : command = "CALIBRATE".toList
    · rw [if_pos h1]
      cases hc : calibrateADC g outcomes1 outcomes2 with
      | none => exact Or.inr ⟨h1, rfl, rfl⟩
      | some g1 =>
        left
        simp only [Option.map_some', hn]
        exact congrArg some (calibrateADC_frame g g1 outcomes1 outcomes2 hc).1
    · rw [if_neg h1]
      left
      split_ifs
      · rw [Option.map_some', hn]
      · simp only []
        split
        · rfl
        · rw [Option.map_some', hn, hn]
          rfl
      · simp only []
        split
        · rfl
        · rw [Option.map_some', hn]
          rfl
      · simp only []
        split_ifs
        · rw [Option.map_some', hn]
          rfl
        · rfl
      · rfl

/-- A configured pin is found by the relay loops at an index below 4. -/
theorem relayIndex_of_validPin (pin : Int) (h : validPin pin = true) :
    ∃ i, i < 4 ∧ relayIndex pin = some i ∧ relayPins.getD i 0 = pin := by
  rcases (validPin_iff pin).mp h with h | h | h | h <;> subst h
  · exact ⟨0, by decide, by decide, by decide⟩
  · exact ⟨1, by decide, by decide, by decide⟩
  · exact ⟨2, by decide, by decide, by decide⟩
  · exact ⟨3, by decide, by decide, by decide⟩

/-- What `RelayControlCallback::onWrite` does with a command
`SET_<two digits>_<ON|OFF>` whose pin is found at index `i`. -/
theorem onWrite_set_eq {F : Type} [Div F] [IntCast F] (g : Globals F) (d1 d2 : Char)
    (h1 : d1.isDigit = true) (h2 : d2.isDigit = true) (state : Bool) (i : Nat)
    (outcomes1 outcomes2 : List (Option Int))
    (hv : validPin (((d1.toNat - 48) * 10 + (d2.toNat - 48) : Nat) : Int) = true)
    (hi : relayIndex (((d1.toNat - 48) * 10 + (d2.toNat - 48) : Nat) : Int) = some i) :
    RelayControlCallback.onWrite g ("SET_".toList ++ [d1, d2] ++ '_' :: onOff state)
        outcomes1 outcomes2
      = some (notifyRelay
          { g with
            relayStates := Function.update g.relayStates i state,
            pinLevel := Function.update (Function.update
              (Function.update g.pinLevel (relayPins.getD i 0) state)
              relayFeedbackLedPin true) relayFeedbackLedPin false,
            prefs := Function.update g.prefs ("relay".toList ++ intToStr i)
              (some (PrefValue.bool state)) }
          ("RELAY_UPDATE:".toList
            ++ intToStr (((d1.toNat - 48) * 10 + (d2.toNat - 48) : Nat) : Int)
            ++ ":".toList ++ onOff state)) := by
  have hstate : onOff state = "ON".toList ∨ onOff state = "OFF".toList := by
    cases state
    · exact Or.inr rfl
    · exact Or.inl rfl
  have hdec : decide (onOff state = "ON".toList) = state := by
    cases state <;> decide
  have hval : validateCommand ("SET_".toList ++ [d1, d2] ++ '_' :: onOff state) = .ok () := by
    rw [validateCommand_set_eq d1 d2 h1 h2, if_neg (not_not.mpr hv),
      if_neg (by
        intro hc
        rcases hstate with h | h
        · exact hc.1 h
        · exact hc.2 h)]
  have e1 : "SET_".toList ++ [d1, d2] ++ '_' :: onOff state
      = "SET_".toList ++ ([d1, d2] ++ '_' :: onOff state) := by simp
  have e2 : "SET_".toList ++ [d1, d2] ++ '_' :: onOff state
      = ("SET_".toList ++ [d1, d2] ++ ['_']) ++ onOff state := by simp
  have hsub : substring ("SET_".toList ++ [d1, d2] ++ '_' :: onOff state) 4 6 = [d1, d2] := by
    rw [e1]
    exact substring_append _ _ _ 4 6 rfl rfl
  have hfrom : substringFrom ("SET_".toList ++ [d1, d2] ++ '_' :: onOff state) 7 = onOff state := by
    rw [e2]
    exact substringFrom_append _ _ 7 rfl
  have hcal : ¬ ("SET_".toList ++ [d1, d2] ++ '_' :: onOff state = "CALIBRATE".toList) := by
    simp
  have hota : ¬ ("SET_".toList ++ [d1, d2] ++ '_' :: onOff state = "OTA".toList) := by
    simp
  have htog : startsWith ("SET_".toList ++ [d1, d2] ++ '_' :: onOff state) "TOGGLE_".toList
      = false := by
    simp [startsWith, List.isPrefixOf]
  have hset : startsWith ("SET_".toList ++ [d1, d2] ++ '_' :: onOff state) "SET_".toList
      = true := by
    simp [startsWith, List.isPrefixOf]
  unfold RelayControlCallback.onWrite
  rw [hval]
  simp only []
  rw [if_neg hcal, if_neg hota, htog, hset]
  simp only [Bool.false_eq_true, if_false, if_true, hsub, hfrom,
    toInt_two_digits d1 d2 h1 h2, hi, hdec, blinkRelayFeedback, digitalWrite,
    Function.update_same]

/-- The notification step changes the trace of notifications only. -/
theorem notifyRelay_frame {F : Type} (g : Globals F) (msg : Str) :
    (notifyRelay g msg).relayStates = g.relayStates ∧
    (notifyRelay g msg).pinLevel = g.pinLevel ∧
    (notifyRelay g msg).prefs = g.prefs := by
  unfold notifyRelay
  split_ifs <;> exact ⟨rfl, rfl, rfl⟩

/-- Claim C23. For a command `SET_<pin>_<ON|OFF>` whose pin, written with two
digits, is a configured pin: `RelayControlCallback::onWrite` returns on the
first and on the second application; after the first the relay state of the
pin's index `i`, the level of the pin and the persisted key `relay<i>` all hold
the commanded state; and after the second the relay states, the pin levels and
the persisted keys are the same as after the first, the key `relay<i>` holding
the commanded state again. -/
theorem set_command_twice {F : Type} [Div F] [IntCast F] (g : Globals F) (d1 d2 : Char)
    (h1 : d1.isDigit = true) (h2 : d2.isDigit = true) (state : Bool)
    (outcomes1 outcomes2 : List (Option Int))
    (hv : validPin (((d1.toNat - 48) * 10 + (d2.toNat - 48) : Nat) : Int) = true) :
    ∃ i g1 g2, i < 4 ∧
      relayPins.getD i 0 = (((d1.toNat - 48) * 10 + (d2.toNat - 48) : Nat) : Int) ∧
      RelayControlCallback.onWrite g ("SET_".toList ++ [d1, d2] ++ '_' :: onOff state)
        outcomes1 outcomes2 = some g1 ∧
      RelayControlCallback.onWrite g1 ("SET_".toList ++ [d1, d2] ++ '_' :: onOff state)
        outcomes1 outcomes2 = some g2 ∧
      g1.relayStates i = state ∧
      g1.pinLevel (relayPins.getD i 0) = state ∧
      g1.prefs ("relay".toList ++ intToStr i) = some (PrefValue.bool state) ∧
      g2.relayStates = g1.relayStates ∧
      g2.pinLevel = g1.pinLevel ∧
      g2.prefs = g1.prefs ∧
      g2.prefs ("relay".toList ++ intToStr i) = some (PrefValue.bool state) := by
  obtain ⟨i, hi4, hidx, hpin⟩ := relayIndex_of_validPin _ hv
  have hne := relayPins_ne_feedback i
  have e1 := onWrite_set_eq g d1 d2 h1 h2 state i outcomes1 outcomes2 hv hidx
  refine ⟨i, _, _, hi4, hpin, e1,
    onWrite_set_eq _ d1 d2 h1 h2 state i outcomes1 outcomes2 hv hidx, ?_, ?_, ?_, ?_, ?_, ?_, ?_⟩
  · rw [(notifyRelay_frame _ _).1]
    exact Function.update_same _ _ _
  · rw [(notifyRelay_frame _ _).2.1]
    simp only []
    rw [Function.update_noteq hne, Function.update_noteq hne, Function.update_same]
  · rw [(notifyRelay_frame _ _).2.2]
    exact Function.update_same _ _ _
  · rw [(notifyRelay_frame _ _).1, (notifyRelay_frame _ _).1]
    simp only [Function.update_idem]
  · rw [(notifyRelay_frame _ _).2.1, (notifyRelay_frame _ _).2.1]
    simp only []
    generalize relayPins.getD i 0 = p at hne
    generalize relayFeedbackLedPin = led at hne
    funext q
    by_cases hq : q = led
    · subst hq
      simp
    · by_cases hp : q = p
      · subst hp
        simp [Function.update_noteq hq]
      · simp [Function.update_noteq hq, Function.update_noteq hp]
  · rw [(notifyRelay_frame _ _).2.2, (notifyRelay_frame _ _).2.2]
    simp only [Function.update_idem]
  · rw [(notifyRelay_frame _ _).2.2]
    exact Function.update_same _ _ _

/-- Witness of `set_command_twice`: the command `SET_25_ON` applied twice to the
sample device returns both times, and the commanded state is what relay 0, its
pin and its persisted key hold after each application. -/
theorem set_command_twice_witness :
    validPin 25 = true ∧
    ∃ i g1 g2, i < 4 ∧ relayPins.getD i 0 = 25 ∧
      RelayControlCallback.onWrite sampleGlobals "SET_25_ON".toList [] [] = some g1 ∧
      RelayControlCallback.onWrite g1 "SET_25_ON".toList [] [] = some g2 ∧
      g1.relayStates i = true ∧
      g1.pinLevel (relayPins.getD i 0) = true ∧
      g1.prefs ("relay".toList ++ intToStr i) = some (PrefValue.bool true) ∧
      g2.relayStates = g1.relayStates ∧
      g2.pinLevel = g1.pinLevel ∧
      g2.prefs = g1.prefs ∧
      g2.prefs ("relay".toList ++ intToStr i) = some (PrefValue.bool true) :=
  ⟨by decide,
   set_command_twice sampleGlobals '2' '5' (by decide) (by decide) true [] [] (by decide)⟩

/-! ## Theorems: a subscribe request on a full table -/

/-- With every slot of the pool in use and active, `addSubscription` of a pair
that is not subscribed changes nothing. -/
theorem addSubscription_full (st : McpState) (clientId : Nat) (uri : Str) (now : Nat)
    (hcount : st.subscriptionCount = MAX_SUBSCRIPTIONS)
    (hactive : ∀ i, i < st.subscriptionCount → (st.subscriptions i).active = true)
    (hnew : findSubscription st clientId uri = none) :
    addSubscription st clientId uri now = st := by
  rcases addSubscription_cases st clientId uri now hnew with
    ⟨k, hk, hinactive, _⟩ | ⟨hlt, _, _⟩ | ⟨_, _, he⟩
  · rw [hactive k hk] at hinactive
    exact absurd hinactive (by decide)
  · rw [hcount] at hlt
    exact absurd hlt (lt_irrefl _)
  · exact he

/-- A poll sends nothing for a pair that is not subscribed, and the pair is
still not subscribed after it. -/
theorem checkSubscriptions_not_subscribed (resources : List Resource) (st : McpState)
    (now clientId : Nat) (uri : Str) (hnew : findSubscription st clientId uri = none) :
    (∃ extra, (checkSubscriptions resources st now).sent = st.sent ++ extra ∧
      notificationsTo clientId uri extra = []) ∧
    findSubscription (checkSubscriptions resources st now) clientId uri = none := by
  by_cases ht : 200 ≤ ulongSub now st.lastCheck
  · rw [checkSubscriptions_eq resources st now ht]
    constructor
    · refine ⟨_, rfl, ?_⟩
      unfold notificationsTo
      rw [List.filter_eq_nil_iff]
      intro x hx
      obtain ⟨i, hi, hxi⟩ := List.mem_filterMap.mp hx
      obtain ⟨ha, hc, hu⟩ := changeNotification_some hxi
      intro hp
      simp only [Bool.and_eq_true, beq_iff_eq] at hp
      exact findSubscription_none hnew i (List.mem_range.mp hi) (by rw [← hc]; exact hp.1) ha
        (by rw [← hu]; exact hp.2)
    · unfold findSubscription
      rw [List.find?_range_eq_none]
      intro i hi
      have hi1 : i < st.subscriptionCount := hi
      have hf := polledSubscription_frame resources (st.subscriptions i)
      simp only [hi1, if_true, hf.1, hf.2.1, hf.2.2]
      unfold findSubscription at hnew
      rw [List.find?_range_eq_none] at hnew
      exact hnew i hi1
  · have he : checkSubscriptions resources st now = st := by
      unfold checkSubscriptions
      rw [if_pos (by omega)]
    rw [he]
    exact ⟨⟨[], (List.append_nil _).symm, rfl⟩, hnew⟩

/-- Any number of polls sends nothing for a pair that is not subscribed. -/
theorem polls_not_subscribed (polls : List (List Resource × Nat)) (st : McpState)
    (clientId : Nat) (uri : Str) (hnew : findSubscription st clientId uri = none) :
    ∃ extra, (polls.foldl (fun t p => checkSubscriptions p.1 t p.2) st).sent = st.sent ++ extra ∧
      notificationsTo clientId uri extra = [] := by
  induction polls generalizing st with
  | nil => exact ⟨[], (List.append_nil _).symm, rfl⟩
  | cons p rest ih =>
    obtain ⟨⟨e1, hs1, hn1⟩, hf1⟩ :=
      checkSubscriptions_not_subscribed p.1 st p.2 clientId uri hnew
    obtain ⟨e2, hs2, hn2⟩ := ih (checkSubscriptions p.1 st p.2) hf1
    refine ⟨e1 ++ e2, ?_, ?_⟩
    · rw [List.foldl_cons, hs2, hs1, List.append_assoc]
    · unfold notificationsTo at hn1 hn2 ⊢
      rw [List.filter_append, hn1, hn2]
      rfl

/-- Claim C30. All five slots of the pool are in use and active, and a client
sends a `subscribe` request for a registered uri to which it is not subscribed:
`handleMcpRequest` leaves the subscription table (and the rest of the state)
unchanged and sends the client the one response whose result is
`success = true`; and no poll made afterwards, however many, sends this client a
change notification for this uri. -/
theorem subscribe_on_full_table {F : Type} [Div F] [IntCast F] (s : McpServer F)
    (clientId : Nat) (request : McpRequest) (resources : List Resource) (tools : List Tool)
    (now : Nat) (env : WifiEnv) (outcomes1 outcomes2 : List (Option Int)) (uri : Str)
    (polls : List (List Resource × Nat))
    (hm : request.hasMethod = true) (hi : request.hasId = true)
    (hmethod : request.method = "subscribe".toList)
    (hp : request.hasParams = true) (hu : request.hasUri = true)
    (huri : request.uriCStr = some uri)
    (hreg : ∃ r ∈ resources, r.uri = uri)
    (hcount : s.mcp.subscriptionCount = 5)
    (hactive : ∀ i, i < 5 → (s.mcp.subscriptions i).active = true)
    (hnew : findSubscription s.mcp clientId uri = none) :
    handleMcpRequest s clientId request resources tools now env outcomes1 outcomes2
      = some (sendTXT s clientId (SocketText.result request.id McpResult.success)) ∧
    (sendTXT s clientId (SocketText.result request.id McpResult.success)).mcp = s.mcp ∧
    ∃ extra,
      (polls.foldl (fun t p => checkSubscriptions p.1 t p.2) s.mcp).sent = s.mcp.sent ++ extra ∧
      notificationsTo clientId uri extra = [] := by
  have hg : ¬ (request.hasMethod = false ∨ request.hasId = false) := by simp [hm, hi]
  have hpu : ¬ (request.hasParams = false ∨ request.hasUri = false) := by simp [hp, hu]
  have hany : ¬ (resources.any (fun r => strEqual (some r.uri) request.uriCStr) = false) := by
    obtain ⟨r, hr, hru⟩ := hreg
    have : resources.any (fun r => strEqual (some r.uri) request.uriCStr) = true := by
      rw [List.any_eq_true]
      exact ⟨r, hr, by rw [huri]; simp [strEqual, hru]⟩
    rw [this]
    decide
  have hadd : addSubscription s.mcp clientId uri now = s.mcp :=
    addSubscription_full s.mcp clientId uri now hcount (by rw [hcount]; exact hactive) hnew
  refine ⟨?_, rfl, polls_not_subscribed polls s.mcp clientId uri hnew⟩
  unfold handleMcpRequest
  rw [if_neg hg]
  simp only []
  rw [if_neg (by rw [hmethod]; decide), if_neg (by rw [hmethod]; decide),
    if_neg (by rw [hmethod]; decide), if_pos hmethod, if_neg hpu, if_neg hany, huri,
    Option.getD_some, hadd]

/-- Witness of `subscribe_on_full_table`: the clients 1 to 5 hold the five
slots; client 6 asks with id 9 to subscribe to `relay.0`; the answer is
`success = true`, the table is unchanged, and a poll that finds `relay.0` at
`on` sends client 6 nothing. -/
theorem subscribe_on_full_table_witness :
    fullTable.subscriptionCount = 5 ∧
    findSubscription fullTable 6 "relay.0".toList = none ∧
    handleMcpRequest { sampleServer with mcp := fullTable } 6
        (uriRequest "subscribe".toList 9 "relay.0".toList) (sampleResources "on".toList)
        registeredTools 2000 sampleWifiEnv [] []
      = some (sendTXT { sampleServer with mcp := fullTable } 6
          (SocketText.result 9 McpResult.success)) ∧
    ∃ extra,
      ([(sampleResources "on".toList, 3000)].foldl
          (fun t p => checkSubscriptions p.1 t p.2) fullTable).sent = fullTable.sent ++ extra ∧
      notificationsTo 6 "relay.0".toList extra = [] :=
  ⟨by decide, by decide,
   (subscribe_on_full_table { sampleServer with mcp := fullTable } 6
      (uriRequest "subscribe".toList 9 "relay.0".toList) (sampleResources "on".toList)
      registeredTools 2000 sampleWifiEnv [] [] "relay.0".toList
      [(sampleResources "on".toList, 3000)] (by decide) (by decide) (by decide) (by decide)
      (by decide) (by decide) ⟨_, List.mem_cons_of_mem _ (List.mem_cons_self _ _), rfl⟩
      (by decide) (by decide) (by decide)).1,
   (subscribe_on_full_table { sampleServer with mcp := fullTable } 6
      (uriRequest "subscribe".toList 9 "relay.0".toList) (sampleResources "on".toList)
      registeredTools 2000 sampleWifiEnv [] [] "relay.0".toList
      [(sampleResources "on".toList, 3000)] (by decide) (by decide) (by decide) (by decide)
      (by decide) (by decide) ⟨_, List.mem_cons_of_mem _ (List.mem_cons_self _ _), rfl⟩
      (by decide) (by decide) (by decide)).2.2⟩

/-! ## Theorems: the telemetry task without the buffer lock -/

/-- The connection bookkeeping of `handleBLEConnections` keeps the connection
flag, the characteristic and the time of the last notification. -/
theorem handleBLEConnections_frame {F : Type} (b : BleState F) :
    (handleBLEConnections b).deviceConnected = b.deviceConnected ∧
    (handleBLEConnections b).pDataCharacteristic = b.pDataCharacteristic ∧
    (handleBLEConnections b).lastNotificationTime = b.lastNotificationTime := by
  unfold handleBLEConnections
  simp only []
  split_ifs <;> exact ⟨rfl, rfl, rfl⟩

/-- The document built with the lock from buffers that hold 100 and 200 in
every slot carries 100 and 200. -/
theorem telemetryDocument_loaded (timestamp : Nat) :
    (telemetryDocument loadedGlobals true timestamp).shunt_diff = 100 ∧
    (telemetryDocument loadedGlobals true timestamp).ads2_a0 = 200 := by
  have h10 : (((avgWindow : Nat) : Int) : ℚ) = 10 := by simp [avgWindow]
  have hs : ∀ buffer : Nat → ℚ, bufferSum buffer avgWindow = bufferSum buffer 10 := fun _ => rfl
  have ha : loadedGlobals.adc.ads2_available = true := by decide
  have h1 : |(100 : ℚ)| = 100 := abs_of_pos (by norm_num)
  have h2 : |(200 : ℚ)| = 200 := abs_of_pos (by norm_num)
  constructor
  · show deadband (bleAverages loadedGlobals true).1 = 100
    simp only [bleAverages, if_true, h10, hs, bufferSum_ten, deadband_eq]
    norm_num [loadedGlobals, h1]
  · show deadband (bleAverages loadedGlobals true).2 = 200
    simp only [bleAverages, if_true, ha, h10, hs, bufferSum_ten, deadband_eq]
    norm_num [loadedGlobals, h2]

/-- Claim C26, the code on a failed acquisition. When `bleTask` fails to acquire
the buffer lock, the document it builds carries `0` for both measurements,
whatever the buffers hold, and the pass sends it exactly as it would send a
document computed from the buffers: whenever a client is connected, the
serialised length is within 1..511, the data characteristic is in place and at
least 100 ms have passed since the last notification. On the device whose
buffers hold 100 and 200 in every slot the pass without the lock notifies the
measurements 0 and 0, where the pass with the lock notifies 100 and 200. -/
theorem bleTask_sends_zeros_without_lock {F : Type} [LinearOrderedField F] (g : Globals F)
    (b : BleState F) (timestamp jsonLength now : Nat) :
    (telemetryDocument g false timestamp).shunt_diff = 0 ∧
    (telemetryDocument g false timestamp).ads2_a0 = 0 ∧
    (bleTask g b false timestamp jsonLength now).dataNotifications
      = (if b.deviceConnected = true ∧ (jsonLength > 0 ∧ jsonLength < 512)
            ∧ b.pDataCharacteristic = true
            ∧ ulongSub now b.lastNotificationTime ≥ MIN_NOTIFICATION_INTERVAL_MS then
          b.dataNotifications ++ [telemetryDocument g false timestamp]
        else b.dataNotifications) ∧
    (bleTask loadedGlobals sampleBle false 5000 120 5000).dataNotifications.map
        (fun d => (d.timestamp, d.shunt_diff, d.ads2_a0)) = [(5000, 0, 0)] ∧
    (bleTask loadedGlobals sampleBle true 5000 120 5000).dataNotifications.map
        (fun d => (d.timestamp, d.shunt_diff, d.ads2_a0)) = [(5000, 100, 200)] := by
  have hzero : ∀ {G : Type} [LinearOrderedField G], deadband (((0 : Int) : G)) = 0 := by
    intro G _
    rw [deadband_eq]
    simp
  have hdoc : ∀ {G : Type} [LinearOrderedField G] (g0 : Globals G),
      (telemetryDocument g0 false timestamp).shunt_diff = 0 ∧
      (telemetryDocument g0 false timestamp).ads2_a0 = 0 := by
    intro G _ g0
    constructor
    · show deadband (bleAverages g0 false).1 = 0
      simp only [bleAverages, Bool.false_eq_true, if_false]
      exact hzero
    · show deadband (bleAverages g0 false).2 = 0
      simp only [bleAverages, Bool.false_eq_true, if_false]
      exact hzero
  have hsend : ∀ {G : Type} [LinearOrderedField G] (g0 : Globals G) (b0 : BleState G)
      (lock : Bool) (ts len t : Nat),
      (bleTask g0 b0 lock ts len t).dataNotifications
        = (if b0.deviceConnected = true ∧ (len > 0 ∧ len < 512)
              ∧ b0.pDataCharacteristic = true
              ∧ ulongSub t b0.lastNotificationTime ≥ MIN_NOTIFICATION_INTERVAL_MS then
            b0.dataNotifications ++ [telemetryDocument g0 lock ts]
          else b0.dataNotifications) := by
    intro G _ g0 b0 lock ts len t
    obtain ⟨h1, h2, h3⟩ := handleBLEConnections_frame b0
    have h4 := handleBLEConnections_dataNotifications b0
    unfold bleTask notifyData
    simp only []
    rw [h1, h2, h3]
    by_cases hc : b0.deviceConnected = true
    · by_cases hl : len > 0 ∧ len < 512
      · by_cases hp : b0.pDataCharacteristic = true
        · by_cases hr : ulongSub t b0.lastNotificationTime ≥ MIN_NOTIFICATION_INTERVAL_MS
          · rw [if_pos hc, if_pos hl, if_pos ⟨hp, hc⟩, if_pos hr, if_pos ⟨hc, hl, hp, hr⟩]
            simp only [h4]
          · rw [if_pos hc, if_pos hl, if_pos ⟨hp, hc⟩, if_neg hr,
              if_neg (fun h => hr h.2.2.2), h4]
        · rw [if_pos hc, if_pos hl, if_neg (fun h => hp h.1), if_neg (fun h => hp h.2.2.1), h4]
      · rw [if_pos hc, if_neg hl, if_neg (fun h => hl h.2.1), h4]
    · rw [if_neg hc, if_neg (fun h => hc h.1), h4]
  refine ⟨(hdoc g).1, (hdoc g).2, hsend g b false timestamp jsonLength now, ?_, ?_⟩
  · rw [hsend, if_pos (by decide)]
    simp only [List.map_append, List.map_cons, List.map_nil, (hdoc loadedGlobals).1,
      (hdoc loadedGlobals).2]
    rfl
  · rw [hsend, if_pos (by decide)]
    simp only [List.map_append, List.map_cons, List.map_nil, (telemetryDocument_loaded 5000).1,
      (telemetryDocument_loaded 5000).2]
    rfl

/-! ## Theorems: the ring buffers over successive passes -/

/-- One pass of `dataTask` on the ring buffers: with the lock, the two samples
are written at the cursor and the cursor advances modulo 10; without it,
nothing changes. The offsets never change. -/
theorem dataTaskOn_buffers {F : Type} [Sub F] [IntCast F] (g : Globals F) (t : TickInput) :
    (t.lockAcquired = true →
      (dataTaskOn g t).shuntBuffer
        = Function.update g.shuntBuffer g.bufferIndex (tickSamples g t).1 ∧
      (dataTaskOn g t).ads2Buffer
        = Function.update g.ads2Buffer g.bufferIndex (tickSamples g t).2 ∧
      (dataTaskOn g t).bufferIndex = (g.bufferIndex + 1) % 10) ∧
    (t.lockAcquired = false →
      (dataTaskOn g t).shuntBuffer = g.shuntBuffer ∧
      (dataTaskOn g t).ads2Buffer = g.ads2Buffer ∧
      (dataTaskOn g t).bufferIndex = g.bufferIndex) := by
  constructor
  · intro h
    simp [dataTaskOn, dataTask, tickSamples, h, avgWindow]
  · intro h
    simp [dataTaskOn, dataTask, h]

/-- The ring invariant is kept by any sequence of passes, and the slots from
the number of samples on are not written while that number is below 10. -/
theorem runTicks_ringHolds {F : Type} [Sub F] [IntCast F] (ticks : List TickInput)
    (g : Globals F) (earlier : List (F × F)) (h : RingHolds g earlier) :
    RingHolds (runTicks g ticks) (earlier ++ writtenSamples g ticks) ∧
    ∀ i, (earlier ++ writtenSamples g ticks).length ≤ i → i < 10 →
      (runTicks g ticks).shuntBuffer i = g.shuntBuffer i ∧
      (runTicks g ticks).ads2Buffer i = g.ads2Buffer i := by
  induction ticks generalizing g earlier with
  | nil =>
    simp only [runTicks, writtenSamples, List.foldl_nil, List.append_nil]
    exact ⟨h, fun _ _ _ => ⟨trivial, trivial⟩⟩
  | cons t rest ih =>
    have hrun : runTicks g (t :: rest) = runTicks (dataTaskOn g t) rest := rfl
    rw [hrun]
    cases hl : t.lockAcquired with
    | false =>
      obtain ⟨hs, ha, hb⟩ := (dataTaskOn_buffers g t).2 hl
      have hw : writtenSamples g (t :: rest) = writtenSamples (dataTaskOn g t) rest := by
        simp [writtenSamples, hl]
      rw [hw]
      have hinv : RingHolds (dataTaskOn g t) earlier := by
        unfold RingHolds at h ⊢
        rw [hs, ha, hb]
        exact h
      obtain ⟨h1, h2⟩ := ih (dataTaskOn g t) earlier hinv
      refine ⟨h1, fun i hi hi10 => ?_⟩
      rw [(h2 i hi hi10).1, (h2 i hi hi10).2, hs, ha]
      exact ⟨rfl, rfl⟩
    | true =>
      obtain ⟨hs, ha, hb⟩ := (dataTaskOn_buffers g t).1 hl
      have hw : earlier ++ writtenSamples g (t :: rest)
          = (earlier ++ [tickSamples g t]) ++ writtenSamples (dataTaskOn g t) rest := by
        simp [writtenSamples, hl]
      rw [hw]
      obtain ⟨hidx, hslots⟩ := h
      have hinv : RingHolds (dataTaskOn g t) (earlier ++ [tickSamples g t]) := by
        constructor
        · rw [hb, hidx, List.length_append, List.length_singleton]
          omega
        · intro k hk hk10
          rw [List.length_append, List.length_singleton] at hk hk10
          rw [hs, ha, hidx]
          by_cases hke : k = earlier.length
          · subst hke
            rw [Function.update_same, Function.update_same, List.getElem?_append_right (le_refl _)]
            simp
          · have hklt : k < earlier.length := by omega
            have hne : k % 10 ≠ earlier.length % 10 := by omega
            rw [Function.update_noteq hne, Function.update_noteq hne,
              List.getElem?_append_left hklt]
            exact hslots k hklt (by omega)
      obtain ⟨h1, h2⟩ := ih (dataTaskOn g t) (earlier ++ [tickSamples g t]) hinv
      refine ⟨h1, fun i hi hi10 => ?_⟩
      have hlen : earlier.length + 1 ≤ i := by
        have := hi
        rw [List.length_append, List.length_append, List.length_singleton] at this
        omega
      have hne : i ≠ g.bufferIndex := by
        rw [hidx]
        omega
      rw [(h2 i hi hi10).1, (h2 i hi hi10).2, hs, ha, Function.update_noteq hne,
        Function.update_noteq hne]
      exact ⟨rfl, rfl⟩

/-- The samples written are as many as the passes that acquire the lock. -/
theorem writtenSamples_length {F : Type} [Sub F] [IntCast F] (ticks : List TickInput)
    (g : Globals F) :
    (writtenSamples g ticks).length = (ticks.filter (fun t => t.lockAcquired)).length := by
  induction ticks generalizing g with
  | nil => rfl
  | cons t rest ih =>
    cases hl : t.lockAcquired <;> simp [writtenSamples, List.filter_cons, hl, ih]

/-- Claim C28. Start from zeroed ring buffers with the cursor at 0, run any
sequence of passes of `dataTask`, and let `n` be the number of its passes that
acquire the lock, whose calibrated samples are `writtenSamples`. Then the cursor
is `n mod 10`, which is below 10; for `1 ≤ j ≤ min n 10` the `j`-th most recent
sample of each channel is in slot `(cursor + 10 - j) mod 10` of its buffer; the
slots from `n` on are still 0; and one more pass that acquires the lock writes
its two samples into the slot at the cursor, which for `n ≥ 10` is the slot of
the oldest stored sample (the case `j = 10`), and into no other slot. -/
theorem ring_buffers_overwrite_oldest {F : Type} [Sub F] [IntCast F] (g0 : Globals F)
    (ticks : List TickInput) (hcursor : g0.bufferIndex = 0)
    (hz1 : ∀ i, g0.shuntBuffer i = ((0 : Int) : F))
    (hz2 : ∀ i, g0.ads2Buffer i = ((0 : Int) : F)) :
    (writtenSamples g0 ticks).length = (ticks.filter (fun t => t.lockAcquired)).length ∧
    (runTicks g0 ticks).bufferIndex = (writtenSamples g0 ticks).length % 10 ∧
    (runTicks g0 ticks).bufferIndex < 10 ∧
    (∀ j, 1 ≤ j → j ≤ min (writtenSamples g0 ticks).length 10 →
      (writtenSamples g0 ticks)[(writtenSamples g0 ticks).length - j]?
        = some ((runTicks g0 ticks).shuntBuffer (((runTicks g0 ticks).bufferIndex + 10 - j) % 10),
            (runTicks g0 ticks).ads2Buffer (((runTicks g0 ticks).bufferIndex + 10 - j) % 10))) ∧
    (∀ i, (writtenSamples g0 ticks).length ≤ i → i < 10 →
      (runTicks g0 ticks).shuntBuffer i = ((0 : Int) : F) ∧
      (runTicks g0 ticks).ads2Buffer i = ((0 : Int) : F)) ∧
    (∀ t : TickInput, t.lockAcquired = true →
      (runTicks g0 (ticks ++ [t])).shuntBuffer (runTicks g0 ticks).bufferIndex
        = (tickSamples (runTicks g0 ticks) t).1 ∧
      (runTicks g0 (ticks ++ [t])).ads2Buffer (runTicks g0 ticks).bufferIndex
        = (tickSamples (runTicks g0 ticks) t).2 ∧
      ∀ i, i ≠ (runTicks g0 ticks).bufferIndex →
        (runTicks g0 (ticks ++ [t])).shuntBuffer i = (runTicks g0 ticks).shuntBuffer i ∧
        (runTicks g0 (ticks ++ [t])).ads2Buffer i = (runTicks g0 ticks).ads2Buffer i) := by
  have hinit : RingHolds g0 ([] : List (F × F)) := by
    refine ⟨?_, ?_⟩
    · rw [hcursor]
      rfl
    · intro k hk
      exact absurd hk (Nat.not_lt_zero k)
  obtain ⟨⟨hidx, hslots⟩, hframe⟩ := runTicks_ringHolds ticks g0 [] hinit
  rw [List.nil_append] at hidx hslots hframe
  refine ⟨writtenSamples_length ticks g0, hidx, ?_, fun j hj1 hj2 => ?_, fun i hi hi10 => ?_,
    fun t ht => ?_⟩
  · rw [hidx]
    exact Nat.mod_lt _ (by decide)
  · have hjn : j ≤ (writtenSamples g0 ticks).length := le_trans hj2 (min_le_left _ _)
    have hj10 : j ≤ 10 := le_trans hj2 (min_le_right _ _)
    have hk := hslots ((writtenSamples g0 ticks).length - j) (by omega) (by omega)
    have hmod : ((writtenSamples g0 ticks).length - j) % 10
        = ((runTicks g0 ticks).bufferIndex + 10 - j) % 10 := by
      rw [hidx]
      omega
    rw [hmod] at hk
    exact hk
  · rw [(hframe i hi hi10).1, (hframe i hi hi10).2]
    exact ⟨hz1 i, hz2 i⟩
  · have hrun : runTicks g0 (ticks ++ [t]) = dataTaskOn (runTicks g0 ticks) t := by
      simp [runTicks, List.foldl_append]
    obtain ⟨hs, ha, _⟩ := (dataTaskOn_buffers (runTicks g0 ticks) t).1 ht
    rw [hrun, hs, ha]
    refine ⟨Function.update_same _ _ _, Function.update_same _ _ _, fun i hi => ?_⟩
    exact ⟨Function.update_noteq hi _ _, Function.update_noteq hi _ _⟩

/-- Witness of `ring_buffers_overwrite_oldest`: twelve passes that acquire the
lock, reading 1 to 12 on channel 1, from the zeroed sample device. Twelve
samples are written, the cursor ends at 12 mod 10, and the most recent sample of
each channel is in the slot just before the cursor. -/
theorem ring_buffers_overwrite_oldest_witness :
    sampleGlobals.bufferIndex = 0 ∧
    (writtenSamples sampleGlobals twelveTicks).length = 12 ∧
    (runTicks sampleGlobals twelveTicks).bufferIndex
      = (writtenSamples sampleGlobals twelveTicks).length % 10 ∧
    (runTicks sampleGlobals twelveTicks).bufferIndex < 10 ∧
    (writtenSamples sampleGlobals twelveTicks)[
        (writtenSamples sampleGlobals twelveTicks).length - 1]?
      = some ((runTicks sampleGlobals twelveTicks).shuntBuffer
            (((runTicks sampleGlobals twelveTicks).bufferIndex + 10 - 1) % 10),
          (runTicks sampleGlobals twelveTicks).ads2Buffer
            (((runTicks sampleGlobals twelveTicks).bufferIndex + 10 - 1) % 10)) :=
  ⟨rfl,
   (ring_buffers_overwrite_oldest sampleGlobals twelveTicks rfl
      (fun _ => by simp [sampleGlobals]) (fun _ => by simp [sampleGlobals])).1.trans
      (by decide),
   (ring_buffers_overwrite_oldest sampleGlobals twelveTicks rfl
      (fun _ => by simp [sampleGlobals]) (fun _ => by simp [sampleGlobals])).2.1,
   (ring_buffers_overwrite_oldest sampleGlobals twelveTicks rfl
      (fun _ => by simp [sampleGlobals]) (fun _ => by simp [sampleGlobals])).2.2.1,
   (ring_buffers_overwrite_oldest sampleGlobals twelveTicks rfl
      (fun _ => by simp [sampleGlobals]) (fun _ => by simp [sampleGlobals])).2.2.2.1 1
      (le_refl 1)
      (by
        rw [(ring_buffers_overwrite_oldest sampleGlobals twelveTicks rfl
          (fun _ => by simp [sampleGlobals]) (fun _ => by simp [sampleGlobals])).1]
        decide)⟩

/-! ## Theorems: the readers of the ring buffers and `bufferMutex` -/

/-- The four statements of a pass of `dataTask` that acquires the lock make up
`dataTask` with the lock acquired, and the start of a pass that finds the mutex
held by `bleTask` is `dataTask` with the lock not acquired. -/
theorem dataTask_statements {F : Type} [Sub F] [IntCast F] (sys : BufferSystem F)
    (now1 : Nat) (begin1Ok : Bool) (reading1 : Option Int) (now2 : Nat) (begin2Ok : Bool)
    (reading2 : Option Int) (hpc : sys.pc = DataPc.idle) :
    (sys.bufferMutex = none →
      (dataTaskAdvance (dataTaskWriteAds2 (dataTaskWriteShunt
          (dataTaskBegin sys now1 begin1Ok reading1)) now2 begin2Ok reading2)).g
        = dataTask sys.g now1 begin1Ok reading1 true now2 begin2Ok reading2) ∧
    (sys.bufferMutex = some BufferTask.bleTask →
      (dataTaskBegin sys now1 begin1Ok reading1).g
        = dataTask sys.g now1 begin1Ok reading1 false now2 begin2Ok reading2) := by
  constructor
  · intro hm
    simp [dataTaskAdvance, dataTaskWriteAds2, dataTaskWriteShunt, dataTaskBegin, dataTask,
      hpc, hm]
  · intro hm
    simp [dataTaskBegin, dataTask, hpc, hm]

/-- In every interleaving, `dataTask` is inside its locked region exactly while
it holds the mutex, and every read of `bleTask` is made while `bleTask` holds the
mutex and `dataTask` is outside its locked region. -/
theorem bleTask_reads_outside_writes {F : Type} [Sub F] [Add F] [Div F] [IntCast F]
    (sys0 sys : BufferSystem F) (h : BufferReachable sys0 sys)
    (h0 : sys0.pc = DataPc.idle) (hm0 : sys0.bufferMutex ≠ some BufferTask.dataTask)
    (hr0 : sys0.reads = []) :
    (sys.pc ≠ DataPc.idle ↔ sys.bufferMutex = some BufferTask.dataTask) ∧
    ∀ r ∈ sys.reads, r.reader = BufferReader.bleTask →
      r.pc = DataPc.idle ∧ r.holdsLock = true := by
  induction h with
  | start =>
    refine ⟨⟨fun hc => absurd h0 hc, fun hc => absurd hc hm0⟩, ?_⟩
    rw [hr0]
    intro r hr
    cases hr
  | @dataBegin s now1 begin1Ok reading1 _ ih =>
    obtain ⟨ipc, ireads⟩ := ih
    unfold dataTaskBegin
    by_cases hp : s.pc = DataPc.idle
    · rw [if_pos hp]
      simp only []
      by_cases hmu : s.bufferMutex = none
      · rw [if_pos hmu]
        exact ⟨⟨fun _ => rfl, fun _ => by simp⟩, ireads⟩
      · rw [if_neg hmu]
        exact ⟨ipc, ireads⟩
    · rw [if_neg hp]
      exact ⟨ipc, ireads⟩
  | @dataWriteShunt s _ ih =>
    obtain ⟨ipc, ireads⟩ := ih
    unfold dataTaskWriteShunt
    by_cases hp : s.pc = DataPc.locked
    · rw [if_pos hp]
      refine ⟨⟨fun _ => ipc.mp (by rw [hp]; decide), fun _ => by simp⟩, ireads⟩
    · rw [if_neg hp]
      exact ⟨ipc, ireads⟩
  | @dataWriteAds2 s now2 begin2Ok reading2 _ ih =>
    obtain ⟨ipc, ireads⟩ := ih
    unfold dataTaskWriteAds2
    by_cases hp : s.pc = DataPc.shuntWritten
    · rw [if_pos hp]
      refine ⟨⟨fun _ => ipc.mp (by rw [hp]; decide), fun _ => by simp⟩, ireads⟩
    · rw [if_neg hp]
      exact ⟨ipc, ireads⟩
  | @dataAdvance s _ ih =>
    obtain ⟨ipc, ireads⟩ := ih
    unfold dataTaskAdvance
    by_cases hp : s.pc = DataPc.bothWritten
    · rw [if_pos hp]
      refine ⟨⟨fun hc => absurd rfl hc, fun hc => by simp at hc⟩, ireads⟩
    · rw [if_neg hp]
      exact ⟨ipc, ireads⟩
  | @bleTake s _ ih =>
    obtain ⟨ipc, ireads⟩ := ih
    unfold bleTaskTake
    by_cases hmu : s.bufferMutex = none
    · rw [if_pos hmu]
      refine ⟨⟨fun hc => ?_, fun hc => by simp at hc⟩, ireads⟩
      have := ipc.mp hc
      rw [hmu] at this
      cases this
    · rw [if_neg hmu]
      exact ⟨ipc, ireads⟩
  | @bleRead s _ ih =>
    obtain ⟨ipc, ireads⟩ := ih
    unfold bleTaskRead
    by_cases hmu : s.bufferMutex = some BufferTask.bleTask
    · rw [if_pos hmu]
      have hidle : s.pc = DataPc.idle := by
        by_contra hc
        have := ipc.mp hc
        rw [hmu] at this
        cases this
      refine ⟨⟨fun hc => absurd hidle hc, fun hc => by simp at hc⟩, ?_⟩
      intro r hr hrd
      simp only [List.mem_append, List.mem_singleton] at hr
      rcases hr with hr | hr
      · exact ireads r hr hrd
      · rw [hr]
        exact ⟨hidle, rfl⟩
    · rw [if_neg hmu]
      exact ⟨ipc, ireads⟩
  | @shuntAccessor s _ ih =>
    obtain ⟨ipc, ireads⟩ := ih
    unfold getShuntDiffValue
    refine ⟨ipc, ?_⟩
    intro r hr hrd
    simp only [List.mem_append, List.mem_singleton] at hr
    rcases hr with hr | hr
    · exact ireads r hr hrd
    · rw [hr] at hrd
      cases hrd
  | @ads2Accessor s _ ih =>
    obtain ⟨ipc, ireads⟩ := ih
    unfold getAds2A0Value
    by_cases ha : s.g.adc.ads2_available = false
    · rw [if_pos ha]
      exact ⟨ipc, ireads⟩
    · rw [if_neg ha]
      refine ⟨ipc, ?_⟩
      intro r hr hrd
      simp only [List.mem_append, List.mem_singleton] at hr
      rcases hr with hr | hr
      · exact ireads r hr hrd
      · rw [hr] at hrd
        cases hrd

/-- Claim C27, the code on one interleaving. The accessors `getShuntDiffValue`
and `getAds2A0Value` read the ring buffers without taking `bufferMutex`,
wherever `dataTask` stands. From the sample system: `dataTask` reads 160 on
channel 1, takes the mutex and writes slot 0 of `shuntBuffer`; before it has
written slot 0 of `ads2Buffer` the two accessors run. Both reads are made while
`dataTask` holds the mutex, with the slot of channel 1 written (160) and the
slot of channel 2 not yet written (0, where the pass then writes 320): the
averages they return are 16 and 0. -/
theorem accessors_read_half_written_buffers {F : Type} [Add F] [Div F] [IntCast F]
    (sys : BufferSystem F) :
    (getShuntDiffValue sys).bufferMutex = sys.bufferMutex ∧
    (getShuntDiffValue sys).reads.map (fun r => (r.reader, r.pc, r.holdsLock))
      = sys.reads.map (fun r => (r.reader, r.pc, r.holdsLock))
        ++ [(BufferReader.getShuntDiffValue, sys.pc, false)] ∧
    BufferReachable sampleSystem tornRead ∧
    tornRead.pc = DataPc.shuntWritten ∧
    tornRead.bufferMutex = some BufferTask.dataTask ∧
    tornRead.reads.map (fun r => (r.reader, r.pc, r.holdsLock))
      = [(BufferReader.getShuntDiffValue, DataPc.shuntWritten, false),
         (BufferReader.getAds2A0Value, DataPc.shuntWritten, false)] ∧
    tornRead.g.shuntBuffer 0 = 160 ∧
    tornRead.g.ads2Buffer 0 = 0 ∧
    (dataTaskAdvance (dataTaskWriteAds2 tornRead 1001 true (some 320))).g.ads2Buffer 0 = 320 ∧
    tornRead.reads.map (fun r => r.averages) = [[16], [0]] := by
  have hstate : tornRead.g.shuntBuffer = Function.update (fun _ => (0 : ℚ)) 0 160 ∧
      tornRead.g.ads2Buffer = (fun _ => (0 : ℚ)) := by
    constructor
    · show Function.update (fun _ => (0 : ℚ)) 0 (((160 : Int) : ℚ) - 0) = _
      norm_num
    · rfl
  refine ⟨rfl, ?_, ?_, by decide, by decide, by decide, ?_, ?_, ?_, ?_⟩
  · simp [getShuntDiffValue]
  · exact BufferReachable.ads2Accessor (BufferReachable.shuntAccessor
      (BufferReachable.dataWriteShunt
        (BufferReachable.dataBegin 1000 true (some 160) BufferReachable.start)))
  · rw [hstate.1]
    simp
  · rw [hstate.2]
  · show Function.update tornRead.g.ads2Buffer 0 (((320 : Int) : ℚ) - 0) 0 = 320
    simp
  · have h1 : getBufferAverage tornRead.g.shuntBuffer 10 = 16 := by
      unfold getBufferAverage
      rw [bufferSum_ten, hstate.1]
      norm_num [Function.update]
    have h2 : getBufferAverage tornRead.g.ads2Buffer 10 = 0 := by
      unfold getBufferAverage
      rw [bufferSum_ten, hstate.2]
      norm_num
    show [[getBufferAverage tornRead.g.shuntBuffer 10],
      [getBufferAverage tornRead.g.ads2Buffer 10]] = _
    rw [h1, h2]

end Firmware
